import Mathlib

/-!
# QualcommCameraHardware: a shallow embedding of `libcamera2/QualcommCameraHardware.cpp`

The session object of the camera HAL is embedded as a record of its member
variables; each member function becomes a function on that record.  Calls
that leave the process (ioctls on the control device, buffer registration,
thread creation, consumer callbacks) are appended to a chronological log,
and their outcomes are read from an environment `Env`.

Machine integers are mathematical integers that are wrapped to 32 bits where
the source computes on `int` / `uint32_t`.
-/

namespace android

/-! ## 32-bit machine arithmetic -/

/-- The bit pattern of a 32-bit value, as a number in `[0, 2^32)`. -/
def toU32 (x : Int) : Int := x % 4294967296

/-- A value wrapped to the range of `int` (two's complement, 32 bits). -/
def toS32 (x : Int) : Int := (x + 2147483648) % 4294967296 - 2147483648

/-- The operator `~x` on `int`. -/
def not32 (x : Int) : Int := -x - 1

/-- The operator `x & y` on `int`: bitwise and of the two bit patterns. -/
def and32 (x y : Int) : Int :=
  toS32 (Int.ofNat (Nat.land (toU32 x).toNat (toU32 y).toNat))

/-- The operator `x & ~1` on `uint32_t`. -/
def clearBit0 (x : Nat) : Nat := Nat.land (x % 4294967296) 4294967294

/-! ## Cropping in place -/

/-- A value of `uint32_t` arithmetic. -/
def wrap32 (n : Nat) : Nat := n % 4294967296

/-- The difference `a - b` in `uint32_t`. -/
def sub32 (a b : Nat) : Nat :=
  (a % 4294967296 + (4294967296 - b % 4294967296)) % 4294967296

/-- One call `memcpy(image + dst, image + src, n)` inside a buffer. -/
structure memcpy_call where
  dst : Nat
  src : Nat
  n : Nat
deriving DecidableEq, Repr

/-- The two regions of a call have a byte in common. -/
def memcpy_call.overlaps (c : memcpy_call) : Bool :=
  decide (0 < c.n ∧ c.dst < c.src + c.n ∧ c.src < c.dst + c.n)

/-- Every byte the call reads or writes lies within a buffer of `size` bytes. -/
def memcpy_call.within (size : Nat) (c : memcpy_call) : Bool :=
  decide (c.n = 0 ∨ (c.dst + c.n ≤ size ∧ c.src + c.n ≤ size))

/-- An implementation of `memcpy` that copies byte by byte from the lowest
address.  The library function is not part of the source; the memory of the
buffer is the function from the byte offset to the byte. -/
def memcpyAscending (mem : Nat → Nat) (dst src n : Nat) : Nat → Nat :=
  (List.range n).foldl (fun m k => Function.update m (dst + k) (m (src + k))) mem

/-- An implementation of `memcpy` that copies byte by byte from the highest
address. -/
def memcpyDescending (mem : Nat → Nat) (dst src : Nat) : Nat → Nat → Nat
  | 0 => mem
  | n + 1 => memcpyDescending (Function.update mem (dst + n) (mem (src + n))) dst src n

/-- What the C standard promises of `memcpy`: when the two regions do not
overlap, the `n` bytes at `dst` become the bytes that `src` held and nothing
else changes.  Of a call with overlapping regions it promises nothing. -/
def MemcpyDefined (memcpy : (Nat → Nat) → Nat → Nat → Nat → Nat → Nat) : Prop :=
  ∀ mem dst src n, (dst + n ≤ src ∨ src + n ≤ dst) →
    ∀ a, memcpy mem dst src n a
      = if dst ≤ a ∧ a < dst + n then mem (src + (a - dst)) else mem a

/-- The function `crop_yuv420`, with the implementation of `memcpy` it is
linked with as an argument.  The image is the function from the byte offset
to the byte; the sizes and the loop counters are `uint32_t`. -/
def crop_yuv420 (memcpy : (Nat → Nat) → Nat → Nat → Nat → Nat → Nat)
    (width height cropped_width cropped_height : Nat) (image : Nat → Nat) : Nat → Nat :=
  let x := sub32 width cropped_width / 2
  let y := sub32 height cropped_height / 2
  let x := clearBit0 x
  let y := clearBit0 y
  let image := (List.range cropped_height).foldl
    (fun img i => memcpy img (wrap32 (i * cropped_width))
      (wrap32 (width * wrap32 (y + i)) + x) cropped_width) image
  let chroma_src := wrap32 (width * height)
  let chroma_dst := wrap32 (cropped_width * cropped_height)
  let cropped_height := cropped_height / 2
  let y := y / 2
  (List.range cropped_height).foldl
    (fun img i => memcpy img (chroma_dst + wrap32 (i * cropped_width))
      (chroma_src + wrap32 (width * wrap32 (y + i)) + x) cropped_width) image

/-- The calls of `memcpy` that `crop_yuv420` makes, in order: they depend on
the sizes only. -/
def crop_yuv420_calls (width height cropped_width cropped_height : Nat) : List memcpy_call :=
  let x := sub32 width cropped_width / 2
  let y := sub32 height cropped_height / 2
  let x := clearBit0 x
  let y := clearBit0 y
  let luma := (List.range cropped_height).map
    (fun i => memcpy_call.mk (wrap32 (i * cropped_width))
      (wrap32 (width * wrap32 (y + i)) + x) cropped_width)
  let chroma_src := wrap32 (width * height)
  let chroma_dst := wrap32 (cropped_width * cropped_height)
  let cropped_height := cropped_height / 2
  let y := y / 2
  let chroma := (List.range cropped_height).map
    (fun i => memcpy_call.mk (chroma_dst + wrap32 (i * cropped_width))
      (chroma_src + wrap32 (width * wrap32 (y + i)) + x) cropped_width)
  luma ++ chroma

/-- Every access of `crop_yuv420` lies within a buffer of `size` bytes. -/
def crop_yuv420_within (size width height cropped_width cropped_height : Nat) : Bool :=
  (crop_yuv420_calls width height cropped_width cropped_height).all
    (fun c => c.within size)

/-! ## Status codes (`utils/Errors.h`) -/

/-- Status codes are plain `int`s; `NO_ERROR` is the only zero one. -/
abbrev status_t := Int

def NO_ERROR : status_t := 0
def UNKNOWN_ERROR : status_t := -2147483648
def BAD_VALUE : status_t := -22

/-- The constant `NOT_FOUND` of the source. -/
def NOT_FOUND : Int := -1

def MAX_ZOOM_LEVEL : Int := 5
def THUMBNAIL_WIDTH : Int := 512
def THUMBNAIL_HEIGHT : Int := 384
def DEFAULT_PICTURE_WIDTH : Int := 2048
def DEFAULT_PICTURE_HEIGHT : Int := 1536
def THUMBNAIL_BUFFER_SIZE : Int := (THUMBNAIL_WIDTH * THUMBNAIL_HEIGHT * 3).tdiv 2

/-! ## Message types (`ui/Camera.h`) -/

def CAMERA_MSG_ERROR : Nat := 0x001
def CAMERA_MSG_SHUTTER : Nat := 0x002
def CAMERA_MSG_FOCUS : Nat := 0x004
def CAMERA_MSG_ZOOM : Nat := 0x008
def CAMERA_MSG_PREVIEW_FRAME : Nat := 0x010
def CAMERA_MSG_VIDEO_FRAME : Nat := 0x020
def CAMERA_MSG_POSTVIEW_FRAME : Nat := 0x040
def CAMERA_MSG_RAW_IMAGE : Nat := 0x080
def CAMERA_MSG_COMPRESSED_IMAGE : Nat := 0x100

/-! ## Sizes -/

structure camera_size_type where
  width : Int
  height : Int
deriving DecidableEq, Repr

def DEFAULT_PREVIEW_SETTING : Nat := 2

def preview_sizes : List camera_size_type :=
  [ ⟨1280, 720⟩, ⟨800, 480⟩, ⟨720, 480⟩, ⟨640, 480⟩, ⟨576, 432⟩, ⟨480, 320⟩,
    ⟨384, 288⟩, ⟨352, 288⟩, ⟨320, 240⟩, ⟨240, 160⟩, ⟨176, 144⟩ ]

def PREVIEW_SIZE_COUNT : Nat := preview_sizes.length

/-! ## Attribute tables -/

/-- Enumerators of the vendor headers used as table values.  Their numeric
values are not part of the sources, so they are kept symbolic; `DONT_CARE`
is the source's own constant. -/
inductive camera_enum
  | CAMERA_WB_AUTO | CAMERA_WB_INCANDESCENT | CAMERA_WB_FLUORESCENT
  | CAMERA_WB_DAYLIGHT | CAMERA_WB_CLOUDY_DAYLIGHT
  | CAMERA_EFFECT_OFF | CAMERA_EFFECT_MONO | CAMERA_EFFECT_NEGATIVE
  | CAMERA_EFFECT_SOLARIZE | CAMERA_EFFECT_SEPIA | CAMERA_EFFECT_POSTERIZE
  | CAMERA_EFFECT_WHITEBOARD | CAMERA_EFFECT_BLACKBOARD | CAMERA_EFFECT_AQUA
  | CAMERA_ANTIBANDING_OFF | CAMERA_ANTIBANDING_50HZ | CAMERA_ANTIBANDING_60HZ
  | CAMERA_ANTIBANDING_AUTO
  | AF_MODE_AUTO
  | DONT_CARE
deriving DecidableEq, Repr

abbrev camera_antibanding_type := camera_enum

structure str_map where
  desc : String
  val : camera_enum
deriving DecidableEq, Repr

/-- Linear search of a table by description.  The source returns the `int`
value or `NOT_FOUND` (-1); the enumerators are never -1, so `NOT_FOUND` is
rendered as `none`.  A null `name` is `none`. -/
def attr_lookup (arr : List str_map) (name : Option String) : Option camera_enum :=
  match name with
  | none => none
  | some n => (arr.find? (fun e => e.desc == n)).map (fun e => e.val)

def whitebalance : List str_map :=
  [ ⟨"auto", .CAMERA_WB_AUTO⟩, ⟨"incandescent", .CAMERA_WB_INCANDESCENT⟩,
    ⟨"fluorescent", .CAMERA_WB_FLUORESCENT⟩, ⟨"daylight", .CAMERA_WB_DAYLIGHT⟩,
    ⟨"cloudy-daylight", .CAMERA_WB_CLOUDY_DAYLIGHT⟩ ]

def effects : List str_map :=
  [ ⟨"none", .CAMERA_EFFECT_OFF⟩, ⟨"mono", .CAMERA_EFFECT_MONO⟩,
    ⟨"negative", .CAMERA_EFFECT_NEGATIVE⟩, ⟨"solarize", .CAMERA_EFFECT_SOLARIZE⟩,
    ⟨"sepia", .CAMERA_EFFECT_SEPIA⟩, ⟨"posterize", .CAMERA_EFFECT_POSTERIZE⟩,
    ⟨"whiteboard", .CAMERA_EFFECT_WHITEBOARD⟩, ⟨"blackboard", .CAMERA_EFFECT_BLACKBOARD⟩,
    ⟨"aqua", .CAMERA_EFFECT_AQUA⟩ ]

def antibanding : List str_map :=
  [ ⟨"off", .CAMERA_ANTIBANDING_OFF⟩, ⟨"50hz", .CAMERA_ANTIBANDING_50HZ⟩,
    ⟨"60hz", .CAMERA_ANTIBANDING_60HZ⟩, ⟨"auto", .CAMERA_ANTIBANDING_AUTO⟩ ]

def flash : List str_map :=
  [ ⟨"off", .DONT_CARE⟩, ⟨"auto", .DONT_CARE⟩, ⟨"on", .DONT_CARE⟩ ]

def focus_modes : List str_map :=
  [ ⟨"auto", .DONT_CARE⟩, ⟨"infinity", .DONT_CARE⟩ ]

/-- The function `create_sizes_str`: the sizes as `WxH`, separated by commas. -/
def create_sizes_str (sizes : List camera_size_type) : String :=
  ",".intercalate (sizes.map (fun sz => toString sz.width ++ "x" ++ toString sz.height))

/-- The function `create_values_str`: the descriptions of a table, separated
by commas. -/
def create_values_str (values : List str_map) : String :=
  ",".intercalate (values.map (fun v => v.desc))

/-! ## Antibanding by country -/

structure country_map where
  country_code : Nat
  type : camera_antibanding_type
deriving DecidableEq, Repr

/-- Entries 0 to 24 of the table `country_numeric`. -/
def country_numeric_0 : List country_map :=
  [
    ⟨202, .CAMERA_ANTIBANDING_50HZ⟩, ⟨204, .CAMERA_ANTIBANDING_50HZ⟩,
    ⟨206, .CAMERA_ANTIBANDING_50HZ⟩, ⟨208, .CAMERA_ANTIBANDING_50HZ⟩,
    ⟨212, .CAMERA_ANTIBANDING_50HZ⟩, ⟨213, .CAMERA_ANTIBANDING_50HZ⟩,
    ⟨214, .CAMERA_ANTIBANDING_50HZ⟩, ⟨216, .CAMERA_ANTIBANDING_50HZ⟩,
    ⟨219, .CAMERA_ANTIBANDING_50HZ⟩, ⟨220, .CAMERA_ANTIBANDING_50HZ⟩,
    ⟨222, .CAMERA_ANTIBANDING_50HZ⟩, ⟨226, .CAMERA_ANTIBANDING_50HZ⟩,
    ⟨228, .CAMERA_ANTIBANDING_50HZ⟩, ⟨230, .CAMERA_ANTIBANDING_50HZ⟩,
    ⟨231, .CAMERA_ANTIBANDING_50HZ⟩, ⟨232, .CAMERA_ANTIBANDING_50HZ⟩,
    ⟨234, .CAMERA_ANTIBANDING_50HZ⟩, ⟨235, .CAMERA_ANTIBANDING_50HZ⟩,
    ⟨238, .CAMERA_ANTIBANDING_50HZ⟩, ⟨240, .CAMERA_ANTIBANDING_50HZ⟩,
    ⟨242, .CAMERA_ANTIBANDING_50HZ⟩, ⟨244, .CAMERA_ANTIBANDING_50HZ⟩,
    ⟨246, .CAMERA_ANTIBANDING_50HZ⟩, ⟨247, .CAMERA_ANTIBANDING_50HZ⟩,
    ⟨248, .CAMERA_ANTIBANDING_50HZ⟩ ]

/-- Entries 25 to 49 of the table `country_numeric`. -/
def country_numeric_1 : List country_map :=
  [
    ⟨250, .CAMERA_ANTIBANDING_50HZ⟩, ⟨255, .CAMERA_ANTIBANDING_50HZ⟩,
    ⟨257, .CAMERA_ANTIBANDING_50HZ⟩, ⟨259, .CAMERA_ANTIBANDING_50HZ⟩,
    ⟨260, .CAMERA_ANTIBANDING_50HZ⟩, ⟨262, .CAMERA_ANTIBANDING_50HZ⟩,
    ⟨266, .CAMERA_ANTIBANDING_50HZ⟩, ⟨268, .CAMERA_ANTIBANDING_50HZ⟩,
    ⟨270, .CAMERA_ANTIBANDING_50HZ⟩, ⟨272, .CAMERA_ANTIBANDING_50HZ⟩,
    ⟨274, .CAMERA_ANTIBANDING_50HZ⟩, ⟨276, .CAMERA_ANTIBANDING_50HZ⟩,
    ⟨278, .CAMERA_ANTIBANDING_50HZ⟩, ⟨280, .CAMERA_ANTIBANDING_50HZ⟩,
    ⟨282, .CAMERA_ANTIBANDING_50HZ⟩, ⟨283, .CAMERA_ANTIBANDING_50HZ⟩,
    ⟨284, .CAMERA_ANTIBANDING_50HZ⟩, ⟨286, .CAMERA_ANTIBANDING_50HZ⟩,
    ⟨288, .CAMERA_ANTIBANDING_50HZ⟩, ⟨290, .CAMERA_ANTIBANDING_50HZ⟩,
    ⟨293, .CAMERA_ANTIBANDING_50HZ⟩, ⟨294, .CAMERA_ANTIBANDING_50HZ⟩,
    ⟨295, .CAMERA_ANTIBANDING_50HZ⟩, ⟨297, .CAMERA_ANTIBANDING_50HZ⟩,
    ⟨302, .CAMERA_ANTIBANDING_60HZ⟩ ]

/-- Entries 50 to 74 of the table `country_numeric`. -/
def country_numeric_2 : List country_map :=
  [
    ⟨310, .CAMERA_ANTIBANDING_60HZ⟩, ⟨311, .CAMERA_ANTIBANDING_60HZ⟩,
    ⟨312, .CAMERA_ANTIBANDING_60HZ⟩, ⟨313, .CAMERA_ANTIBANDING_60HZ⟩,
    ⟨314, .CAMERA_ANTIBANDING_60HZ⟩, ⟨315, .CAMERA_ANTIBANDING_60HZ⟩,
    ⟨316, .CAMERA_ANTIBANDING_60HZ⟩, ⟨330, .CAMERA_ANTIBANDING_60HZ⟩,
    ⟨334, .CAMERA_ANTIBANDING_60HZ⟩, ⟨338, .CAMERA_ANTIBANDING_50HZ⟩,
    ⟨340, .CAMERA_ANTIBANDING_50HZ⟩, ⟨342, .CAMERA_ANTIBANDING_50HZ⟩,
    ⟨346, .CAMERA_ANTIBANDING_60HZ⟩, ⟨350, .CAMERA_ANTIBANDING_60HZ⟩,
    ⟨352, .CAMERA_ANTIBANDING_50HZ⟩, ⟨354, .CAMERA_ANTIBANDING_60HZ⟩,
    ⟨362, .CAMERA_ANTIBANDING_50HZ⟩, ⟨363, .CAMERA_ANTIBANDING_60HZ⟩,
    ⟨364, .CAMERA_ANTIBANDING_60HZ⟩, ⟨365, .CAMERA_ANTIBANDING_60HZ⟩,
    ⟨366, .CAMERA_ANTIBANDING_50HZ⟩, ⟨368, .CAMERA_ANTIBANDING_60HZ⟩,
    ⟨370, .CAMERA_ANTIBANDING_60HZ⟩, ⟨372, .CAMERA_ANTIBANDING_60HZ⟩,
    ⟨401, .CAMERA_ANTIBANDING_50HZ⟩ ]

/-- Entries 75 to 99 of the table `country_numeric`. -/
def country_numeric_3 : List country_map :=
  [
    ⟨402, .CAMERA_ANTIBANDING_50HZ⟩, ⟨404, .CAMERA_ANTIBANDING_50HZ⟩,
    ⟨405, .CAMERA_ANTIBANDING_50HZ⟩, ⟨410, .CAMERA_ANTIBANDING_50HZ⟩,
    ⟨413, .CAMERA_ANTIBANDING_50HZ⟩, ⟨414, .CAMERA_ANTIBANDING_50HZ⟩,
    ⟨415, .CAMERA_ANTIBANDING_50HZ⟩, ⟨416, .CAMERA_ANTIBANDING_50HZ⟩,
    ⟨417, .CAMERA_ANTIBANDING_50HZ⟩, ⟨418, .CAMERA_ANTIBANDING_50HZ⟩,
    ⟨419, .CAMERA_ANTIBANDING_50HZ⟩, ⟨420, .CAMERA_ANTIBANDING_60HZ⟩,
    ⟨421, .CAMERA_ANTIBANDING_50HZ⟩, ⟨422, .CAMERA_ANTIBANDING_50HZ⟩,
    ⟨424, .CAMERA_ANTIBANDING_50HZ⟩, ⟨425, .CAMERA_ANTIBANDING_50HZ⟩,
    ⟨426, .CAMERA_ANTIBANDING_50HZ⟩, ⟨427, .CAMERA_ANTIBANDING_50HZ⟩,
    ⟨428, .CAMERA_ANTIBANDING_50HZ⟩, ⟨429, .CAMERA_ANTIBANDING_50HZ⟩,
    ⟨430, .CAMERA_ANTIBANDING_50HZ⟩, ⟨431, .CAMERA_ANTIBANDING_50HZ⟩,
    ⟨432, .CAMERA_ANTIBANDING_50HZ⟩, ⟨434, .CAMERA_ANTIBANDING_50HZ⟩,
    ⟨436, .CAMERA_ANTIBANDING_50HZ⟩ ]

/-- Entries 100 to 124 of the table `country_numeric`. -/
def country_numeric_4 : List country_map :=
  [
    ⟨437, .CAMERA_ANTIBANDING_50HZ⟩, ⟨438, .CAMERA_ANTIBANDING_50HZ⟩,
    ⟨440, .CAMERA_ANTIBANDING_60HZ⟩, ⟨441, .CAMERA_ANTIBANDING_60HZ⟩,
    ⟨452, .CAMERA_ANTIBANDING_50HZ⟩, ⟨454, .CAMERA_ANTIBANDING_50HZ⟩,
    ⟨455, .CAMERA_ANTIBANDING_50HZ⟩, ⟨456, .CAMERA_ANTIBANDING_50HZ⟩,
    ⟨457, .CAMERA_ANTIBANDING_50HZ⟩, ⟨460, .CAMERA_ANTIBANDING_50HZ⟩,
    ⟨466, .CAMERA_ANTIBANDING_60HZ⟩, ⟨470, .CAMERA_ANTIBANDING_50HZ⟩,
    ⟨472, .CAMERA_ANTIBANDING_50HZ⟩, ⟨502, .CAMERA_ANTIBANDING_50HZ⟩,
    ⟨505, .CAMERA_ANTIBANDING_50HZ⟩, ⟨510, .CAMERA_ANTIBANDING_50HZ⟩,
    ⟨514, .CAMERA_ANTIBANDING_50HZ⟩, ⟨515, .CAMERA_ANTIBANDING_60HZ⟩,
    ⟨520, .CAMERA_ANTIBANDING_50HZ⟩, ⟨525, .CAMERA_ANTIBANDING_50HZ⟩,
    ⟨530, .CAMERA_ANTIBANDING_50HZ⟩, ⟨535, .CAMERA_ANTIBANDING_60HZ⟩,
    ⟨536, .CAMERA_ANTIBANDING_50HZ⟩, ⟨537, .CAMERA_ANTIBANDING_50HZ⟩,
    ⟨539, .CAMERA_ANTIBANDING_50HZ⟩ ]

/-- Entries 125 to 149 of the table `country_numeric`. -/
def country_numeric_5 : List country_map :=
  [
    ⟨541, .CAMERA_ANTIBANDING_50HZ⟩, ⟨542, .CAMERA_ANTIBANDING_50HZ⟩,
    ⟨544, .CAMERA_ANTIBANDING_60HZ⟩, ⟨545, .CAMERA_ANTIBANDING_50HZ⟩,
    ⟨546, .CAMERA_ANTIBANDING_50HZ⟩, ⟨548, .CAMERA_ANTIBANDING_50HZ⟩,
    ⟨602, .CAMERA_ANTIBANDING_50HZ⟩, ⟨603, .CAMERA_ANTIBANDING_50HZ⟩,
    ⟨604, .CAMERA_ANTIBANDING_50HZ⟩, ⟨605, .CAMERA_ANTIBANDING_50HZ⟩,
    ⟨606, .CAMERA_ANTIBANDING_50HZ⟩, ⟨607, .CAMERA_ANTIBANDING_50HZ⟩,
    ⟨608, .CAMERA_ANTIBANDING_50HZ⟩, ⟨609, .CAMERA_ANTIBANDING_50HZ⟩,
    ⟨610, .CAMERA_ANTIBANDING_50HZ⟩, ⟨611, .CAMERA_ANTIBANDING_50HZ⟩,
    ⟨613, .CAMERA_ANTIBANDING_50HZ⟩, ⟨614, .CAMERA_ANTIBANDING_50HZ⟩,
    ⟨616, .CAMERA_ANTIBANDING_50HZ⟩, ⟨617, .CAMERA_ANTIBANDING_50HZ⟩,
    ⟨618, .CAMERA_ANTIBANDING_50HZ⟩, ⟨619, .CAMERA_ANTIBANDING_50HZ⟩,
    ⟨620, .CAMERA_ANTIBANDING_50HZ⟩, ⟨621, .CAMERA_ANTIBANDING_50HZ⟩,
    ⟨622, .CAMERA_ANTIBANDING_50HZ⟩ ]

/-- Entries 150 to 174 of the table `country_numeric`. -/
def country_numeric_6 : List country_map :=
  [
    ⟨623, .CAMERA_ANTIBANDING_50HZ⟩, ⟨624, .CAMERA_ANTIBANDING_50HZ⟩,
    ⟨625, .CAMERA_ANTIBANDING_50HZ⟩, ⟨627, .CAMERA_ANTIBANDING_50HZ⟩,
    ⟨631, .CAMERA_ANTIBANDING_50HZ⟩, ⟨633, .CAMERA_ANTIBANDING_50HZ⟩,
    ⟨634, .CAMERA_ANTIBANDING_50HZ⟩, ⟨636, .CAMERA_ANTIBANDING_50HZ⟩,
    ⟨637, .CAMERA_ANTIBANDING_50HZ⟩, ⟨638, .CAMERA_ANTIBANDING_50HZ⟩,
    ⟨639, .CAMERA_ANTIBANDING_50HZ⟩, ⟨640, .CAMERA_ANTIBANDING_50HZ⟩,
    ⟨641, .CAMERA_ANTIBANDING_50HZ⟩, ⟨642, .CAMERA_ANTIBANDING_50HZ⟩,
    ⟨643, .CAMERA_ANTIBANDING_50HZ⟩, ⟨645, .CAMERA_ANTIBANDING_50HZ⟩,
    ⟨646, .CAMERA_ANTIBANDING_50HZ⟩, ⟨647, .CAMERA_ANTIBANDING_50HZ⟩,
    ⟨648, .CAMERA_ANTIBANDING_50HZ⟩, ⟨649, .CAMERA_ANTIBANDING_50HZ⟩,
    ⟨650, .CAMERA_ANTIBANDING_50HZ⟩, ⟨651, .CAMERA_ANTIBANDING_50HZ⟩,
    ⟨652, .CAMERA_ANTIBANDING_50HZ⟩, ⟨653, .CAMERA_ANTIBANDING_50HZ⟩,
    ⟨654, .CAMERA_ANTIBANDING_50HZ⟩ ]

/-- Entries 175 to 196 of the table `country_numeric`. -/
def country_numeric_7 : List country_map :=
  [
    ⟨655, .CAMERA_ANTIBANDING_50HZ⟩, ⟨657, .CAMERA_ANTIBANDING_50HZ⟩,
    ⟨702, .CAMERA_ANTIBANDING_60HZ⟩, ⟨704, .CAMERA_ANTIBANDING_60HZ⟩,
    ⟨706, .CAMERA_ANTIBANDING_60HZ⟩, ⟨708, .CAMERA_ANTIBANDING_60HZ⟩,
    ⟨710, .CAMERA_ANTIBANDING_60HZ⟩, ⟨712, .CAMERA_ANTIBANDING_60HZ⟩,
    ⟨714, .CAMERA_ANTIBANDING_60HZ⟩, ⟨722, .CAMERA_ANTIBANDING_50HZ⟩,
    ⟨724, .CAMERA_ANTIBANDING_60HZ⟩, ⟨730, .CAMERA_ANTIBANDING_50HZ⟩,
    ⟨732, .CAMERA_ANTIBANDING_60HZ⟩, ⟨734, .CAMERA_ANTIBANDING_60HZ⟩,
    ⟨736, .CAMERA_ANTIBANDING_50HZ⟩, ⟨738, .CAMERA_ANTIBANDING_60HZ⟩,
    ⟨740, .CAMERA_ANTIBANDING_60HZ⟩, ⟨742, .CAMERA_ANTIBANDING_50HZ⟩,
    ⟨744, .CAMERA_ANTIBANDING_50HZ⟩, ⟨746, .CAMERA_ANTIBANDING_60HZ⟩,
    ⟨748, .CAMERA_ANTIBANDING_50HZ⟩, ⟨750, .CAMERA_ANTIBANDING_50HZ⟩ ]

/-- The table `country_numeric`, sorted by country code. -/
def country_numeric : List country_map :=
  country_numeric_0 ++ country_numeric_1 ++ country_numeric_2 ++ country_numeric_3 ++ country_numeric_4 ++ country_numeric_5 ++ country_numeric_6 ++ country_numeric_7

def country_number : Nat := country_numeric.length

/-- The loop of `camera_get_location`: binary search between `left` and
`right`; `fuel` bounds the number of iterations. -/
def camera_get_location_loop (country_code : Nat) :
    Nat → Int → Int → camera_antibanding_type
  | 0, _, _ => .CAMERA_ANTIBANDING_60HZ
  | fuel + 1, left, right =>
    if left ≤ right then
      let index := (left + right) / 2
      match country_numeric.get? index.toNat with
      | none => .CAMERA_ANTIBANDING_60HZ
      | some e =>
        if e.country_code = country_code then e.type
        else if e.country_code > country_code then
          camera_get_location_loop country_code fuel left (index - 1)
        else
          camera_get_location_loop country_code fuel (index + 1) right
    else .CAMERA_ANTIBANDING_60HZ

/-- The digits read by `atoi` from the front of a string. -/
def atoiDigits : List Char → Nat → Nat
  | [], acc => acc
  | c :: cs, acc => if c.isDigit then atoiDigits cs (acc * 10 + (c.toNat - 48)) else acc

/-- The C function `atoi`: optional blanks, optional sign, decimal digits. -/
def atoi (s : List Char) : Int :=
  match s.dropWhile (fun c => c == ' ' || c == '\t' || c == '\n') with
  | '-' :: cs => - Int.ofNat (atoiDigits cs 0)
  | '+' :: cs => Int.ofNat (atoiDigits cs 0)
  | cs => Int.ofNat (atoiDigits cs 0)

/-- Look up the antibanding type by the mobile country code, the first three
characters of the system property `gsm.operator.numeric` (empty when the
property is not set). -/
def camera_get_location (gsm_operator_numeric : String) : camera_antibanding_type :=
  if gsm_operator_numeric.length = 0 then .CAMERA_ANTIBANDING_60HZ
  else
    let country_code := (toU32 (atoi (gsm_operator_numeric.toList.take 3))).toNat
    camera_get_location_loop country_code country_number 0 (Int.ofNat country_number - 1)

/-! ## Parameters -/

/-- Keys whose value is a size `WxH`. -/
inductive SizeKey
  | KEY_PREVIEW_SIZE | KEY_PICTURE_SIZE
deriving DecidableEq, Repr

/-- Keys whose value is read with `getInt`. -/
inductive IntKey
  | KEY_JPEG_QUALITY | KEY_JPEG_THUMBNAIL_QUALITY | KEY_ROTATION | zoom | max_zoom
  | KEY_PREVIEW_FRAME_RATE | KEY_JPEG_THUMBNAIL_WIDTH | KEY_JPEG_THUMBNAIL_HEIGHT
deriving DecidableEq, Repr

/-- Keys whose value is read as a string. -/
inductive StrKey
  | KEY_ANTIBANDING | KEY_EFFECT | KEY_WHITE_BALANCE | KEY_FLASH_MODE | KEY_FOCUS_MODE
  | KEY_GPS_LATITUDE | KEY_GPS_LONGITUDE | KEY_GPS_ALTITUDE | KEY_GPS_TIMESTAMP
  | orientation | zoom_supported | KEY_PREVIEW_FORMAT | KEY_PICTURE_FORMAT
  | KEY_SUPPORTED_PREVIEW_FORMATS | KEY_SUPPORTED_PREVIEW_SIZES
  | KEY_SUPPORTED_PICTURE_SIZES | KEY_SUPPORTED_ANTIBANDING | KEY_SUPPORTED_EFFECTS
  | KEY_SUPPORTED_WHITE_BALANCE | KEY_SUPPORTED_FOCUS_MODES | KEY_SUPPORTED_FLASH_MODES
deriving DecidableEq, Repr

/-- Modelled from the spec: the framework class `CameraParameters`, a string
key/value map with a defined key set, is not part of the sources.  Values are
kept in parsed form, one map per kind of key; an absent key is `none`. -/
structure CameraParameters where
  sizes : SizeKey → Option (Int × Int)
  ints : IntKey → Option Int
  strs : StrKey → Option String

namespace CameraParameters

def empty : CameraParameters := ⟨fun _ => none, fun _ => none, fun _ => none⟩

/-- The call `get(key)`: the stored string, or null. -/
def get (p : CameraParameters) (k : StrKey) : Option String := p.strs k

/-- The call `getInt(key)`: the stored number, or -1 when the key is absent. -/
def getInt (p : CameraParameters) (k : IntKey) : Int := (p.ints k).getD (-1)

/-- The call `set(key, string)`. -/
def set (p : CameraParameters) (k : StrKey) (v : String) : CameraParameters :=
  { p with strs := fun j => if j = k then some v else p.strs j }

/-- The call `set(key, int)`. -/
def setInt (p : CameraParameters) (k : IntKey) (v : Int) : CameraParameters :=
  { p with ints := fun j => if j = k then some v else p.ints j }

def setSize (p : CameraParameters) (k : SizeKey) (w h : Int) : CameraParameters :=
  { p with sizes := fun j => if j = k then some (w, h) else p.sizes j }

/-- The size stored under a key, `(-1, -1)` when the key is absent. -/
def getSize (p : CameraParameters) (k : SizeKey) : Int × Int := (p.sizes k).getD (-1, -1)

def getPreviewSize (p : CameraParameters) : Int × Int := p.getSize .KEY_PREVIEW_SIZE
def getPictureSize (p : CameraParameters) : Int × Int := p.getSize .KEY_PICTURE_SIZE

def setPreviewSize (p : CameraParameters) (w h : Int) : CameraParameters :=
  p.setSize .KEY_PREVIEW_SIZE w h

def setPictureSize (p : CameraParameters) (w h : Int) : CameraParameters :=
  p.setSize .KEY_PICTURE_SIZE w h

end CameraParameters

/-! ## Device interface -/

/-- Command types of the control device that the source issues. -/
inductive cam_ctrl_type
  | CAMERA_SET_PARM_DIMENSION | CAMERA_SET_PARM_ZOOM | CAMERA_SET_PARM_EFFECT
  | CAMERA_SET_PARM_WB | CAMERA_SET_PARM_LED_MODE | CAMERA_SET_PARM_ANTIBANDING
  | CAMERA_SET_PARM_AUTO_FOCUS | CAMERA_AUTO_FOCUS_CANCEL
  | CAMERA_START_PREVIEW | CAMERA_STOP_PREVIEW
  | CAMERA_PREPARE_SNAPSHOT | CAMERA_START_SNAPSHOT | CAMERA_STOP_SNAPSHOT
  | CAMERA_EXIT
deriving DecidableEq, Repr

/-- The fields of `cam_ctrl_dimension_t` that the source reads or writes.
The fields that the device fills in on a set-dimension command are used only
by the encoder and are left out. -/
structure cam_ctrl_dimension_t where
  picture_width : Int
  picture_height : Int
  display_width : Int
  display_height : Int
  ui_thumbnail_width : Int
  ui_thumbnail_height : Int
deriving DecidableEq, Repr

/-- Crop geometry reported by the device (`uint32_t` fields). -/
structure common_crop_t where
  in1_w : Nat
  out1_w : Nat
  in1_h : Nat
  out1_h : Nat
  in2_w : Nat
  out2_w : Nat
  in2_h : Nat
  out2_h : Nat
  update_flag : Nat
deriving DecidableEq, Repr

/-- The result of `memset(&crop, 0, sizeof(crop))`. -/
def common_crop_t.zero : common_crop_t := ⟨0, 0, 0, 0, 0, 0, 0, 0, 0⟩

/-- The payload that a control command points to. -/
inductive CtrlValue
  | null
  | enumerator (e : camera_enum)
  | int32 (n : Int)
  | dimension (d : cam_ctrl_dimension_t)
deriving DecidableEq, Repr

/-- Buffer kinds of `msm_camera.h` that the source registers. -/
inductive msm_pmem_t
  | MSM_PMEM_OUTPUT2 | MSM_PMEM_MAINIMG | MSM_PMEM_THUMBNAIL
deriving DecidableEq, Repr

/-- The argument of the (un)register ioctl. -/
structure msm_pmem_info where
  type : msm_pmem_t
  fd : Int
  offset : Int
  len : Int
  vaddr : Int
  y_off : Int
  cbcr_off : Int
  active : Bool
deriving DecidableEq, Repr

/-- A shared memory heap: its id (a file descriptor, negative when the heap
could not be created), its mapped base address and its size. -/
structure MemoryHeap where
  heapID : Int
  base : Int
  size : Int
deriving DecidableEq, Repr

/-- A buffer handle: a window of a heap. -/
structure MemoryBase where
  heapID : Int
  offset : Int
  size : Int
deriving DecidableEq, Repr

/-- A frame descriptor handed to the frame thread. -/
structure msm_frame where
  fd : Int
  buffer : Int
  y_off : Int
  cbcr_off : Int
deriving DecidableEq, Repr

inductive ThreadRole
  | frame | snapshot | autofocus
deriving DecidableEq, Repr

/-- What the image-rect argument of the shutter notification holds. -/
structure image_rect_type where
  width : Int
  height : Int
deriving DecidableEq, Repr

/-- The encoder entry points of the vendor library that report success or
failure, with the arguments that the session object passes. -/
inductive jpeg_call
  | init
  | setMainImageQuality (quality : Int)
  | setThumbnailQuality (quality : Int)
  | setRotation (rotation : Int)
  | setLocation
  /-- The call `jpeg_encoder_encode` with the dimension block, the heap ids of
  the thumbnail and main image, and the crop geometry. -/
  | encode (dimension : cam_ctrl_dimension_t) (thumbnail_heap main_heap : Int)
      (crop : common_crop_t)
deriving DecidableEq, Repr

/-- Calls that leave the session object, in the order they are made. -/
inductive Event
  /-- A control ioctl on `fd`, and whether it succeeded. -/
  | ioctl_ctrl (fd : Int) (type : cam_ctrl_type) (value : CtrlValue) (ok : Bool)
  /-- The ioctl `MSM_CAM_IOCTL_REGISTER_PMEM` (`register_buffer`) or
  `MSM_CAM_IOCTL_UNREGISTER_PMEM` on `camfd`, and whether it succeeded. -/
  | ioctl_pmem (camfd : Int) (register_buffer : Bool) (info : msm_pmem_info) (ok : Bool)
  | close (fd : Int)
  /-- The last reference to a heap is dropped. -/
  | heap_release (heapID : Int)
  | camframe_terminate
  | pthread_create (role : ThreadRole) (ok : Bool)
  /-- The consumer notification callback. -/
  | notify_callback (msgType : Nat) (size : Option image_rect_type) (ext1 : Int)
  /-- The consumer data callback with the buffer handle it is given. -/
  | data_callback (msgType : Nat) (mem : Option MemoryBase)
  | data_callback_timestamp (msgType : Nat) (mem : Option MemoryBase)
  /-- The call `open(MSM_CAMERA_CONTROL, O_RDWR)` and the descriptor it gave. -/
  | open_control (fd : Int)
  /-- A `dlopen` of the vendor library, and whether it gave a handle. -/
  | dlopen (ok : Bool)
  | dlclose
  /-- The call `launch_cam_conf_thread()` and its result. -/
  | launch_cam_conf_thread (rc : Int)
  | release_cam_conf_thread
  | ioctl_get_sensor_info (fd : Int) (ok : Bool)
  | ioctl_get_picture (fd : Int) (ok : Bool)
  | jpeg_encoder (call : jpeg_call) (ok : Bool)
  | jpeg_encoder_join
  /-- The in-place crop of the image held in a heap. -/
  | crop_yuv420 (heapID : Int) (width height cropped_width cropped_height : Nat)
deriving DecidableEq, Repr

/-- Everything the code obtains from outside the session object: platform
constants declared in headers that are not part of the sources, and the
outcomes of system and device calls. -/
structure Env where
  /-- The result of `getpagesize()`. -/
  pageSize : Int
  kPreviewBufferCount : Int
  kRawBufferCount : Int
  kJpegBufferCount : Int
  /-- The system property `gsm.operator.numeric` (empty when unset). -/
  gsm_operator_numeric : String
  /-- Whether a control command of this type succeeds. -/
  ioctl_ctrl : cam_ctrl_type → Bool
  /-- Whether a (un)register ioctl with this argument succeeds. -/
  ioctl_pmem : Bool → msm_pmem_info → Bool
  /-- The descriptor returned by `dup`. -/
  dup : Int → Int
  /-- The heap id of `new MemoryHeapBase(device, size, flags)`. -/
  master_heap_id : String → Int → Int
  /-- The heap `new MemoryHeapPmem(masterHeap, flags)`. -/
  pmem_heap : String → Int → MemoryHeap
  /-- Whether `ioctl(fd, PMEM_GET_SIZE)` succeeds. -/
  pmem_get_size : Int → Bool
  /-- The heap `new MemoryHeapBase(size)`. -/
  ashmem_heap : Int → MemoryHeap
  /-- Whether `pthread_create` succeeds. -/
  pthread_create : ThreadRole → Bool
  /-- The build setting `DLOPEN_LIBMMCAMERA`. -/
  DLOPEN_LIBMMCAMERA : Bool
  /-- Whether `dlopen("liboemcamera.so")` gives a handle. -/
  dlopen : Bool
  /-- The result of `stat("/dev/oncrpc")`. -/
  stat_oncrpc : Int
  /-- The result of `open(MSM_CAMERA_CONTROL, O_RDWR)`. -/
  open_control : Int
  /-- The result of `launch_cam_conf_thread()`; zero when the thread runs. -/
  launch_cam_conf_thread : Int
  /-- The flash capability that `MSM_CAM_IOCTL_GET_SENSOR_INFO` reports, or
  `none` when that ioctl fails. -/
  sensor_info : Option Bool
  /-- The table that `default_sensor_get_snapshot_sizes` returns, or `none`
  for a null pointer. -/
  snapshot_sizes : Option (List camera_size_type)
  /-- The crop geometry that `MSM_CAM_IOCTL_GET_PICTURE` reports, or `none`
  when that ioctl fails. -/
  get_picture : Option common_crop_t
  /-- Whether an encoder call succeeds. -/
  jpeg_encoder : jpeg_call → Bool
  /-- The enumerator `JPEG_EVENT_DONE` of the vendor header. -/
  JPEG_EVENT_DONE : Int
  /-- Whether `sscanf` converts the value stored under a location key. -/
  sscanf_ok : StrKey → String → Bool
  /-- Whether the framework class `Mutex`, which is not part of the sources,
  lets the thread that holds a mutex lock it again.  The framework creates
  its mutexes with default attributes, which is `false`. -/
  recursive_mutex : Bool

/-! ## Buffer pools -/

/-- The address `MAP_FAILED`, `(void *)-1`. -/
def MAP_FAILED : Int := 4294967295

/-- The class `MemPool`.  A null `mBuffers` is the empty list. -/
structure MemPool where
  mBufferSize : Int
  mNumBuffers : Int
  mFrameSize : Int
  mAlignedBufferSize : Int
  mBuffers : List MemoryBase
  mHeap : Option MemoryHeap
  mName : String
deriving DecidableEq, Repr

namespace MemPool

/-- The constructor `MemPool::MemPool`. -/
def new (env : Env) (buffer_size num_buffers frame_size : Int) (name : String) : MemPool :=
  let page_size_minus_1 := toS32 (env.pageSize - 1)
  { mBufferSize := buffer_size
    mNumBuffers := num_buffers
    mFrameSize := frame_size
    mAlignedBufferSize :=
      and32 (toS32 (buffer_size + page_size_minus_1)) (not32 page_size_minus_1)
    mBuffers := []
    mHeap := none
    mName := name }

/-- The heap id held by the buffer handles of a pool. -/
def heapID (p : MemPool) : Int :=
  match p.mHeap with
  | some h => h.heapID
  | none => -1

/-- The member `completeInitialization`: buffer handles are created only
when the frame size is known. -/
def completeInitialization (p : MemPool) : MemPool :=
  if p.mFrameSize > 0 then
    let buffers := (List.range p.mNumBuffers.toNat).map
      (fun i => MemoryBase.mk p.heapID (toS32 (Int.ofNat i * p.mAlignedBufferSize)) p.mFrameSize)
    { p with mBuffers := buffers }
  else p

/-- Modelled from the spec: `initialized()` is declared in the class header,
which is not part of the sources.  A pool reports itself initialized when its
shared region exists and is mapped. -/
def initialized (p : MemPool) : Bool :=
  match p.mHeap with
  | some h => h.base != MAP_FAILED
  | none => false

/-- The destructor `MemPool::~MemPool`: the handles are deleted and the
reference to the heap is dropped. -/
def destroy (p : MemPool) : List Event :=
  match p.mHeap with
  | some h => [Event.heap_release h.heapID]
  | none => []

end MemPool

/-- The constructor `AshmemPool::AshmemPool`. -/
def AshmemPool.new (env : Env) (buffer_size num_buffers frame_size : Int) (name : String) :
    MemPool :=
  let p := MemPool.new env buffer_size num_buffers frame_size name
  let page_mask := toS32 (env.pageSize - 1)
  let ashmem_size := toS32 (buffer_size * num_buffers)
  let ashmem_size := toS32 (ashmem_size + page_mask)
  let ashmem_size := and32 ashmem_size (not32 page_mask)
  MemPool.completeInitialization { p with mHeap := some (env.ashmem_heap ashmem_size) }

/-- The argument block that `register_buf` fills in. -/
def register_buf_info (size frame_size pmempreviewfd offset buf : Int) (pmem_type : msm_pmem_t)
    (vfe_can_write : Bool) : msm_pmem_info :=
  { type := pmem_type
    fd := pmempreviewfd
    offset := offset
    len := size
    vaddr := buf
    y_off := 0
    cbcr_off := (toS32 (frame_size * 2)).tdiv 3
    active := vfe_can_write }

/-- The function `register_buf`: one register or unregister ioctl; the result
is whether the ioctl succeeded, together with the call made. -/
def register_buf (env : Env) (camfd size frame_size pmempreviewfd offset buf : Int)
    (pmem_type : msm_pmem_t) (vfe_can_write : Bool) (register_buffer : Bool) : Bool × Event :=
  let pmemBuf := register_buf_info size frame_size pmempreviewfd offset buf pmem_type vfe_can_write
  let ok := env.ioctl_pmem register_buffer pmemBuf
  (ok, Event.ioctl_pmem camfd register_buffer pmemBuf ok)

/-- The class `PmemPool`.  Strong pointers share a pool by the identity of the
object, not by its contents: `object` is that identity, so that two members
refer to the same pool exactly when they hold the same value.  The constructor
leaves it 0; the session numbers the pools it creates. -/
structure PmemPool extends MemPool where
  mPmemType : msm_pmem_t
  mCameraControlFd : Int
  mAlignedSize : Int
  mFd : Int
  object : Nat
deriving DecidableEq, Repr

namespace PmemPool

/-- The registration loop of the constructor, for a pool whose heap is `h`.
The result of `register_buf` is not looked at. -/
def registerAll (env : Env) (p : PmemPool) (h : MemoryHeap) (num_buffers : Int)
    (pmem_type : msm_pmem_t) : List Event :=
  (List.range num_buffers.toNat).map (fun cnt =>
    (register_buf env p.mCameraControlFd p.mBufferSize p.mFrameSize h.heapID
      (toU32 (toS32 (p.mAlignedBufferSize * Int.ofNat cnt)))
      (h.base + toS32 (p.mAlignedBufferSize * Int.ofNat cnt))
      pmem_type
      (!(Int.ofNat cnt == num_buffers - 1 && pmem_type == msm_pmem_t.MSM_PMEM_OUTPUT2))
      true).2)

/-- The constructor `PmemPool::PmemPool`, with the calls it makes.  The heap
flags play no part and are left out. -/
def new (env : Env) (pmem_pool : String) (camera_control_fd : Int) (pmem_type : msm_pmem_t)
    (buffer_size num_buffers frame_size : Int) (name : String) : PmemPool × List Event :=
  let p0 : PmemPool :=
    { toMemPool := MemPool.new env buffer_size num_buffers frame_size name
      mPmemType := pmem_type
      mCameraControlFd := env.dup camera_control_fd
      mAlignedSize := 0
      mFd := -1
      object := 0 }
  let p0 := { p0 with mAlignedSize := toS32 (p0.mAlignedBufferSize * num_buffers) }
  if env.master_heap_id pmem_pool p0.mAlignedSize < 0 then (p0, [])
  else
    let pmemHeap := env.pmem_heap pmem_pool p0.mAlignedSize
    if pmemHeap.heapID ≥ 0 then
      let p1 : PmemPool := { p0 with mHeap := some pmemHeap, mFd := pmemHeap.heapID }
      if env.pmem_get_size p1.mFd then
        let evs := registerAll env p1 pmemHeap num_buffers pmem_type
        ({ p1 with toMemPool := p1.toMemPool.completeInitialization }, evs)
      else ({ p1 with mHeap := none }, [Event.heap_release pmemHeap.heapID])
    else (p0, [])

/-- The pool as the `n`-th object created by the session. -/
def numbered (n : Nat) (p : PmemPool) : PmemPool := { p with object := n }

/-- The destructor `PmemPool::~PmemPool` followed by `MemPool::~MemPool`. -/
def destroy (env : Env) (p : PmemPool) : List Event :=
  (match p.mHeap with
   | some h =>
     (List.range p.mNumBuffers.toNat).map (fun cnt =>
       (register_buf env p.mCameraControlFd p.mBufferSize p.mFrameSize h.heapID
         (toU32 (toS32 (p.mAlignedBufferSize * Int.ofNat cnt)))
         (h.base + toS32 (p.mAlignedBufferSize * Int.ofNat cnt))
         p.mPmemType false false).2)
   | none => [])
  ++ [Event.close p.mCameraControlFd]
  ++ p.toMemPool.destroy

end PmemPool

/-- A strong pointer member gives up its pool (`clear()` or reassignment):
the pool is destroyed unless another member in `others` still refers to it,
that is, holds the same object: the value compared includes the identity
`object`, which differs between any two pools the session has created. -/
def releasePmem (env : Env) (others : List (Option PmemPool)) (p : Option PmemPool) :
    List Event :=
  match p with
  | none => []
  | some q => if others.contains (some q) then [] else q.destroy env

/-! ## The session object -/

/-- The member variables of the class `QualcommCameraHardware`, the static
table `picture_sizes`, and the log of the calls made so far.  A callback
pointer is represented by whether it is non-null. -/
structure QualcommCameraHardware where
  mParameters : CameraParameters
  mCameraRunning : Bool
  mPreviewInitialized : Bool
  mFrameThreadRunning : Bool
  mSnapshotThreadRunning : Bool
  mReleasedRecordingFrame : Bool
  mPreviewFrameSize : Int
  mRawSize : Int
  mJpegMaxSize : Int
  mJpegSize : Int
  mCameraControlFd : Int
  mAutoFocusThreadRunning : Bool
  mAutoFocusFd : Int
  mInPreviewCallback : Bool
  mShutterPending : Bool
  mMsgEnabled : Nat
  mNotifyCallback : Bool
  mDataCallback : Bool
  mDataCallbackTimestamp : Bool
  mDimension : cam_ctrl_dimension_t
  mCrop : common_crop_t
  /-- The field `mSensorInfo.flash_enabled`. -/
  flash_enabled : Bool
  picture_sizes : List camera_size_type
  frames : List msm_frame
  mPreviewHeap : Option PmemPool
  mRawHeap : Option PmemPool
  mJpegHeap : Option MemPool
  mThumbnailHeap : Option PmemPool
  mDisplayHeap : Option PmemPool
  /-- Whether the library handle `libmmcamera` is non-null. -/
  libmmcamera : Bool
  /-- The number of `PmemPool` objects created so far: the identity of the
  next one. -/
  mPoolsCreated : Nat
  log : List Event

/-- The static variables `singleton_releasing` and `singleton`. -/
structure Registry where
  singleton_releasing : Bool
  /-- The object that the weak pointer `singleton` can be promoted to: `none`
  when the pointer is null or the object it referred to has been destroyed. -/
  singleton : Option QualcommCameraHardware

namespace QualcommCameraHardware

/-- The constructor.  It leaves `mShutterPending`, `mJpegSize` and
`mJpegMaxSize` without a value; the value they happen to have is an argument.
The sensor table and flash capability are filled in by `startCamera`. -/
def new (picture_sizes : List camera_size_type) (flash_enabled shutterPending : Bool) :
    QualcommCameraHardware :=
  { mParameters := CameraParameters.empty
    mCameraRunning := false
    mPreviewInitialized := false
    mFrameThreadRunning := false
    mSnapshotThreadRunning := false
    mReleasedRecordingFrame := false
    mPreviewFrameSize := 0
    mRawSize := 0
    mJpegMaxSize := 0
    mJpegSize := 0
    mCameraControlFd := -1
    mAutoFocusThreadRunning := false
    mAutoFocusFd := -1
    mInPreviewCallback := false
    mShutterPending := shutterPending
    mMsgEnabled := 0
    mNotifyCallback := false
    mDataCallback := false
    mDataCallbackTimestamp := false
    mDimension := ⟨0, 0, 0, 0, 0, 0⟩
    mCrop := common_crop_t.zero
    flash_enabled := flash_enabled
    picture_sizes := picture_sizes
    frames := []
    mPreviewHeap := none
    mRawHeap := none
    mJpegHeap := none
    mThumbnailHeap := none
    mDisplayHeap := none
    libmmcamera := false
    mPoolsCreated := 0
    log := [] }

/-- The test `mMsgEnabled & msgType`. -/
def msgTypeEnabled (s : QualcommCameraHardware) (msgType : Nat) : Bool :=
  Nat.land s.mMsgEnabled msgType != 0

def enableMsgType (s : QualcommCameraHardware) (msgType : Nat) : QualcommCameraHardware :=
  { s with mMsgEnabled := Nat.lor s.mMsgEnabled (msgType % 4294967296) }

def disableMsgType (s : QualcommCameraHardware) (msgType : Nat) : QualcommCameraHardware :=
  { s with mMsgEnabled := Nat.land s.mMsgEnabled (4294967295 - msgType % 4294967296) }

def setCallbacks (s : QualcommCameraHardware) (notify_cb data_cb data_cb_timestamp : Bool) :
    QualcommCameraHardware :=
  { s with mNotifyCallback := notify_cb, mDataCallback := data_cb,
           mDataCallbackTimestamp := data_cb_timestamp }

/-- A control ioctl on descriptor `fd`; the result is whether it succeeded. -/
def ctrl_command (env : Env) (s : QualcommCameraHardware) (fd : Int) (type : cam_ctrl_type)
    (value : CtrlValue) : Bool × QualcommCameraHardware :=
  let ok := env.ioctl_ctrl type
  (ok, { s with log := s.log ++ [Event.ioctl_ctrl fd type value ok] })

/-- The member `native_set_parm`. -/
def native_set_parm (env : Env) (s : QualcommCameraHardware) (type : cam_ctrl_type)
    (value : CtrlValue) : Bool × QualcommCameraHardware :=
  ctrl_command env s s.mCameraControlFd type value

def native_start_preview (env : Env) (s : QualcommCameraHardware) (camfd : Int) :
    Bool × QualcommCameraHardware :=
  ctrl_command env s camfd .CAMERA_START_PREVIEW .null

def native_stop_preview (env : Env) (s : QualcommCameraHardware) (camfd : Int) :
    Bool × QualcommCameraHardware :=
  ctrl_command env s camfd .CAMERA_STOP_PREVIEW .null

def native_prepare_snapshot (env : Env) (s : QualcommCameraHardware) (camfd : Int) :
    Bool × QualcommCameraHardware :=
  ctrl_command env s camfd .CAMERA_PREPARE_SNAPSHOT .null

def native_cancel_afmode (env : Env) (s : QualcommCameraHardware) (camfd : Int) :
    Bool × QualcommCameraHardware :=
  ctrl_command env s camfd .CAMERA_AUTO_FOCUS_CANCEL .null

/-! ### Parameter setters -/

def setPreviewSize (s : QualcommCameraHardware) (params : CameraParameters) :
    status_t × QualcommCameraHardware :=
  let (width, height) := params.getPreviewSize
  if preview_sizes.any (fun e => width == e.width && height == e.height) then
    (NO_ERROR,
      { s with mParameters := s.mParameters.setPreviewSize width height
               mDimension := { s.mDimension with display_width := width
                                                 display_height := height } })
  else (BAD_VALUE, s)

def setPictureSize (s : QualcommCameraHardware) (params : CameraParameters) :
    status_t × QualcommCameraHardware :=
  let (width, height) := params.getPictureSize
  if s.picture_sizes.any (fun e => width == e.width && height == e.height) then
    (NO_ERROR,
      { s with mParameters := s.mParameters.setPictureSize width height
               mDimension := { s.mDimension with picture_width := width
                                                 picture_height := height } })
  else (BAD_VALUE, s)

def setJpegQuality (s : QualcommCameraHardware) (params : CameraParameters) :
    status_t × QualcommCameraHardware :=
  let rc := NO_ERROR
  let quality := params.getInt .KEY_JPEG_QUALITY
  let (rc, s) :=
    if quality > 0 ∧ quality ≤ 100 then
      (rc, { s with mParameters := s.mParameters.setInt .KEY_JPEG_QUALITY quality })
    else (BAD_VALUE, s)
  let quality := params.getInt .KEY_JPEG_THUMBNAIL_QUALITY
  if quality > 0 ∧ quality ≤ 100 then
    (rc, { s with mParameters := s.mParameters.setInt .KEY_JPEG_THUMBNAIL_QUALITY quality })
  else (BAD_VALUE, s)

/-- The common shape of `setEffect`, `setWhiteBalance` and `setFlash` after
the flash guard: look the string up, store it, send the value. -/
def setAttr (env : Env) (s : QualcommCameraHardware) (params : CameraParameters)
    (key : StrKey) (table : List str_map) (type : cam_ctrl_type) :
    status_t × QualcommCameraHardware :=
  match params.get key with
  | some str =>
    match attr_lookup table (some str) with
    | some value =>
      let s := { s with mParameters := s.mParameters.set key str }
      let (ret, s) := native_set_parm env s type (.enumerator value)
      (if ret then NO_ERROR else UNKNOWN_ERROR, s)
    | none => (BAD_VALUE, s)
  | none => (BAD_VALUE, s)

def setEffect (env : Env) (s : QualcommCameraHardware) (params : CameraParameters) :
    status_t × QualcommCameraHardware :=
  setAttr env s params .KEY_EFFECT effects .CAMERA_SET_PARM_EFFECT

def setWhiteBalance (env : Env) (s : QualcommCameraHardware) (params : CameraParameters) :
    status_t × QualcommCameraHardware :=
  setAttr env s params .KEY_WHITE_BALANCE whitebalance .CAMERA_SET_PARM_WB

def setFlash (env : Env) (s : QualcommCameraHardware) (params : CameraParameters) :
    status_t × QualcommCameraHardware :=
  if !s.flash_enabled then (NO_ERROR, s)
  else setAttr env s params .KEY_FLASH_MODE flash .CAMERA_SET_PARM_LED_MODE

def setAntibanding (env : Env) (s : QualcommCameraHardware) (params : CameraParameters) :
    status_t × QualcommCameraHardware :=
  match params.get .KEY_ANTIBANDING with
  | some str =>
    match attr_lookup antibanding (some str) with
    | some value =>
      let temp :=
        if value = .CAMERA_ANTIBANDING_AUTO then camera_get_location env.gsm_operator_numeric
        else value
      let s := { s with mParameters := s.mParameters.set .KEY_ANTIBANDING str }
      let (_, s) := native_set_parm env s .CAMERA_SET_PARM_ANTIBANDING (.enumerator temp)
      (NO_ERROR, s)
    | none => (BAD_VALUE, s)
  | none => (BAD_VALUE, s)

/-- Copy one GPS field when it is present in the request. -/
def copyGps (s : QualcommCameraHardware) (params : CameraParameters) (key : StrKey) :
    QualcommCameraHardware :=
  match params.get key with
  | some v => { s with mParameters := s.mParameters.set key v }
  | none => s

def setGpsLocation (s : QualcommCameraHardware) (params : CameraParameters) :
    status_t × QualcommCameraHardware :=
  let s := copyGps s params .KEY_GPS_LATITUDE
  let s := copyGps s params .KEY_GPS_LONGITUDE
  let s := copyGps s params .KEY_GPS_ALTITUDE
  let s := copyGps s params .KEY_GPS_TIMESTAMP
  (NO_ERROR, s)

def setRotation (s : QualcommCameraHardware) (params : CameraParameters) :
    status_t × QualcommCameraHardware :=
  let rotation := params.getInt .KEY_ROTATION
  if rotation ≠ NOT_FOUND then
    if rotation = 0 ∨ rotation = 90 ∨ rotation = 180 ∨ rotation = 270 then
      (NO_ERROR, { s with mParameters := s.mParameters.setInt .KEY_ROTATION rotation })
    else (BAD_VALUE, s)
  else (NO_ERROR, s)

def ZOOM_STEP : Int := 6

def setZoom (env : Env) (s : QualcommCameraHardware) (params : CameraParameters) :
    status_t × QualcommCameraHardware :=
  let zoom_level := params.getInt .zoom
  if zoom_level ≥ 0 ∧ zoom_level ≤ MAX_ZOOM_LEVEL then
    let s := { s with mParameters := s.mParameters.setInt .zoom zoom_level }
    let zoom_value := toS32 (ZOOM_STEP * zoom_level)
    let (ret, s) := native_set_parm env s .CAMERA_SET_PARM_ZOOM (.int32 zoom_value)
    (if ret then NO_ERROR else UNKNOWN_ERROR, s)
  else (BAD_VALUE, s)

def setFocusMode (s : QualcommCameraHardware) (params : CameraParameters) :
    status_t × QualcommCameraHardware :=
  match params.get .KEY_FOCUS_MODE with
  | some str =>
    match attr_lookup focus_modes (some str) with
    | some _ => (NO_ERROR, { s with mParameters := s.mParameters.set .KEY_FOCUS_MODE str })
    | none => (BAD_VALUE, s)
  | none => (BAD_VALUE, s)

def setOrientation (s : QualcommCameraHardware) (params : CameraParameters) :
    status_t × QualcommCameraHardware :=
  match params.get .orientation with
  | some str =>
    if str = "portrait" ∨ str = "landscape" then
      (NO_ERROR, { s with mParameters := s.mParameters.set .orientation str })
    else (BAD_VALUE, s)
  | none => (NO_ERROR, s)

/-- One line `if ((rc = setter(params))) final_rc = rc;` of `setParameters`. -/
def applySetter (setter : QualcommCameraHardware → CameraParameters →
      status_t × QualcommCameraHardware)
    (params : CameraParameters) (acc : status_t × QualcommCameraHardware) :
    status_t × QualcommCameraHardware :=
  let (rc, s) := setter acc.2 params
  (if rc ≠ 0 then rc else acc.1, s)

def setParameters (env : Env) (s : QualcommCameraHardware) (params : CameraParameters) :
    status_t × QualcommCameraHardware :=
  let r := (NO_ERROR, s)
  let r := applySetter setPreviewSize params r
  let r := applySetter setPictureSize params r
  let r := applySetter setJpegQuality params r
  let r := applySetter (setAntibanding env) params r
  let r := applySetter (setEffect env) params r
  let r := applySetter (setWhiteBalance env) params r
  let r := applySetter (setFlash env) params r
  let r := applySetter setGpsLocation params r
  let r := applySetter setRotation params r
  let r := applySetter (setZoom env) params r
  let r := applySetter setFocusMode params r
  let r := applySetter setOrientation params r
  r

def getParameters (s : QualcommCameraHardware) : CameraParameters := s.mParameters

/-! ### Preview -/

/-- The frame descriptors filled in by `initPreview`. -/
def previewFrames (pool : PmemPool) (count previewWidth previewHeight : Int) : List msm_frame :=
  (List.range count.toNat).map (fun cnt =>
    { fd := pool.heapID
      buffer := toU32 (toU32 (match pool.mHeap with | some h => h.base | none => 0)
                  + toS32 (pool.mAlignedBufferSize * Int.ofNat cnt))
      y_off := 0
      cbcr_off := toS32 (previewWidth * previewHeight) })

/-- The member `initPreview`.  The two waits at its head come before any
effect: while the frame thread or the snapshot thread is still marked
running the call does not proceed, which is the result `none`. -/
def initPreview (env : Env) (s : QualcommCameraHardware) :
    Option (Bool × QualcommCameraHardware) :=
  let (previewWidth, previewHeight) := s.mParameters.getPreviewSize
  if s.mFrameThreadRunning then none
  else if s.mSnapshotThreadRunning then none
  else
    let frameSize := (toS32 (toS32 (previewWidth * previewHeight) * 3)).tdiv 2
    let (pool, evs) := PmemPool.new env "/dev/pmem_adsp" s.mCameraControlFd
      .MSM_PMEM_OUTPUT2 frameSize env.kPreviewBufferCount frameSize "preview"
    let s := { s with mPreviewFrameSize := frameSize
                      log := s.log ++ evs ++ releasePmem env [] s.mPreviewHeap
                      mPreviewHeap := some (pool.numbered s.mPoolsCreated)
                      mPoolsCreated := s.mPoolsCreated + 1 }
    if !pool.initialized then
      some (false, { s with mPreviewHeap := none, log := s.log ++ pool.destroy env })
    else
      let (ret, s) := native_set_parm env s .CAMERA_SET_PARM_DIMENSION (.dimension s.mDimension)
      if ret then
        let frames := previewFrames pool env.kPreviewBufferCount previewWidth previewHeight
        let s := { s with frames := frames }
        let running := env.pthread_create .frame
        some (running, { s with mFrameThreadRunning := running
                                log := s.log ++ [Event.pthread_create .frame running] })
      else some (false, s)

/-- The member `deinitPreview`: the frame thread is asked to exit and is not
waited for. -/
def deinitPreview (s : QualcommCameraHardware) : QualcommCameraHardware :=
  { s with log := s.log ++ [Event.camframe_terminate] }

/-- The part of `runFrameThread` that follows the return of the blocking
frame loop: the preview pool is cleared and completion is signalled. -/
def runFrameThread (env : Env) (s : QualcommCameraHardware) : QualcommCameraHardware :=
  { s with log := s.log ++ releasePmem env [] s.mPreviewHeap
           mPreviewHeap := none
           mFrameThreadRunning := false }

def startPreviewInternal (env : Env) (s : QualcommCameraHardware) :
    Option (status_t × QualcommCameraHardware) :=
  if s.mCameraRunning then some (NO_ERROR, s)
  else
    let afterInit : Option (Bool × QualcommCameraHardware) :=
      if !s.mPreviewInitialized then
        (initPreview env s).map (fun r => (r.1, { r.2 with mPreviewInitialized := r.1 }))
      else some (true, s)
    match afterInit with
    | none => none
    | some (false, s) => some (UNKNOWN_ERROR, s)
    | some (true, s) =>
      let (running, s) := native_start_preview env s s.mCameraControlFd
      let s := { s with mCameraRunning := running }
      if !running then
        let s := deinitPreview s
        some (UNKNOWN_ERROR, { s with mPreviewInitialized := false })
      else some (NO_ERROR, s)

def startPreview (env : Env) (s : QualcommCameraHardware) :
    Option (status_t × QualcommCameraHardware) :=
  startPreviewInternal env s

def cancelAutoFocusInternal (env : Env) (s : QualcommCameraHardware) :
    status_t × QualcommCameraHardware :=
  let (ok, s) := native_cancel_afmode env s s.mCameraControlFd
  (if ok then NO_ERROR else UNKNOWN_ERROR, s)

def stopPreviewInternal (env : Env) (s : QualcommCameraHardware) : QualcommCameraHardware :=
  if s.mCameraRunning then
    let s :=
      if s.mNotifyCallback && s.msgTypeEnabled CAMERA_MSG_FOCUS then
        (cancelAutoFocusInternal env s).2
      else s
    let (stopped, s) := native_stop_preview env s s.mCameraControlFd
    let s := { s with mCameraRunning := !stopped }
    if !s.mCameraRunning && s.mPreviewInitialized then
      let s := deinitPreview s
      { s with mPreviewInitialized := false }
    else s
  else s

def stopPreview (env : Env) (s : QualcommCameraHardware) : QualcommCameraHardware :=
  if s.mDataCallbackTimestamp && s.msgTypeEnabled CAMERA_MSG_VIDEO_FRAME then s
  else stopPreviewInternal env s

/-- The slot index that `receivePreviewFrame` computes for a frame: the byte
offset of the buffer from the pool base, both read as `ssize_t`, divided by
the aligned slot size. -/
def previewFrameIndex (pool : PmemPool) (frame : msm_frame) : Int :=
  let base := match pool.mHeap with | some h => h.base | none => 0
  let offset := toS32 (toS32 frame.buffer - toS32 base)
  toS32 (offset.tdiv pool.mAlignedBufferSize)

/-- The element `mBuffers[index]`; out of the array it is `none`. -/
def bufferAt (buffers : List MemoryBase) (index : Int) : Option MemoryBase :=
  if 0 ≤ index then buffers.get? index.toNat else none

/-- The member `receivePreviewFrame` up to the point where it either returns
or parks waiting for the recording frame to be released; the second
component tells whether it parks.  The source dereferences `mPreviewHeap`
without a test; a session without a preview pool is left as it is. -/
def receivePreviewFrame (s : QualcommCameraHardware) (frame : msm_frame) :
    QualcommCameraHardware × Bool :=
  if !s.mCameraRunning then (s, false)
  else
    match s.mPreviewHeap with
    | none => (s, false)
    | some pool =>
      let offset := previewFrameIndex pool frame
      let s := { s with mInPreviewCallback := true }
      let s :=
        if s.mDataCallback && s.msgTypeEnabled CAMERA_MSG_PREVIEW_FRAME then
          let ev := Event.data_callback CAMERA_MSG_PREVIEW_FRAME (bufferAt pool.mBuffers offset)
          { s with log := s.log ++ [ev] }
        else s
      if s.mDataCallbackTimestamp && s.msgTypeEnabled CAMERA_MSG_VIDEO_FRAME then
        let ev := Event.data_callback_timestamp CAMERA_MSG_VIDEO_FRAME
          (bufferAt pool.mBuffers offset)
        let s := { s with log := s.log ++ [ev] }
        if s.mReleasedRecordingFrame != true then (s, true)
        else ({ s with mReleasedRecordingFrame := false, mInPreviewCallback := false }, false)
      else ({ s with mInPreviewCallback := false }, false)

/-- The rest of `receivePreviewFrame` once the parked thread is woken. -/
def receivePreviewFrameResume (s : QualcommCameraHardware) : QualcommCameraHardware :=
  { s with mReleasedRecordingFrame := false, mInPreviewCallback := false }

/-! ### Still capture -/

/-- An assignment to `mDisplayHeap`: the member lets go of the pool it held
and refers to `p`. -/
def setDisplayHeap (env : Env) (s : QualcommCameraHardware) (p : Option PmemPool) :
    QualcommCameraHardware :=
  { s with log := s.log ++ releasePmem env [s.mRawHeap, s.mThumbnailHeap] s.mDisplayHeap
           mDisplayHeap := p }

/-- The size reported with the shutter notification, and whether the
thumbnail pool is displayed instead of the raw pool (a dimension above 2048
cannot be displayed). -/
def shutterDisplay (dim : cam_ctrl_dimension_t) (crop : common_crop_t) :
    image_rect_type × Bool :=
  if crop.in1_w = 0 ∨ crop.in1_h = 0 then
    let size : image_rect_type := ⟨dim.picture_width, dim.picture_height⟩
    if size.width > 2048 ∨ size.height > 2048 then
      (⟨dim.ui_thumbnail_width, dim.ui_thumbnail_height⟩, true)
    else (size, false)
  else
    let size : image_rect_type :=
      ⟨Int.ofNat (clearBit0 crop.in2_w), Int.ofNat (clearBit0 crop.in2_h)⟩
    if size.width > 2048 ∨ size.height > 2048 then
      (⟨Int.ofNat (clearBit0 crop.in1_w), Int.ofNat (clearBit0 crop.in1_h)⟩, true)
    else (size, false)

/-- The member `notifyShutter`. -/
def notifyShutter (env : Env) (s : QualcommCameraHardware) (crop : common_crop_t) :
    QualcommCameraHardware :=
  if s.mShutterPending && s.mNotifyCallback && s.msgTypeEnabled CAMERA_MSG_SHUTTER then
    let s := setDisplayHeap env s s.mRawHeap
    let display := shutterDisplay s.mDimension crop
    let s := if display.2 then setDisplayHeap env s s.mThumbnailHeap else s
    { s with log := s.log ++ [Event.notify_callback CAMERA_MSG_SHUTTER (some display.1) 0]
             mShutterPending := false }
  else s

/-- Release of the jpeg pool member. -/
def releaseJpeg (p : Option MemPool) : List Event :=
  match p with
  | some q => q.destroy
  | none => []

/-- The statement `mRawHeap.clear()`. -/
def clearRawHeap (env : Env) (s : QualcommCameraHardware) : QualcommCameraHardware :=
  { s with log := s.log ++ releasePmem env [s.mDisplayHeap] s.mRawHeap, mRawHeap := none }

/-- The statement `mThumbnailHeap.clear()`. -/
def clearThumbnailHeap (env : Env) (s : QualcommCameraHardware) : QualcommCameraHardware :=
  { s with log := s.log ++ releasePmem env [s.mDisplayHeap] s.mThumbnailHeap
           mThumbnailHeap := none }

/-- The statement `mJpegHeap.clear()`. -/
def clearJpegHeap (s : QualcommCameraHardware) : QualcommCameraHardware :=
  { s with log := s.log ++ releaseJpeg s.mJpegHeap, mJpegHeap := none }

/-- The statement `mDisplayHeap.clear()`. -/
def clearDisplayHeap (env : Env) (s : QualcommCameraHardware) : QualcommCameraHardware :=
  { s with log := s.log ++ releasePmem env [s.mRawHeap, s.mThumbnailHeap] s.mDisplayHeap
           mDisplayHeap := none }

/-- An assignment `mRawHeap = new PmemPool(...)`: the pool is constructed,
then the member lets go of the pool it held. -/
def newRawHeap (env : Env) (s : QualcommCameraHardware) (pmem_pool : String) :
    QualcommCameraHardware :=
  let (pool, evs) := PmemPool.new env pmem_pool s.mCameraControlFd .MSM_PMEM_MAINIMG
    s.mJpegMaxSize env.kRawBufferCount s.mRawSize "snapshot camera"
  { s with log := s.log ++ evs ++ releasePmem env [s.mDisplayHeap] s.mRawHeap
           mRawHeap := some (pool.numbered s.mPoolsCreated)
           mPoolsCreated := s.mPoolsCreated + 1 }

/-- Whether a pool member is non-null and reports itself initialized. -/
def pmemInitialized (p : Option PmemPool) : Bool :=
  match p with
  | some q => q.initialized
  | none => false

/-- The member `initRaw`. -/
def initRaw (env : Env) (s : QualcommCameraHardware) (initJpegHeap : Bool) :
    Bool × QualcommCameraHardware :=
  let (rawWidth, rawHeight) := s.mParameters.getPictureSize
  let (ret, s) := native_set_parm env s .CAMERA_SET_PARM_DIMENSION (.dimension s.mDimension)
  if !ret then (false, s)
  else
    let s := if s.mJpegHeap.isSome then clearJpegHeap s else s
    let s := { s with mRawSize := (toS32 (toS32 (rawWidth * rawHeight) * 3)).tdiv 2
                      mJpegMaxSize := (toS32 (toS32 (rawWidth * rawHeight) * 3)).tdiv 2 }
    let s := newRawHeap env s "/dev/pmem_camera"
    let s := if !pmemInitialized s.mRawHeap then newRawHeap env s "/dev/pmem_adsp" else s
    if !pmemInitialized s.mRawHeap then (false, clearRawHeap env s)
    else if initJpegHeap then
      let jpeg := AshmemPool.new env s.mJpegMaxSize env.kJpegBufferCount 0 "jpeg"
      let s := { s with log := s.log ++ releaseJpeg s.mJpegHeap, mJpegHeap := some jpeg }
      if !jpeg.initialized then (false, clearRawHeap env (clearJpegHeap s))
      else
        let (thumb, evs) := PmemPool.new env "/dev/pmem_adsp" s.mCameraControlFd
          .MSM_PMEM_THUMBNAIL THUMBNAIL_BUFFER_SIZE 1 THUMBNAIL_BUFFER_SIZE "thumbnail"
        let s := { s with log := s.log ++ evs ++ releasePmem env [s.mDisplayHeap] s.mThumbnailHeap
                          mThumbnailHeap := some (thumb.numbered s.mPoolsCreated)
                          mPoolsCreated := s.mPoolsCreated + 1 }
        if !thumb.initialized then
          (false, clearRawHeap env (clearJpegHeap (clearThumbnailHeap env s)))
        else (true, s)
    else (true, s)

/-- The member `deinitRaw`. -/
def deinitRaw (env : Env) (s : QualcommCameraHardware) : QualcommCameraHardware :=
  clearDisplayHeap env (clearRawHeap env (clearJpegHeap (clearThumbnailHeap env s)))

/-- The member `takePicture`.  The wait at its head comes before any effect:
while the snapshot thread is still marked running the call does not
proceed, which is the result `none`. -/
def takePicture (env : Env) (s : QualcommCameraHardware) :
    Option (status_t × QualcommCameraHardware) :=
  if s.mSnapshotThreadRunning then none
  else
    let (prepared, s) := native_prepare_snapshot env s s.mCameraControlFd
    if !prepared then some (UNKNOWN_ERROR, s)
    else
      let s := stopPreviewInternal env s
      let (ok, s) := initRaw env s (s.mDataCallback && s.msgTypeEnabled CAMERA_MSG_COMPRESSED_IMAGE)
      if !ok then some (UNKNOWN_ERROR, s)
      else
        let s := { s with mShutterPending := true }
        let running := env.pthread_create .snapshot
        let s := { s with mSnapshotThreadRunning := running
                          log := s.log ++ [Event.pthread_create .snapshot running] }
        some (if running then NO_ERROR else UNKNOWN_ERROR, s)

/-! ### Autofocus -/

def native_set_afmode (env : Env) (s : QualcommCameraHardware) (camfd : Int) :
    Bool × QualcommCameraHardware :=
  ctrl_command env s camfd .CAMERA_SET_PARM_AUTO_FOCUS (.enumerator .AF_MODE_AUTO)

/-- The part of `runAutoFocus` from the label `done` on: the running flag is
cleared, the result is reported when focus messages are enabled, and the
library handle taken by the worker, if any, is closed. -/
def runAutoFocusDone (env : Env) (s : QualcommCameraHardware) (status libhandle : Bool) :
    QualcommCameraHardware :=
  let s := { s with mAutoFocusThreadRunning := false }
  let s := if s.mNotifyCallback && s.msgTypeEnabled CAMERA_MSG_FOCUS then
      { s with log := s.log ++
          [Event.notify_callback CAMERA_MSG_FOCUS none (if status then 1 else 0)] }
    else s
  if env.DLOPEN_LIBMMCAMERA && libhandle then { s with log := s.log ++ [Event.dlclose] }
  else s

/-- The member `runAutoFocus`, the body of the focus worker.  The focus mode
is passed to `strcmp` as it is; the result is `none` when it is a null
pointer. -/
def runAutoFocus (env : Env) (s : QualcommCameraHardware) : Option QualcommCameraHardware :=
  match s.mParameters.get .KEY_FOCUS_MODE with
  | none => none
  | some mode =>
    if mode = "infinity" then some (runAutoFocusDone env s true false)
    else
      let s := { s with mAutoFocusFd := env.open_control
                        log := s.log ++ [Event.open_control env.open_control] }
      if s.mAutoFocusFd < 0 then some { s with mAutoFocusThreadRunning := false }
      else
        let s := if env.DLOPEN_LIBMMCAMERA then
            { s with log := s.log ++ [Event.dlopen env.dlopen] } else s
        if env.DLOPEN_LIBMMCAMERA && !env.dlopen then
          some { s with log := s.log ++ [Event.close s.mAutoFocusFd]
                        mAutoFocusFd := -1
                        mAutoFocusThreadRunning := false }
        else
          let (status, s) := native_set_afmode env s s.mAutoFocusFd
          let s := { s with log := s.log ++ [Event.close s.mAutoFocusFd], mAutoFocusFd := -1 }
          some (runAutoFocusDone env s status true)

/-- The member `autoFocus`. -/
def autoFocus (env : Env) (s : QualcommCameraHardware) : status_t × QualcommCameraHardware :=
  if s.mCameraControlFd < 0 then (UNKNOWN_ERROR, s)
  else if !s.mAutoFocusThreadRunning then
    let running := env.pthread_create .autofocus
    let s := { s with mAutoFocusThreadRunning := running
                      log := s.log ++ [Event.pthread_create .autofocus running] }
    if !s.mAutoFocusThreadRunning then (UNKNOWN_ERROR, s)
    else (NO_ERROR, s)
  else (NO_ERROR, s)

/-- The member `cancelAutoFocus`. -/
def cancelAutoFocus (env : Env) (s : QualcommCameraHardware) :
    status_t × QualcommCameraHardware :=
  if s.mCameraRunning && s.mNotifyCallback && s.msgTypeEnabled CAMERA_MSG_FOCUS then
    cancelAutoFocusInternal env s
  else (NO_ERROR, s)

/-! ### Release -/

/-- The member `release`.  The static `singleton_releasing` is passed in and
returned with the session.  The exit command carries no payload; its
failure is only logged by the source. -/
def release (env : Env) (singleton_releasing : Bool) (s : QualcommCameraHardware) :
    Bool × QualcommCameraHardware :=
  if env.DLOPEN_LIBMMCAMERA && !s.libmmcamera then (singleton_releasing, s)
  else
    let s := if s.mCameraRunning then
        let s := if s.mDataCallbackTimestamp && s.msgTypeEnabled CAMERA_MSG_VIDEO_FRAME then
            { s with mReleasedRecordingFrame := true } else s
        stopPreviewInternal env s
      else s
    let s := { s with log := s.log ++ [Event.jpeg_encoder_join] }
    let s := deinitRaw env s
    let s := (ctrl_command env s s.mCameraControlFd .CAMERA_EXIT .null).2
    let s := { s with log := s.log ++ [Event.release_cam_conf_thread,
                        Event.close s.mCameraControlFd]
                      mCameraControlFd := -1 }
    let s := if env.DLOPEN_LIBMMCAMERA && s.libmmcamera then
        { s with log := s.log ++ [Event.dlclose], libmmcamera := false } else s
    (true, s)

/-! ### The snapshot worker -/

def native_start_snapshot (env : Env) (s : QualcommCameraHardware) (camfd : Int) :
    Bool × QualcommCameraHardware :=
  ctrl_command env s camfd .CAMERA_START_SNAPSHOT .null

/-- The function `native_get_picture` applied to `&mCrop`. -/
def native_get_picture (env : Env) (s : QualcommCameraHardware) (camfd : Int) :
    Bool × QualcommCameraHardware :=
  match env.get_picture with
  | some crop =>
    (true, { s with mCrop := crop, log := s.log ++ [Event.ioctl_get_picture camfd true] })
  | none => (false, { s with log := s.log ++ [Event.ioctl_get_picture camfd false] })

/-- The heap that `pool->mHeap->base()` reaches: `none` when the pool member
or its heap is null. -/
def heapOf (p : Option PmemPool) : Option MemoryHeap := p.bind (fun q => q.mHeap)

/-- The raw-image branch of `receiveRawPicture`, its first statement.  The
result is `none` when a null pool pointer is dereferenced, and when one of the
two calls of `crop_yuv420` reads or writes outside the heap it is given (a
window larger than the image makes the 32-bit offsets wrap): such an access
has no defined result.  What the copies do to the bytes of the heaps is the
subject of `crop_yuv420`; here the two calls are recorded.  Otherwise the
result says whether `receiveRawPicture` goes on (it returns at once when the
picture cannot be fetched). -/
def receiveRawImage (env : Env) (s : QualcommCameraHardware) :
    Option (Bool × QualcommCameraHardware) :=
  if s.mDataCallback && s.msgTypeEnabled CAMERA_MSG_RAW_IMAGE then
    let (got, s) := native_get_picture env s s.mCameraControlFd
    if !got then some (false, s)
    else
      let crop := { s.mCrop with in1_w := clearBit0 s.mCrop.in1_w
                                 in1_h := clearBit0 s.mCrop.in1_h
                                 in2_w := clearBit0 s.mCrop.in2_w
                                 in2_h := clearBit0 s.mCrop.in2_h }
      let s := { s with mCrop := crop }
      let s := notifyShutter env s s.mCrop
      let cropped : Option QualcommCameraHardware :=
        if s.mCrop.in2_w != 0 && s.mCrop.in2_h != 0 then
          match heapOf s.mRawHeap, heapOf s.mThumbnailHeap with
          | some raw, some thumbnail =>
            if crop_yuv420_within raw.size.toNat s.mCrop.out2_w s.mCrop.out2_h
                  s.mCrop.in2_w s.mCrop.in2_h
                && crop_yuv420_within thumbnail.size.toNat s.mCrop.out1_w s.mCrop.out1_h
                  s.mCrop.in1_w s.mCrop.in1_h then
              some { s with
                log := s.log ++
                  [Event.crop_yuv420 raw.heapID s.mCrop.out2_w s.mCrop.out2_h
                     s.mCrop.in2_w s.mCrop.in2_h,
                   Event.crop_yuv420 thumbnail.heapID s.mCrop.out1_w s.mCrop.out1_h
                     s.mCrop.in1_w s.mCrop.in1_h]
                mCrop := common_crop_t.zero }
            else none
          | _, _ => none
        else some s
      match cropped with
      | none => none
      | some s =>
        match s.mDisplayHeap with
        | none => none
        | some display =>
          some (true, { s with log := s.log ++
            [Event.data_callback CAMERA_MSG_RAW_IMAGE (bufferAt display.mBuffers 0)] })
  else some (true, s)

/-- One call of an encoder entry point. -/
def jpeg_encoder_call (env : Env) (s : QualcommCameraHardware) (call : jpeg_call) :
    Bool × QualcommCameraHardware :=
  (env.jpeg_encoder call,
   { s with log := s.log ++ [Event.jpeg_encoder call (env.jpeg_encoder call)] })

/-- The member `jpeg_set_location`: the location is handed to the encoder
only when all four location values are present and converted. -/
def jpeg_set_location (env : Env) (s : QualcommCameraHardware) : QualcommCameraHardware :=
  let parsed (key : StrKey) : Bool :=
    match s.mParameters.get key with
    | some v => env.sscanf_ok key v
    | none => false
  if parsed .KEY_GPS_TIMESTAMP && parsed .KEY_GPS_ALTITUDE && parsed .KEY_GPS_LATITUDE
      && parsed .KEY_GPS_LONGITUDE then
    (jpeg_encoder_call env s .setLocation).2
  else s

/-- The member `native_jpeg_encode`; `none` when a null pool pointer is
dereferenced. -/
def native_jpeg_encode (env : Env) (s : QualcommCameraHardware) :
    Option (Bool × QualcommCameraHardware) :=
  let jpeg_quality := s.mParameters.getInt .KEY_JPEG_QUALITY
  let (ok, s) := if jpeg_quality ≥ 0 then
      jpeg_encoder_call env s (.setMainImageQuality jpeg_quality) else (true, s)
  if !ok then some (false, s)
  else
    let thumbnail_quality := s.mParameters.getInt .KEY_JPEG_THUMBNAIL_QUALITY
    let (ok, s) := if thumbnail_quality ≥ 0 then
        jpeg_encoder_call env s (.setThumbnailQuality thumbnail_quality) else (true, s)
    if !ok then some (false, s)
    else
      let rotation := s.mParameters.getInt .KEY_ROTATION
      let (ok, s) := if rotation ≥ 0 then
          jpeg_encoder_call env s (.setRotation rotation) else (true, s)
      if !ok then some (false, s)
      else
        let s := jpeg_set_location env s
        match heapOf s.mThumbnailHeap, heapOf s.mRawHeap with
        | some thumbnail, some raw =>
          some (jpeg_encoder_call env s
            (.encode s.mDimension thumbnail.heapID raw.heapID s.mCrop))
        | _, _ => none

/-- The member `receiveRawPicture`; `none` when a null pool pointer is
dereferenced. -/
def receiveRawPicture (env : Env) (s : QualcommCameraHardware) :
    Option QualcommCameraHardware :=
  match receiveRawImage env s with
  | none => none
  | some (false, s) => some s
  | some (true, s) =>
    if s.mDataCallback && s.msgTypeEnabled CAMERA_MSG_COMPRESSED_IMAGE then
      let s := { s with mJpegSize := 0 }
      let (inited, s) := jpeg_encoder_call env s .init
      if inited then
        match native_jpeg_encode env s with
        | none => none
        | some (true, s) => some s
        | some (false, s) => some (deinitRaw env s)
      else some (deinitRaw env s)
    else some (deinitRaw env s)

/-- The member `runSnapshotThread`, the body of the snapshot worker. -/
def runSnapshotThread (env : Env) (s : QualcommCameraHardware) :
    Option QualcommCameraHardware :=
  let (started, s) := native_start_snapshot env s s.mCameraControlFd
  (if started then receiveRawPicture env s else some s).map
    (fun s => { s with mSnapshotThreadRunning := false })

/-- The member `startRecording`. -/
def startRecording (env : Env) (s : QualcommCameraHardware) :
    Option (status_t × QualcommCameraHardware) :=
  startPreviewInternal env { s with mReleasedRecordingFrame := false }

/-- The member `stopRecording`.  Its signal wakes a frame delivery parked in
`receivePreviewFrame`. -/
def stopRecording (env : Env) (s : QualcommCameraHardware) : QualcommCameraHardware :=
  let s := { s with mReleasedRecordingFrame := true }
  if s.mDataCallback && s.msgTypeEnabled CAMERA_MSG_PREVIEW_FRAME then s
  else stopPreviewInternal env s

/-- The member `releaseRecordingFrame`.  Its signal wakes a frame delivery
parked in `receivePreviewFrame`. -/
def releaseRecordingFrame (s : QualcommCameraHardware) : QualcommCameraHardware :=
  { s with mReleasedRecordingFrame := true }

/-! ### Jpeg fragments -/

/-- The call `memcpy(base + dst, src, n)` from a buffer outside the heap: the
bytes of the heap are a function of the offset from its base. -/
def copyIn (mem : Nat → Nat) (dst : Int) (src : List Nat) (n : Nat) : Nat → Nat :=
  fun a => if dst ≤ Int.ofNat a ∧ Int.ofNat a < dst + Int.ofNat n
    then src.getD (Int.ofNat a - dst).toNat 0 else mem a

/-- The member `receiveJpegPictureFragment`.  The fragment is the list of its
bytes, `buff_size` its length; the bytes of the jpeg heap are passed in and
returned.  `remaining` and `buff_size` are `uint32_t`; the declaration of
`mJpegSize` is in the header, so whether the member is signed is a parameter.
Without a jpeg pool or heap the source dereferences a null pointer: `none`. -/
def receiveJpegPictureFragment (signedSize : Bool) (s : QualcommCameraHardware)
    (heap : Nat → Nat) (buff_ptr : List Nat) :
    Option (QualcommCameraHardware × (Nat → Nat)) :=
  match s.mJpegHeap with
  | none => none
  | some jpeg =>
    match jpeg.mHeap with
    | none => none
    | some h =>
      let buff_size : Int := toU32 (Int.ofNat buff_ptr.length)
      let remaining : Int := toU32 h.size
      let remaining : Int := toU32 (remaining - toU32 s.mJpegSize)
      let buff_size : Int := if buff_size > remaining then remaining else buff_size
      let heap := copyIn heap s.mJpegSize buff_ptr buff_size.toNat
      let sum : Int := toU32 (toU32 s.mJpegSize + buff_size)
      some ({ s with mJpegSize := if signedSize then toS32 sum else sum }, heap)

/-! ### Creation of the session -/

/-- The member `initDefaultParameters`.  The value strings are built on the
first call in the process and kept; they are rebuilt here on every call,
which gives the same strings as long as the sensor table is the same. -/
def initDefaultParameters (env : Env) (s : QualcommCameraHardware) : QualcommCameraHardware :=
  let ps := preview_sizes.getD DEFAULT_PREVIEW_SETTING ⟨0, 0⟩
  let p := s.mParameters.setPreviewSize ps.width ps.height
  let p := p.setInt .KEY_PREVIEW_FRAME_RATE 15
  let p := p.set .KEY_PREVIEW_FORMAT "yuv420sp"
  let p := p.setPictureSize DEFAULT_PICTURE_WIDTH DEFAULT_PICTURE_HEIGHT
  let p := p.set .KEY_PICTURE_FORMAT "jpeg"
  let p := p.setInt .KEY_JPEG_QUALITY 100
  let p := p.setInt .KEY_JPEG_THUMBNAIL_WIDTH 512
  let p := p.setInt .KEY_JPEG_THUMBNAIL_HEIGHT 384
  let p := p.setInt .KEY_JPEG_THUMBNAIL_QUALITY 90
  let p := p.set .KEY_ANTIBANDING "auto"
  let p := p.set .KEY_EFFECT "none"
  let p := p.set .KEY_WHITE_BALANCE "auto"
  let p := p.set .KEY_FOCUS_MODE "auto"
  let p := p.set .KEY_SUPPORTED_PREVIEW_FORMATS "yuv420sp"
  let p := p.set .KEY_SUPPORTED_PREVIEW_SIZES (create_sizes_str preview_sizes)
  let p := p.set .KEY_SUPPORTED_PICTURE_SIZES (create_sizes_str s.picture_sizes)
  let p := p.set .KEY_SUPPORTED_ANTIBANDING (create_values_str antibanding)
  let p := p.set .KEY_SUPPORTED_EFFECTS (create_values_str effects)
  let p := p.set .KEY_SUPPORTED_WHITE_BALANCE (create_values_str whitebalance)
  let p := p.set .KEY_SUPPORTED_FOCUS_MODES (create_values_str focus_modes)
  let p := if s.flash_enabled then
      (p.set .KEY_FLASH_MODE "off").set .KEY_SUPPORTED_FLASH_MODES (create_values_str flash)
    else p
  let p := p.set .zoom_supported "true"
  let p := p.setInt .max_zoom MAX_ZOOM_LEVEL
  let p := p.setInt .zoom 0
  let dim := { s.mDimension with display_width := ps.width
                                 display_height := ps.height
                                 ui_thumbnail_width := THUMBNAIL_WIDTH
                                 ui_thumbnail_height := THUMBNAIL_HEIGHT }
  let s := { s with mParameters := p, mDimension := dim }
  (setParameters env s s.mParameters).2

/-- The member `startCamera`. -/
def startCamera (env : Env) (s : QualcommCameraHardware) : Bool × QualcommCameraHardware :=
  let s := if env.DLOPEN_LIBMMCAMERA then
      { s with libmmcamera := env.dlopen, log := s.log ++ [Event.dlopen env.dlopen] }
    else s
  if env.DLOPEN_LIBMMCAMERA && !s.libmmcamera then (false, s)
  else
    let s := { s with mCameraControlFd := env.open_control
                      log := s.log ++ [Event.open_control env.open_control] }
    if s.mCameraControlFd < 0 then (false, s)
    else
      let s := { s with log := s.log ++
        [Event.launch_cam_conf_thread env.launch_cam_conf_thread] }
      if env.launch_cam_conf_thread ≠ 0 then (false, s)
      else
        let s := { s with
          flash_enabled := env.sensor_info.getD false
          log := s.log ++ [Event.ioctl_get_sensor_info s.mCameraControlFd env.sensor_info.isSome] }
        let s := { s with picture_sizes := env.snapshot_sizes.getD [] }
        if s.picture_sizes.isEmpty then (false, s)
        else (true, s)

/-- The destructor.  It begins by taking `singleton_lock`: run by a thread
that already holds that lock it never gets it unless mutexes are recursive,
which is the result `none`. -/
def destructor (env : Env) (singleton_lock_held : Bool) (_reg : Registry) : Option Registry :=
  if singleton_lock_held && !env.recursive_mutex then none
  else some { singleton_releasing := false, singleton := none }

/-- The static member `createInstance`, which holds `singleton_lock` from its
first statement to its return.  The arguments after the registry are what
the constructor leaves as it finds it.  The result is `none` when the call
does not return, and otherwise the pointer returned (`none` for null) with
the registry.  The wait at the head ends only when another thread clears
`singleton_releasing`.  On a failed `startCamera` the only strong pointer
`hardware` goes out of scope at `return NULL`, before the lock guard
declared ahead of it, so the destructor of the new object runs with the lock
held. -/
def createInstance (env : Env) (reg : Registry) (picture_sizes : List camera_size_type)
    (flash_enabled shutterPending : Bool) :
    Option (Option QualcommCameraHardware × Registry) :=
  if reg.singleton_releasing then none
  else
    match reg.singleton with
    | some hardware => some (some hardware, reg)
    | none =>
      if env.stat_oncrpc < 0 then some (none, reg)
      else
        let (started, cam) := startCamera env (new picture_sizes flash_enabled shutterPending)
        let reg := { reg with singleton := some cam }
        if !started then (destructor env true reg).map (fun reg => (none, reg))
        else
          let cam := initDefaultParameters env cam
          some (some cam, { reg with singleton := some cam })

end QualcommCameraHardware

/-- The outcomes a device-backed setter can have, given the value it would
send (`requested`, `none` for a request that fails validation) and what it
means for the request to be stored: either the request is invalid, the result
is `BAD_VALUE` and the session is untouched; or the request is stored, one
command carrying the value is sent, and the result is `NO_ERROR` when the
command succeeded and `UNKNOWN_ERROR` when it failed. -/
def CommitsOrRejects (env : Env) (s : QualcommCameraHardware)
    (r : status_t × QualcommCameraHardware) (type : cam_ctrl_type)
    (requested : Option CtrlValue) (stored : QualcommCameraHardware → Prop) : Prop :=
  (requested = none ∧ r = (BAD_VALUE, s)) ∨
  (∃ v, requested = some v ∧ stored r.2 ∧
    r.2.log = s.log ++ [Event.ioctl_ctrl s.mCameraControlFd type v (env.ioctl_ctrl type)] ∧
    r.1 = (if env.ioctl_ctrl type then NO_ERROR else UNKNOWN_ERROR))

/-- Whether a logged call is the consumer notification `CAMERA_MSG_SHUTTER`. -/
def isShutterNotification : Event → Bool
  | .notify_callback msgType _ _ => msgType == CAMERA_MSG_SHUTTER
  | _ => false

/-- How many times the consumer was notified of the shutter. -/
def shutterNotifications (log : List Event) : Nat := log.countP isShutterNotification

/-- One invocation of `notifyShutter`: the message mask and the notification
callback in force when it runs, and the crop geometry it is given. -/
structure ShutterInvocation where
  msgEnabled : Nat
  notifyCallback : Bool
  crop : common_crop_t

/-- Run one invocation of `notifyShutter` under its mask and registration. -/
def invokeNotifyShutter (env : Env) (s : QualcommCameraHardware) (i : ShutterInvocation) :
    QualcommCameraHardware :=
  QualcommCameraHardware.notifyShutter env
    { s with mMsgEnabled := i.msgEnabled, mNotifyCallback := i.notifyCallback } i.crop

/-- Whether a logged call is a register ioctl. -/
def isRegisterCall : Event → Bool
  | .ioctl_pmem _ true _ _ => true
  | _ => false

/-- Whether a logged call is a register ioctl that succeeded. -/
def isSuccessfulRegister : Event → Bool
  | .ioctl_pmem _ true _ true => true
  | _ => false

/-- Whether a logged call is an unregister ioctl. -/
def isUnregisterCall : Event → Bool
  | .ioctl_pmem _ false _ _ => true
  | _ => false

/-- The unregister call that mirrors a register call: the same descriptor
and the same argument block, with the active flag cleared; its outcome is
the one the environment gives it. -/
def asUnregister (env : Env) : Event → Event
  | .ioctl_pmem camfd _ info _ =>
    .ioctl_pmem camfd false { info with active := false }
      (env.ioctl_pmem false { info with active := false })
  | e => e

/-- The least multiple of `pageSize` that is at least `b`. -/
def leastMultiple (pageSize b : Int) : Int := (b + pageSize - 1) / pageSize * pageSize

/-- The preview pool that `initPreview` constructs for a session, with the
calls its construction makes. -/
def previewPoolOf (env : Env) (s : QualcommCameraHardware) : PmemPool × List Event :=
  PmemPool.new env "/dev/pmem_adsp" s.mCameraControlFd .MSM_PMEM_OUTPUT2
    ((toS32 (toS32 (s.mParameters.getPreviewSize.1 * s.mParameters.getPreviewSize.2) * 3)).tdiv 2)
    env.kPreviewBufferCount
    ((toS32 (toS32 (s.mParameters.getPreviewSize.1 * s.mParameters.getPreviewSize.2) * 3)).tdiv 2)
    "preview"

/-- What is looked at after a call of `startPreview`: the status, the two
state flags, whether a preview pool is held, and whether a frame thread is
marked running. -/
def startPreviewOutcome (r : Option (status_t × QualcommCameraHardware)) :
    Option (status_t × Bool × Bool × Bool × Bool) :=
  r.map (fun x => (x.1, x.2.mCameraRunning, x.2.mPreviewInitialized, x.2.mPreviewHeap.isSome,
    x.2.mFrameThreadRunning))

/-- Calls on the control device, on descriptors and on heaps: what
device commands and buffer-pool management produce. -/
def isDeviceCall : Event → Bool
  | .ioctl_ctrl _ _ _ _ => true
  | .ioctl_pmem _ _ _ _ => true
  | .close _ => true
  | .heap_release _ => true
  | .camframe_terminate => true
  | _ => false

/-- What stopping the preview and managing the capture pools leave alone:
the shutter-pending flag, the snapshot running flag, and the number of
events of any kind other than device calls. -/
def KeepsCapture (s s' : QualcommCameraHardware) : Prop :=
  s'.mShutterPending = s.mShutterPending ∧
  s'.mSnapshotThreadRunning = s.mSnapshotThreadRunning ∧
  ∀ p : Event → Bool, (∀ e, isDeviceCall e = true → p e = false) →
    s'.log.countP p = s.log.countP p

/-- The assignments to `mRawSize` and `mJpegMaxSize` in `initRaw`. -/
def initRawSizes (s : QualcommCameraHardware) (rawWidth rawHeight : Int) :
    QualcommCameraHardware :=
  { s with mRawSize := (toS32 (toS32 (rawWidth * rawHeight) * 3)).tdiv 2
           mJpegMaxSize := (toS32 (toS32 (rawWidth * rawHeight) * 3)).tdiv 2 }

/-- The assignment `mJpegHeap = new AshmemPool(...)` of `initRaw`. -/
def initRawJpegHeap (env : Env) (s : QualcommCameraHardware) : QualcommCameraHardware :=
  { s with log := s.log ++ QualcommCameraHardware.releaseJpeg s.mJpegHeap
           mJpegHeap := some (AshmemPool.new env s.mJpegMaxSize env.kJpegBufferCount 0 "jpeg") }

/-- The assignment `mThumbnailHeap = new PmemPool(...)` of `initRaw`. -/
def initRawThumbnailHeap (env : Env) (s : QualcommCameraHardware) : QualcommCameraHardware :=
  let (thumb, evs) := PmemPool.new env "/dev/pmem_adsp" s.mCameraControlFd
    .MSM_PMEM_THUMBNAIL THUMBNAIL_BUFFER_SIZE 1 THUMBNAIL_BUFFER_SIZE "thumbnail"
  { s with log := s.log ++ evs ++ releasePmem env [s.mDisplayHeap] s.mThumbnailHeap
           mThumbnailHeap := some (thumb.numbered s.mPoolsCreated)
           mPoolsCreated := s.mPoolsCreated + 1 }

/-- Whether the jpeg pool member is non-null and reports itself initialized. -/
def memInitialized (p : Option MemPool) : Bool :=
  match p with
  | some q => q.initialized
  | none => false

/-- The part of `initRaw` that follows a successful set-dimension command,
written as a sequence of the assignments above. -/
def initRawPools (env : Env) (s : QualcommCameraHardware) (rawWidth rawHeight : Int)
    (initJpegHeap : Bool) : Bool × QualcommCameraHardware :=
  let s2 := if s.mJpegHeap.isSome then QualcommCameraHardware.clearJpegHeap s else s
  let s3 := initRawSizes s2 rawWidth rawHeight
  let s4 := QualcommCameraHardware.newRawHeap env s3 "/dev/pmem_camera"
  let s5 := if !QualcommCameraHardware.pmemInitialized s4.mRawHeap then
    QualcommCameraHardware.newRawHeap env s4 "/dev/pmem_adsp" else s4
  if !QualcommCameraHardware.pmemInitialized s5.mRawHeap then
    (false, QualcommCameraHardware.clearRawHeap env s5)
  else if initJpegHeap then
    let s6 := initRawJpegHeap env s5
    if !memInitialized s6.mJpegHeap then
      (false, QualcommCameraHardware.clearRawHeap env (QualcommCameraHardware.clearJpegHeap s6))
    else
      let s7 := initRawThumbnailHeap env s6
      if !QualcommCameraHardware.pmemInitialized s7.mThumbnailHeap then
        (false, QualcommCameraHardware.clearRawHeap env (QualcommCameraHardware.clearJpegHeap
          (QualcommCameraHardware.clearThumbnailHeap env s7)))
      else (true, s7)
  else (true, s5)

/-- The calls by which a running preview is stopped: the autofocus cancel
when a notification callback is registered and focus messages are enabled,
the stop command, and the termination of the frame loop when the stop
succeeded on an initialized preview.  Nothing when no preview runs. -/
def stopPreviewCalls (env : Env) (s : QualcommCameraHardware) : List Event :=
  if s.mCameraRunning then
    (if s.mNotifyCallback && s.msgTypeEnabled CAMERA_MSG_FOCUS then
      [Event.ioctl_ctrl s.mCameraControlFd .CAMERA_AUTO_FOCUS_CANCEL .null
        (env.ioctl_ctrl .CAMERA_AUTO_FOCUS_CANCEL)] else [])
    ++ [Event.ioctl_ctrl s.mCameraControlFd .CAMERA_STOP_PREVIEW .null
        (env.ioctl_ctrl .CAMERA_STOP_PREVIEW)]
    ++ (if env.ioctl_ctrl .CAMERA_STOP_PREVIEW && s.mPreviewInitialized then
      [Event.camframe_terminate] else [])
  else []

/-- The calls by which the thumbnail, jpeg, raw and display pool members
give up their pools, in that order; a pool that the display member shares
with the raw or thumbnail member is destroyed when the display member lets
go of it. -/
def poolReleaseCalls (env : Env) (s : QualcommCameraHardware) : List Event :=
  releasePmem env [s.mDisplayHeap] s.mThumbnailHeap
  ++ QualcommCameraHardware.releaseJpeg s.mJpegHeap
  ++ releasePmem env [s.mDisplayHeap] s.mRawHeap
  ++ releasePmem env [none, none] s.mDisplayHeap

/-- The calls of the destructor of the pool that a member holds; none for a
null member. -/
def destroyOf (env : Env) (p : Option PmemPool) : List Event :=
  match p with
  | some q => q.destroy env
  | none => []

/-- The calls by which the four capture pools are given up in the order
thumbnail, jpeg, raw, display: the pool of each member is destroyed when the
member is cleared, except that a pool to which the display member refers as
well is destroyed only when the display member, the last one cleared, lets
go of it. -/
def poolDestroyCalls (env : Env) (s : QualcommCameraHardware) : List Event :=
  (if s.mThumbnailHeap = s.mDisplayHeap then [] else destroyOf env s.mThumbnailHeap)
  ++ (match s.mJpegHeap with
      | some q => q.destroy
      | none => [])
  ++ (if s.mRawHeap = s.mDisplayHeap then [] else destroyOf env s.mRawHeap)
  ++ destroyOf env s.mDisplayHeap

/-- A dimension rounded down to an even number. -/
def roundDownEven (x : Nat) : Nat := x / 2 * 2

/-- The size that the shutter notification reports unless it is too large
to display: the picture size when the crop geometry has no first input
window, the second input window rounded down to even otherwise. -/
def shutterPrimary (dim : cam_ctrl_dimension_t) (crop : common_crop_t) : image_rect_type :=
  if crop.in1_w = 0 ∨ crop.in1_h = 0 then ⟨dim.picture_width, dim.picture_height⟩
  else ⟨Int.ofNat (roundDownEven crop.in2_w), Int.ofNat (roundDownEven crop.in2_h)⟩

/-- The size reported instead of a primary size that is too large: the
thumbnail size when the crop geometry has no first input window, the first
input window rounded down to even otherwise. -/
def shutterFallback (dim : cam_ctrl_dimension_t) (crop : common_crop_t) : image_rect_type :=
  if crop.in1_w = 0 ∨ crop.in1_h = 0 then ⟨dim.ui_thumbnail_width, dim.ui_thumbnail_height⟩
  else ⟨Int.ofNat (roundDownEven crop.in1_w), Int.ofNat (roundDownEven crop.in1_h)⟩

/-- A crop geometry with its four input dimensions rounded down to even
(`&= ~1` on 32-bit fields). -/
def cropInputsEven (crop : common_crop_t) : common_crop_t :=
  { crop with in1_w := clearBit0 crop.in1_w
              in1_h := clearBit0 crop.in1_h
              in2_w := clearBit0 crop.in2_w
              in2_h := clearBit0 crop.in2_h }

/-- The chroma offset that a register call hands to the device. -/
def registeredCbcrOff : Event → Option Int
  | .ioctl_pmem _ true info _ => some info.cbcr_off
  | _ => none

/-- The loop of `camera_get_location` with the exhaustion of `fuel` told apart
from a result: `none` when `fuel` iterations were not enough. -/
def camera_get_location_search (country_code : Nat) :
    Nat → Int → Int → Option camera_antibanding_type
  | 0, _, _ => none
  | fuel + 1, left, right =>
    if left ≤ right then
      let index := (left + right) / 2
      match country_numeric.get? index.toNat with
      | none => some .CAMERA_ANTIBANDING_60HZ
      | some e =>
        if e.country_code = country_code then some e.type
        else if e.country_code > country_code then
          camera_get_location_search country_code fuel left (index - 1)
        else
          camera_get_location_search country_code fuel (index + 1) right
    else some .CAMERA_ANTIBANDING_60HZ

/-- The linear lookup of a country code: the type of the first entry with
that code, and 60 Hz when there is none. -/
def countryLookup (country_code : Nat) : camera_antibanding_type :=
  match country_numeric.find? (fun e => e.country_code == country_code) with
  | some e => e.type
  | none => .CAMERA_ANTIBANDING_60HZ

/-- A sequence of jpeg fragments received one after the other. -/
def receiveJpegFragments (signedSize : Bool) (s : QualcommCameraHardware)
    (heap : Nat → Nat) (fragments : List (List Nat)) :
    Option (QualcommCameraHardware × (Nat → Nat)) :=
  fragments.foldl
    (fun acc f => acc.bind
      (fun r => QualcommCameraHardware.receiveJpegPictureFragment signedSize r.1 r.2 f))
    (some (s, heap))

/-! ## Workers and calls -/

/-- A successful launch of a worker of the given role. -/
def isLaunch (role : ThreadRole) : Event → Bool
  | .pthread_create r ok => ok && decide (r = role)
  | _ => false

/-- The number of workers of a role launched so far. -/
def launches (role : ThreadRole) (log : List Event) : Nat := log.countP (isLaunch role)

/-- The running flag of a role. -/
def markedRunning (s : QualcommCameraHardware) : ThreadRole → Bool
  | .frame => s.mFrameThreadRunning
  | .snapshot => s.mSnapshotThreadRunning
  | .autofocus => s.mAutoFocusThreadRunning

/-- The preview state machine: `Previewing` is held only with
`PreviewInitialized`. -/
def PreviewInv (s : QualcommCameraHardware) : Prop :=
  s.mCameraRunning = true → s.mPreviewInitialized = true

/-- A change of the session that leaves the preview state, the three running
flags and the number of launches alone. -/
def Quiet (s s' : QualcommCameraHardware) : Prop :=
  s'.mCameraRunning = s.mCameraRunning ∧
  s'.mPreviewInitialized = s.mPreviewInitialized ∧
  s'.mFrameThreadRunning = s.mFrameThreadRunning ∧
  s'.mSnapshotThreadRunning = s.mSnapshotThreadRunning ∧
  s'.mAutoFocusThreadRunning = s.mAutoFocusThreadRunning ∧
  ∀ role, launches role s'.log = launches role s.log

/-- A change that launches nothing, leaves the running flags alone and keeps
the preview state machine. -/
def Calm (s s' : QualcommCameraHardware) : Prop :=
  (PreviewInv s → PreviewInv s') ∧
  ∀ role, markedRunning s' role = markedRunning s role ∧
    launches role s'.log = launches role s.log

/-- What a call may do to one role: nothing, or launch one worker of a role
that was not marked running and mark it. -/
def RoleEffect (role : ThreadRole) (s s' : QualcommCameraHardware) : Prop :=
  (markedRunning s' role = markedRunning s role ∧
    launches role s'.log = launches role s.log) ∨
  (markedRunning s role = false ∧ markedRunning s' role = true ∧
    launches role s'.log = launches role s.log + 1)

/-- What a call may do: it keeps the preview state machine and has a
`RoleEffect` on every role. -/
def CallEffect (s s' : QualcommCameraHardware) : Prop :=
  (PreviewInv s → PreviewInv s') ∧ ∀ role, RoleEffect role s s'

/-- What the completion of a worker does: it clears the running flag of its
role and leaves the preview state, the other flags and the launches alone. -/
def WorkerEffect (role : ThreadRole) (s s' : QualcommCameraHardware) : Prop :=
  s'.mCameraRunning = s.mCameraRunning ∧
  s'.mPreviewInitialized = s.mPreviewInitialized ∧
  markedRunning s' role = false ∧
  (∀ r, r ≠ role → markedRunning s' r = markedRunning s r) ∧
  ∀ r, launches r s'.log = launches r s.log

/-- The calls of the consumer that start, stop or wait for workers. -/
inductive Call
  | startPreview | stopPreview | startRecording | stopRecording | releaseRecordingFrame
  | takePicture | autoFocus | cancelAutoFocus | release
deriving DecidableEq, Repr

/-- The session after a call; `none` while the call is blocked. -/
def Call.run (env : Env) (c : Call) (s : QualcommCameraHardware) :
    Option QualcommCameraHardware :=
  match c with
  | .startPreview => (QualcommCameraHardware.startPreview env s).map (fun r => r.2)
  | .stopPreview => some (QualcommCameraHardware.stopPreview env s)
  | .startRecording => (QualcommCameraHardware.startRecording env s).map (fun r => r.2)
  | .stopRecording => some (QualcommCameraHardware.stopRecording env s)
  | .releaseRecordingFrame => some (QualcommCameraHardware.releaseRecordingFrame s)
  | .takePicture => (QualcommCameraHardware.takePicture env s).map (fun r => r.2)
  | .autoFocus => some (QualcommCameraHardware.autoFocus env s).2
  | .cancelAutoFocus => some (QualcommCameraHardware.cancelAutoFocus env s).2
  | .release => some (QualcommCameraHardware.release env false s).2

/-- The session after the worker of a role has run to its end; `none` when it
does not reach its end. -/
def workerBody (env : Env) (role : ThreadRole) (s : QualcommCameraHardware) :
    Option QualcommCameraHardware :=
  match role with
  | .frame => some (QualcommCameraHardware.runFrameThread env s)
  | .snapshot => QualcommCameraHardware.runSnapshotThread env s
  | .autofocus => QualcommCameraHardware.runAutoFocus env s

/-- The session together with the number of workers of each role that have
completed. -/
structure System where
  session : QualcommCameraHardware
  completed : ThreadRole → Nat

/-- The number of workers of a role launched and not yet completed. -/
def System.live (sys : System) (role : ThreadRole) : Nat :=
  launches role sys.session.log - sys.completed role

/-- One step of the session: a call that returns, with any device outcomes;
the completion of a worker that was launched and has not completed; or
progress of a worker or of a callback that is `Quiet`. -/
inductive Step : System → System → Prop
  | call (env : Env) (c : Call) (sys : System) (s' : QualcommCameraHardware) :
      c.run env sys.session = some s' → Step sys ⟨s', sys.completed⟩
  | complete (env : Env) (role : ThreadRole) (sys : System) (s' : QualcommCameraHardware) :
      sys.completed role < launches role sys.session.log →
      workerBody env role sys.session = some s' →
      Step sys ⟨s', Function.update sys.completed role (sys.completed role + 1)⟩
  | progress (sys : System) (s' : QualcommCameraHardware) :
      Quiet sys.session s' → Step sys ⟨s', sys.completed⟩

/-- The states reached from `sys0` by any number of steps. -/
inductive Reachable (sys0 : System) : System → Prop
  | start : Reachable sys0 sys0
  | step (sys sys' : System) : Reachable sys0 sys → Step sys sys' → Reachable sys0 sys'

/-- The type of a parameter setter. -/
abbrev Setter := QualcommCameraHardware → CameraParameters → status_t × QualcommCameraHardware

/-- Specification side of `setParameters`: every setter of the list is run
exactly once, in list order, each on the state left by the one before; the
result is the list of the statuses returned and the final state. -/
def runSettersInOrder (setters : List Setter) (params : CameraParameters)
    (s : QualcommCameraHardware) : List status_t × QualcommCameraHardware :=
  match setters with
  | [] => ([], s)
  | f :: fs =>
    let r := f s params
    let rest := runSettersInOrder fs params r.2
    (r.1 :: rest.1, rest.2)

/-- The twelve setters in the order in which `setParameters` names them. -/
def parameterSetters (env : Env) : List Setter :=
  [QualcommCameraHardware.setPreviewSize, QualcommCameraHardware.setPictureSize,
   QualcommCameraHardware.setJpegQuality, QualcommCameraHardware.setAntibanding env,
   QualcommCameraHardware.setEffect env, QualcommCameraHardware.setWhiteBalance env,
   QualcommCameraHardware.setFlash env, QualcommCameraHardware.setGpsLocation,
   QualcommCameraHardware.setRotation, QualcommCameraHardware.setZoom env,
   QualcommCameraHardware.setFocusMode, QualcommCameraHardware.setOrientation]

/-- A session with an open control descriptor, a sensor with flash, and the
default qualities and zoom level stored. -/
def sampleSession : QualcommCameraHardware :=
  { QualcommCameraHardware.new [⟨2048, 1536⟩] true false with
    mParameters := ((CameraParameters.empty.setInt .KEY_JPEG_QUALITY 100).setInt
      .KEY_JPEG_THUMBNAIL_QUALITY 90).setInt .zoom 0
    mCameraControlFd := 3
    libmmcamera := true }

/-- An environment with 4 KiB pages in which heaps and threads are always
created; the outcomes of the control and registration ioctls are arguments. -/
def sampleEnv (ctrl : cam_ctrl_type → Bool) (pmem : Bool → msm_pmem_info → Bool) : Env :=
  { pageSize := 4096
    kPreviewBufferCount := 4
    kRawBufferCount := 1
    kJpegBufferCount := 1
    gsm_operator_numeric := "310260"
    ioctl_ctrl := ctrl
    ioctl_pmem := pmem
    dup := fun fd => fd + 100
    master_heap_id := fun _ _ => 10
    pmem_heap := fun _ size => ⟨11, 1073741824, size⟩
    pmem_get_size := fun _ => true
    ashmem_heap := fun size => ⟨12, 1342177280, size⟩
    pthread_create := fun _ => true
    DLOPEN_LIBMMCAMERA := true
    dlopen := true
    stat_oncrpc := 0
    open_control := 5
    launch_cam_conf_thread := 0
    sensor_info := some true
    snapshot_sizes := some [⟨2048, 1536⟩, ⟨1600, 1200⟩]
    get_picture := some common_crop_t.zero
    jpeg_encoder := fun _ => true
    JPEG_EVENT_DONE := 0
    sscanf_ok := fun _ _ => true
    recursive_mutex := false }

/-- A request with a valid jpeg quality and an invalid thumbnail quality. -/
def sampleJpegRequest : CameraParameters :=
  (CameraParameters.empty.setInt .KEY_JPEG_QUALITY 50).setInt .KEY_JPEG_THUMBNAIL_QUALITY 0

/-- A request whose preview size is not supported while its zoom level and
orientation are valid. -/
def sampleMixedRequest : CameraParameters :=
  ((CameraParameters.empty.setPreviewSize 999 999).setInt .zoom 3).set .orientation "landscape"

/-- The result of `takePicture` on the sample session when every device
call succeeds. -/
def sampleTaken : status_t × QualcommCameraHardware :=
  (QualcommCameraHardware.takePicture (sampleEnv (fun _ => true) (fun _ _ => true))
    sampleSession).getD (UNKNOWN_ERROR, sampleSession)

/-- Two invocations of `notifyShutter` with the shutter message enabled: one
without crop, one with a crop geometry. -/
def sampleInvocations : List ShutterInvocation :=
  [⟨CAMERA_MSG_SHUTTER, true, common_crop_t.zero⟩,
   ⟨CAMERA_MSG_SHUTTER, true, ⟨640, 512, 480, 384, 1600, 2048, 1200, 1536, 1⟩⟩]

/-- An environment in which every registration ioctl fails and every
unregistration ioctl succeeds. -/
def sampleEnvNoRegister : Env := sampleEnv (fun _ => true) (fun register_buffer _ => !register_buffer)

/-- The preview pool for 640x480 frames: four slots of 460800 bytes. -/
def samplePreviewPool : PmemPool × List Event :=
  PmemPool.new (sampleEnv (fun _ => true) (fun _ _ => true)) "/dev/pmem_adsp" 3
    .MSM_PMEM_OUTPUT2 460800 4 460800 "preview"

/-- The sample session with the preview size 640x480 stored. -/
def samplePreviewSession : QualcommCameraHardware :=
  { sampleSession with mParameters := sampleSession.mParameters.setPreviewSize 640 480 }

/-- The result of `initPreview` on that session when every call succeeds. -/
def samplePreviewStarted : Bool × QualcommCameraHardware :=
  (QualcommCameraHardware.initPreview (sampleEnv (fun _ => true) (fun _ _ => true))
    samplePreviewSession).getD (false, samplePreviewSession)

/-- An environment in which exactly the control command of type `t` fails. -/
def sampleEnvFailing (t : cam_ctrl_type) : Env :=
  sampleEnv (fun c => c != t) (fun _ _ => true)

/-- The result of `startPreview` on the sample preview session when the
device refuses to start the preview. -/
def sampleStartFailed : status_t × QualcommCameraHardware :=
  (QualcommCameraHardware.startPreview (sampleEnvFailing .CAMERA_START_PREVIEW)
    samplePreviewSession).getD (NO_ERROR, samplePreviewSession)

/-- A session for 2048x1536 pictures that has callbacks registered and the
shutter, raw-image and compressed-image messages enabled. -/
def sampleCaptureSession : QualcommCameraHardware :=
  { sampleSession with mParameters := sampleSession.mParameters.setPictureSize 2048 1536
                       mDimension := ⟨2048, 1536, 640, 480, 512, 384⟩
                       mNotifyCallback := true
                       mDataCallback := true
                       mMsgEnabled := 0x182 }

/-- The state after a capture was started on that session with every call
succeeding: the raw, jpeg and thumbnail pools are held. -/
def sampleCaptured : QualcommCameraHardware :=
  ((QualcommCameraHardware.takePicture (sampleEnv (fun _ => true) (fun _ _ => true))
    sampleCaptureSession).getD (UNKNOWN_ERROR, sampleCaptureSession)).2

/-- An environment in which no pmem region can be created. -/
def sampleEnvNoPmem : Env :=
  { sampleEnv (fun _ => true) (fun _ _ => true) with master_heap_id := fun _ _ => -1 }

/-- An environment in which the control device cannot be opened. -/
def sampleEnvNoDevice : Env :=
  { sampleEnv (fun _ => true) (fun _ _ => true) with open_control := -1 }

/-- The same environment with recursive mutexes. -/
def sampleEnvNoDeviceRecursive : Env :=
  { sampleEnvNoDevice with recursive_mutex := true }

/-- The registry before any session exists. -/
def sampleRegistryEmpty : Registry := ⟨false, none⟩

/-- A session that is previewing with a focus worker marked running, no
callback registered and no message enabled. -/
def samplePreviewingFocus : QualcommCameraHardware :=
  { sampleSession with mCameraRunning := true
                       mPreviewInitialized := true
                       mAutoFocusThreadRunning := true }

/-- An environment whose device reports a crop geometry without a second
input window (the picture is not zoomed) and with output dimensions set. -/
def sampleEnvUnzoomed : Env :=
  { sampleEnv (fun _ => true) (fun _ _ => true) with
    get_picture := some ⟨0, 512, 0, 384, 0, 2048, 0, 1536, 1⟩ }

/-- An environment whose device reports the crop geometry of a zoomed
picture: the window 1600x1200 of the 2048x1536 picture and the window 400x300
of the 512x384 thumbnail. -/
def sampleEnvZoomed : Env :=
  { sampleEnv (fun _ => true) (fun _ _ => true) with
    get_picture := some ⟨400, 512, 300, 384, 1600, 2048, 1200, 1536, 1⟩ }

/-- An environment whose device reports a thumbnail window larger than the
thumbnail. -/
def sampleEnvWideWindow : Env :=
  { sampleEnv (fun _ => true) (fun _ _ => true) with
    get_picture := some ⟨640, 512, 480, 384, 1600, 2048, 1200, 1536, 1⟩ }

/-- A session that is previewing and recording: preview and recording
callbacks are registered and both frame messages are enabled. -/
def sampleRecordingSession : QualcommCameraHardware :=
  { samplePreviewStarted.2 with mCameraRunning := true
                                mPreviewInitialized := true
                                mDataCallback := true
                                mDataCallbackTimestamp := true
                                mMsgEnabled := 0x30 }

/-- A session for 2048x1536 pictures with a data callback registered and only
raw-image messages enabled: no notification callback, no shutter message. -/
def sampleRawOnlySession : QualcommCameraHardware :=
  { sampleSession with mParameters := sampleSession.mParameters.setPictureSize 2048 1536
                       mDimension := ⟨2048, 1536, 640, 480, 512, 384⟩
                       mDataCallback := true
                       mMsgEnabled := 0x80 }

/-- The result of `takePicture` on that session when every call succeeds. -/
def sampleRawOnlyTaken : status_t × QualcommCameraHardware :=
  (QualcommCameraHardware.takePicture (sampleEnv (fun _ => true) (fun _ _ => true))
    sampleRawOnlySession).getD (UNKNOWN_ERROR, sampleRawOnlySession)

/-- A jpeg pool with a heap of six bytes. -/
def sampleJpegPool : MemPool :=
  { mBufferSize := 6
    mNumBuffers := 1
    mFrameSize := 0
    mAlignedBufferSize := 6
    mBuffers := []
    mHeap := some ⟨12, 1342177280, 6⟩
    mName := "jpeg" }

/-- A session with that jpeg pool. -/
def sampleJpegSession : QualcommCameraHardware :=
  { sampleSession with mJpegHeap := some sampleJpegPool }

/-- The capture session with no worker launched or completed. -/
def sampleIdleSystem : System := ⟨sampleCaptureSession, fun _ => 0⟩

/-- That system after `takePicture` has launched the snapshot worker. -/
def sampleCapturingSystem : System := ⟨sampleCaptured, fun _ => 0⟩

/-- The freshly constructed session. -/
def sampleFreshSystem : System := ⟨QualcommCameraHardware.new [] false false, fun _ => 0⟩

/-- The freshly constructed session after a `startPreview` in which every
call succeeds. -/
def samplePreviewingSystem : System :=
  ⟨(Call.run (sampleEnv (fun _ => true) (fun _ _ => true)) .startPreview
      sampleFreshSystem.session).getD sampleFreshSystem.session, fun _ => 0⟩

/-- The captured session after its snapshot worker has run to its end with
every call succeeding: the display member refers to the raw pool, and the
pools are kept for the encoder. -/
def sampleAfterWorker : QualcommCameraHardware :=
  (QualcommCameraHardware.runSnapshotThread (sampleEnv (fun _ => true) (fun _ _ => true))
    sampleCaptured).getD sampleCaptured

/-- That session after a second `takePicture`: the raw member holds a new
pool, the display member still the pool of the first capture. -/
def sampleSecondCapture : QualcommCameraHardware :=
  ((QualcommCameraHardware.takePicture (sampleEnv (fun _ => true) (fun _ _ => true))
    sampleAfterWorker).getD (UNKNOWN_ERROR, sampleAfterWorker)).2

end android

/-! # Theorems -/

namespace android

open QualcommCameraHardware

/-! ## Parameter validation -/

/-- A validation loop over a size table succeeds exactly on its entries. -/
theorem any_size_iff (L : List camera_size_type) (w h : Int) :
    L.any (fun e => w == e.width && h == e.height) = true ↔
      (⟨w, h⟩ : camera_size_type) ∈ L := by
  simp only [List.any_eq_true]
  constructor
  · rintro ⟨e, he, hwh⟩
    cases e
    simp at hwh
    obtain ⟨h1, h2⟩ := hwh
    subst h1 h2
    exact he
  · intro hm
    exact ⟨_, hm, by simp⟩

/-- C1: for a request of preview size `(w, h)`, `setPreviewSize` returns
`NO_ERROR` and stores exactly `(w, h)` in the parameters and in
`display_width` / `display_height` when `(w, h)` is an entry of
`preview_sizes`; otherwise it returns `BAD_VALUE` and the whole session state
is unchanged.  In particular 640x480 is accepted and 999x999 is rejected. -/
theorem setPreviewSize_contract (s : QualcommCameraHardware) (params : CameraParameters)
    (w h : Int) (hreq : params.getPreviewSize = (w, h)) :
    ((⟨w, h⟩ : camera_size_type) ∈ preview_sizes →
        (s.setPreviewSize params).1 = NO_ERROR ∧
        (s.setPreviewSize params).2.getParameters.getPreviewSize = (w, h) ∧
        (s.setPreviewSize params).2.mDimension.display_width = w ∧
        (s.setPreviewSize params).2.mDimension.display_height = h) ∧
    ((⟨w, h⟩ : camera_size_type) ∉ preview_sizes →
        s.setPreviewSize params = (BAD_VALUE, s)) ∧
    (∀ p : CameraParameters,
        (s.setPreviewSize (p.setPreviewSize 640 480)).1 = NO_ERROR ∧
        (s.setPreviewSize (p.setPreviewSize 640 480)).2.getParameters.getPreviewSize
          = (640, 480) ∧
        s.setPreviewSize (p.setPreviewSize 999 999) = (BAD_VALUE, s)) := by
  refine ⟨?_, ?_, ?_⟩
  · intro hm
    have hany := (any_size_iff preview_sizes w h).2 hm
    unfold setPreviewSize
    rw [hreq]
    simp only [hany, if_true]
    simp [getParameters, CameraParameters.getPreviewSize,
      CameraParameters.setPreviewSize, CameraParameters.getSize, CameraParameters.setSize]
  · intro hm
    have hany : preview_sizes.any (fun e => w == e.width && h == e.height) = false := by
      rw [Bool.eq_false_iff]
      intro hc
      exact hm ((any_size_iff preview_sizes w h).1 hc)
    unfold setPreviewSize
    rw [hreq]
    simp only [hany]
    simp
  · intro p
    simp [setPreviewSize, getParameters, CameraParameters.getPreviewSize,
      CameraParameters.setPreviewSize, CameraParameters.getSize, CameraParameters.setSize,
      preview_sizes, NO_ERROR, BAD_VALUE]

/-- The contract of `setPreviewSize` at the request 640x480 on a fresh session. -/
theorem setPreviewSize_contract_witness :
    ((QualcommCameraHardware.new [] false false).setPreviewSize
        (CameraParameters.empty.setPreviewSize 640 480)).1 = NO_ERROR :=
  ((setPreviewSize_contract (QualcommCameraHardware.new [] false false)
      (CameraParameters.empty.setPreviewSize 640 480) 640 480 rfl).1 (by decide)).1

/-- C2 (as stated, refuted): with stored qualities 100 and 90, a request of
jpeg quality 50 and thumbnail quality 0 makes `setJpegQuality` return
`BAD_VALUE` although the stored jpeg quality has changed from 100 to 50. -/
theorem setJpegQuality_partial_application :
    (sampleSession.setJpegQuality sampleJpegRequest).1 = BAD_VALUE ∧
    sampleSession.mParameters.getInt .KEY_JPEG_QUALITY = 100 ∧
    (sampleSession.setJpegQuality sampleJpegRequest).2.mParameters.getInt .KEY_JPEG_QUALITY
      = 50 := by
  decide

/-- C2 (amended): when `setJpegQuality` returns `BAD_VALUE`, at least one of
the two requested qualities lies outside 1..100, and each of the two stored
values is decided by its own request alone: it is the requested quality when
that lies in 1..100 and is exactly as before the call otherwise. -/
theorem setJpegQuality_validates_each (s : QualcommCameraHardware)
    (params : CameraParameters) (hbad : (s.setJpegQuality params).1 = BAD_VALUE) :
    (¬ (0 < params.getInt .KEY_JPEG_QUALITY ∧ params.getInt .KEY_JPEG_QUALITY ≤ 100) ∨
      ¬ (0 < params.getInt .KEY_JPEG_THUMBNAIL_QUALITY ∧
          params.getInt .KEY_JPEG_THUMBNAIL_QUALITY ≤ 100)) ∧
    ((s.setJpegQuality params).2.mParameters.ints .KEY_JPEG_QUALITY =
      if 0 < params.getInt .KEY_JPEG_QUALITY ∧ params.getInt .KEY_JPEG_QUALITY ≤ 100
      then some (params.getInt .KEY_JPEG_QUALITY)
      else s.mParameters.ints .KEY_JPEG_QUALITY) ∧
    ((s.setJpegQuality params).2.mParameters.ints .KEY_JPEG_THUMBNAIL_QUALITY =
      if 0 < params.getInt .KEY_JPEG_THUMBNAIL_QUALITY ∧
          params.getInt .KEY_JPEG_THUMBNAIL_QUALITY ≤ 100
      then some (params.getInt .KEY_JPEG_THUMBNAIL_QUALITY)
      else s.mParameters.ints .KEY_JPEG_THUMBNAIL_QUALITY) := by
  generalize hq : params.getInt .KEY_JPEG_QUALITY = q at *
  generalize ht : params.getInt .KEY_JPEG_THUMBNAIL_QUALITY = t at *
  unfold setJpegQuality at *
  simp only [hq, ht] at *
  by_cases h1 : 0 < q ∧ q ≤ 100 <;> by_cases h2 : 0 < t ∧ t ≤ 100 <;>
    simp [h1, h2, CameraParameters.setInt, NO_ERROR, BAD_VALUE, gt_iff_lt] at hbad ⊢

/-- The amended C2 at the request (50, 0): the call returns `BAD_VALUE`, the
jpeg quality becomes 50 and the thumbnail quality stays 90. -/
theorem setJpegQuality_validates_each_witness :
    (sampleSession.setJpegQuality sampleJpegRequest).1 = BAD_VALUE ∧
    (sampleSession.setJpegQuality sampleJpegRequest).2.mParameters.ints .KEY_JPEG_QUALITY
      = some 50 ∧
    (sampleSession.setJpegQuality sampleJpegRequest).2.mParameters.ints
      .KEY_JPEG_THUMBNAIL_QUALITY = some 90 :=
  ⟨by decide,
   (setJpegQuality_validates_each sampleSession sampleJpegRequest (by decide)).2.1,
   (setJpegQuality_validates_each sampleSession sampleJpegRequest (by decide)).2.2⟩

/-- The table-driven setters commit or reject. -/
theorem setAttr_commitsOrRejects (env : Env) (s : QualcommCameraHardware)
    (params : CameraParameters) (key : StrKey) (table : List str_map) (type : cam_ctrl_type) :
    CommitsOrRejects env s (setAttr env s params key table type) type
      ((attr_lookup table (params.get key)).map CtrlValue.enumerator)
      (fun t => t.mParameters.get key = params.get key ∧ (params.get key).isSome) := by
  unfold CommitsOrRejects setAttr
  cases hg : params.get key with
  | none => simp [attr_lookup]
  | some str =>
    cases hl : attr_lookup table (some str) with
    | none => simp [hl]
    | some value =>
      right
      refine ⟨_, rfl, ?_⟩
      simp only [hl]
      simp [native_set_parm, ctrl_command, CameraParameters.get, CameraParameters.set]

/-- The zoom setter commits or rejects. -/
theorem setZoom_commitsOrRejects (env : Env) (s : QualcommCameraHardware)
    (params : CameraParameters) :
    CommitsOrRejects env s (setZoom env s params) .CAMERA_SET_PARM_ZOOM
      (if 0 ≤ params.getInt .zoom ∧ params.getInt .zoom ≤ 5
        then some (.int32 (6 * params.getInt .zoom)) else none)
      (fun t => t.mParameters.getInt .zoom = params.getInt .zoom) := by
  unfold CommitsOrRejects setZoom
  generalize params.getInt .zoom = z
  by_cases hz : 0 ≤ z ∧ z ≤ 5
  · right
    have h6 : toS32 (6 * z) = 6 * z := by unfold toS32; omega
    simp [hz, MAX_ZOOM_LEVEL, ZOOM_STEP, h6, native_set_parm, ctrl_command,
      CameraParameters.getInt, CameraParameters.setInt]
  · left
    simp [hz, MAX_ZOOM_LEVEL]

/-- C3 (as stated, refuted): with zoom level 0 stored and a device whose
control commands fail, a request of zoom level 3 makes `setZoom` return
`UNKNOWN_ERROR`, not `NO_ERROR`, and yet the stored zoom level is 3. -/
theorem setZoom_stores_before_device_failure :
    (setZoom (sampleEnv (fun _ => false) (fun _ _ => true)) sampleSession
        (CameraParameters.empty.setInt .zoom 3)).1 = UNKNOWN_ERROR ∧
    sampleSession.mParameters.getInt .zoom = 0 ∧
    (setZoom (sampleEnv (fun _ => false) (fun _ _ => true)) sampleSession
        (CameraParameters.empty.setInt .zoom 3)).2.mParameters.getInt .zoom = 3 := by
  decide

/-- C3 (amended): each of `setEffect`, `setWhiteBalance`, `setFlash` and
`setZoom` either rejects an invalid request with `BAD_VALUE`, leaving the
session exactly as it was and sending nothing, or stores the requested value,
sends it to the device in one command, and returns `NO_ERROR` when that
command succeeded and `UNKNOWN_ERROR` when it failed (the new value is stored
in both cases).  On a sensor without flash `setFlash` returns `NO_ERROR` and
changes nothing. -/
theorem device_setters_commit_or_reject (env : Env) (s : QualcommCameraHardware)
    (params : CameraParameters) :
    CommitsOrRejects env s (setEffect env s params) .CAMERA_SET_PARM_EFFECT
      ((attr_lookup effects (params.get .KEY_EFFECT)).map CtrlValue.enumerator)
      (fun t => t.mParameters.get .KEY_EFFECT = params.get .KEY_EFFECT ∧
        (params.get .KEY_EFFECT).isSome) ∧
    CommitsOrRejects env s (setWhiteBalance env s params) .CAMERA_SET_PARM_WB
      ((attr_lookup whitebalance (params.get .KEY_WHITE_BALANCE)).map CtrlValue.enumerator)
      (fun t => t.mParameters.get .KEY_WHITE_BALANCE = params.get .KEY_WHITE_BALANCE ∧
        (params.get .KEY_WHITE_BALANCE).isSome) ∧
    (if s.flash_enabled then
      CommitsOrRejects env s (setFlash env s params) .CAMERA_SET_PARM_LED_MODE
        ((attr_lookup flash (params.get .KEY_FLASH_MODE)).map CtrlValue.enumerator)
        (fun t => t.mParameters.get .KEY_FLASH_MODE = params.get .KEY_FLASH_MODE ∧
          (params.get .KEY_FLASH_MODE).isSome)
     else setFlash env s params = (NO_ERROR, s)) ∧
    CommitsOrRejects env s (setZoom env s params) .CAMERA_SET_PARM_ZOOM
      (if 0 ≤ params.getInt .zoom ∧ params.getInt .zoom ≤ 5
        then some (.int32 (6 * params.getInt .zoom)) else none)
      (fun t => t.mParameters.getInt .zoom = params.getInt .zoom) := by
  refine ⟨setAttr_commitsOrRejects env s params _ _ _,
    setAttr_commitsOrRejects env s params _ _ _, ?_, setZoom_commitsOrRejects env s params⟩
  cases hf : s.flash_enabled with
  | true =>
    simp only [if_true]
    have := setAttr_commitsOrRejects env s params .KEY_FLASH_MODE flash
      .CAMERA_SET_PARM_LED_MODE
    simpa [setFlash, hf] using this
  | false => simp [setFlash, hf]

/-! ## Aggregation in `setParameters` -/

theorem foldl_applySetter (L : List Setter) (params : CameraParameters) :
    ∀ (a : status_t) (s : QualcommCameraHardware),
      (L.foldl (fun acc f => applySetter f params acc) (a, s)).2
          = (runSettersInOrder L params s).2 ∧
      ((L.foldl (fun acc f => applySetter f params acc) (a, s)).1 = NO_ERROR ↔
          a = NO_ERROR ∧ ∀ rc ∈ (runSettersInOrder L params s).1, rc = NO_ERROR) ∧
      (runSettersInOrder L params s).1.length = L.length := by
  induction L with
  | nil => intro a s; simp [runSettersInOrder]
  | cons f fs ih =>
    intro a s
    simp only [List.foldl_cons, runSettersInOrder]
    have happ : applySetter f params (a, s) =
        (if (f s params).1 ≠ 0 then (f s params).1 else a, (f s params).2) := rfl
    rw [happ]
    obtain ⟨h1, h2, h3⟩ := ih (if (f s params).1 ≠ 0 then (f s params).1 else a) (f s params).2
    refine ⟨h1, ?_, by simp [h3]⟩
    rw [h2]
    simp only [List.mem_cons, forall_eq_or_imp, NO_ERROR]
    by_cases hz : (f s params).1 = 0
    · simp [hz]
    · simp [hz]

theorem setParameters_eq_foldl (env : Env) (s : QualcommCameraHardware)
    (params : CameraParameters) :
    setParameters env s params =
      (parameterSetters env).foldl (fun acc f => applySetter f params acc) (NO_ERROR, s) := rfl

theorem setPreviewSize_frame (s : QualcommCameraHardware) (p : CameraParameters) :
    (s.setPreviewSize p).2.mParameters.ints = s.mParameters.ints ∧
    (s.setPreviewSize p).2.mParameters.strs = s.mParameters.strs ∧
    (∀ k, k ≠ SizeKey.KEY_PREVIEW_SIZE →
      (s.setPreviewSize p).2.mParameters.sizes k = s.mParameters.sizes k) ∧
    (s.setPreviewSize p).2.flash_enabled = s.flash_enabled ∧
    (s.setPreviewSize p).2.picture_sizes = s.picture_sizes := by
  unfold setPreviewSize
  split
  split <;> simp_all [CameraParameters.setPreviewSize, CameraParameters.setSize]

theorem setPictureSize_frame (s : QualcommCameraHardware) (p : CameraParameters) :
    (s.setPictureSize p).2.mParameters.ints = s.mParameters.ints ∧
    (s.setPictureSize p).2.mParameters.strs = s.mParameters.strs ∧
    (∀ k, k ≠ SizeKey.KEY_PICTURE_SIZE →
      (s.setPictureSize p).2.mParameters.sizes k = s.mParameters.sizes k) ∧
    (s.setPictureSize p).2.flash_enabled = s.flash_enabled := by
  unfold setPictureSize
  split
  split <;> simp_all [CameraParameters.setPictureSize, CameraParameters.setSize]

theorem setJpegQuality_frame (s : QualcommCameraHardware) (p : CameraParameters) :
    (s.setJpegQuality p).2.mParameters.sizes = s.mParameters.sizes ∧
    (s.setJpegQuality p).2.mParameters.strs = s.mParameters.strs ∧
    (∀ k, k ≠ IntKey.KEY_JPEG_QUALITY → k ≠ IntKey.KEY_JPEG_THUMBNAIL_QUALITY →
      (s.setJpegQuality p).2.mParameters.ints k = s.mParameters.ints k) ∧
    (s.setJpegQuality p).2.flash_enabled = s.flash_enabled := by
  unfold setJpegQuality
  generalize p.getInt .KEY_JPEG_QUALITY = q
  generalize p.getInt .KEY_JPEG_THUMBNAIL_QUALITY = t
  by_cases h1 : 0 < q ∧ q ≤ 100 <;> by_cases h2 : 0 < t ∧ t ≤ 100 <;>
    simp +contextual [h1, h2, CameraParameters.setInt, gt_iff_lt]

theorem setAttr_frame (env : Env) (s : QualcommCameraHardware) (p : CameraParameters)
    (key : StrKey) (table : List str_map) (type : cam_ctrl_type) :
    (setAttr env s p key table type).2.mParameters.sizes = s.mParameters.sizes ∧
    (setAttr env s p key table type).2.mParameters.ints = s.mParameters.ints ∧
    (∀ k, k ≠ key →
      (setAttr env s p key table type).2.mParameters.strs k = s.mParameters.strs k) ∧
    (setAttr env s p key table type).2.flash_enabled = s.flash_enabled := by
  unfold setAttr
  split
  · split <;> simp_all [CameraParameters.set, native_set_parm, ctrl_command]
  · simp

theorem setAntibanding_frame (env : Env) (s : QualcommCameraHardware) (p : CameraParameters) :
    (setAntibanding env s p).2.mParameters.sizes = s.mParameters.sizes ∧
    (setAntibanding env s p).2.mParameters.ints = s.mParameters.ints ∧
    (∀ k, k ≠ StrKey.KEY_ANTIBANDING →
      (setAntibanding env s p).2.mParameters.strs k = s.mParameters.strs k) ∧
    (setAntibanding env s p).2.flash_enabled = s.flash_enabled := by
  unfold setAntibanding
  split
  · split <;> simp_all [CameraParameters.set, native_set_parm, ctrl_command]
  · simp

theorem setFlash_frame (env : Env) (s : QualcommCameraHardware) (p : CameraParameters) :
    (setFlash env s p).2.mParameters.sizes = s.mParameters.sizes ∧
    (setFlash env s p).2.mParameters.ints = s.mParameters.ints ∧
    (∀ k, k ≠ StrKey.KEY_FLASH_MODE →
      (setFlash env s p).2.mParameters.strs k = s.mParameters.strs k) := by
  unfold setFlash
  split
  · simp
  · have := setAttr_frame env s p .KEY_FLASH_MODE flash .CAMERA_SET_PARM_LED_MODE
    exact ⟨this.1, this.2.1, this.2.2.1⟩

theorem setGpsLocation_frame (s : QualcommCameraHardware) (p : CameraParameters) :
    (s.setGpsLocation p).2.mParameters.sizes = s.mParameters.sizes ∧
    (s.setGpsLocation p).2.mParameters.ints = s.mParameters.ints ∧
    (∀ k, k ≠ StrKey.KEY_GPS_LATITUDE → k ≠ StrKey.KEY_GPS_LONGITUDE →
      k ≠ StrKey.KEY_GPS_ALTITUDE → k ≠ StrKey.KEY_GPS_TIMESTAMP →
      (s.setGpsLocation p).2.mParameters.strs k = s.mParameters.strs k) := by
  unfold setGpsLocation copyGps
  cases p.get .KEY_GPS_LATITUDE <;> cases p.get .KEY_GPS_LONGITUDE <;>
  cases p.get .KEY_GPS_ALTITUDE <;> cases p.get .KEY_GPS_TIMESTAMP <;>
    simp_all [CameraParameters.set]

theorem setRotation_frame (s : QualcommCameraHardware) (p : CameraParameters) :
    (s.setRotation p).2.mParameters.sizes = s.mParameters.sizes ∧
    (s.setRotation p).2.mParameters.strs = s.mParameters.strs ∧
    (∀ k, k ≠ IntKey.KEY_ROTATION →
      (s.setRotation p).2.mParameters.ints k = s.mParameters.ints k) := by
  unfold setRotation
  generalize p.getInt .KEY_ROTATION = r
  by_cases h1 : r ≠ NOT_FOUND <;> by_cases h2 : r = 0 ∨ r = 90 ∨ r = 180 ∨ r = 270 <;>
    simp +contextual [h1, h2, CameraParameters.setInt]

theorem setZoom_frame (env : Env) (s : QualcommCameraHardware) (p : CameraParameters) :
    (setZoom env s p).2.mParameters.sizes = s.mParameters.sizes ∧
    (setZoom env s p).2.mParameters.strs = s.mParameters.strs ∧
    (∀ k, k ≠ IntKey.zoom →
      (setZoom env s p).2.mParameters.ints k = s.mParameters.ints k) := by
  unfold setZoom
  generalize p.getInt .zoom = z
  by_cases hz : z ≥ 0 ∧ z ≤ MAX_ZOOM_LEVEL <;>
    simp +contextual [hz, CameraParameters.setInt, native_set_parm, ctrl_command]

theorem setFocusMode_frame (s : QualcommCameraHardware) (p : CameraParameters) :
    (s.setFocusMode p).2.mParameters.sizes = s.mParameters.sizes ∧
    (s.setFocusMode p).2.mParameters.ints = s.mParameters.ints ∧
    (∀ k, k ≠ StrKey.KEY_FOCUS_MODE →
      (s.setFocusMode p).2.mParameters.strs k = s.mParameters.strs k) := by
  unfold setFocusMode
  split
  · split <;> simp_all [CameraParameters.set]
  · simp

theorem setOrientation_frame (s : QualcommCameraHardware) (p : CameraParameters) :
    (s.setOrientation p).2.mParameters.sizes = s.mParameters.sizes ∧
    (s.setOrientation p).2.mParameters.ints = s.mParameters.ints ∧
    (∀ k, k ≠ StrKey.orientation →
      (s.setOrientation p).2.mParameters.strs k = s.mParameters.strs k) := by
  unfold setOrientation
  split
  · split <;> simp +contextual [CameraParameters.set]
  · simp

theorem setPreviewSize_own (s : QualcommCameraHardware) (p : CameraParameters)
    (hv : (⟨p.getPreviewSize.1, p.getPreviewSize.2⟩ : camera_size_type) ∈ preview_sizes) :
    (s.setPreviewSize p).2.mParameters.sizes .KEY_PREVIEW_SIZE = some p.getPreviewSize := by
  have hany := (any_size_iff preview_sizes _ _).2 hv
  unfold setPreviewSize
  simp only [hany, if_true]
  simp [CameraParameters.setPreviewSize, CameraParameters.setSize]

theorem setPictureSize_own (s : QualcommCameraHardware) (p : CameraParameters)
    (hv : (⟨p.getPictureSize.1, p.getPictureSize.2⟩ : camera_size_type) ∈ s.picture_sizes) :
    (s.setPictureSize p).2.mParameters.sizes .KEY_PICTURE_SIZE = some p.getPictureSize := by
  have hany := (any_size_iff s.picture_sizes _ _).2 hv
  unfold setPictureSize
  simp only [hany, if_true]
  simp [CameraParameters.setPictureSize, CameraParameters.setSize]

theorem setJpegQuality_ints (s : QualcommCameraHardware) (params : CameraParameters) :
    ((s.setJpegQuality params).2.mParameters.ints .KEY_JPEG_QUALITY =
      if 0 < params.getInt .KEY_JPEG_QUALITY ∧ params.getInt .KEY_JPEG_QUALITY ≤ 100
      then some (params.getInt .KEY_JPEG_QUALITY)
      else s.mParameters.ints .KEY_JPEG_QUALITY) ∧
    ((s.setJpegQuality params).2.mParameters.ints .KEY_JPEG_THUMBNAIL_QUALITY =
      if 0 < params.getInt .KEY_JPEG_THUMBNAIL_QUALITY ∧
          params.getInt .KEY_JPEG_THUMBNAIL_QUALITY ≤ 100
      then some (params.getInt .KEY_JPEG_THUMBNAIL_QUALITY)
      else s.mParameters.ints .KEY_JPEG_THUMBNAIL_QUALITY) := by
  unfold setJpegQuality
  generalize params.getInt .KEY_JPEG_QUALITY = q
  generalize params.getInt .KEY_JPEG_THUMBNAIL_QUALITY = t
  by_cases h1 : 0 < q ∧ q ≤ 100 <;> by_cases h2 : 0 < t ∧ t ≤ 100 <;>
    simp [h1, h2, CameraParameters.setInt, gt_iff_lt]

theorem setAttr_own (env : Env) (s : QualcommCameraHardware) (p : CameraParameters)
    (key : StrKey) (table : List str_map) (type : cam_ctrl_type)
    (hv : (attr_lookup table (p.get key)).isSome) :
    (setAttr env s p key table type).2.mParameters.strs key = p.get key := by
  unfold setAttr
  cases hg : p.get key with
  | none => simp [hg, attr_lookup] at hv
  | some str =>
    rw [hg] at hv
    cases hl : attr_lookup table (some str) with
    | none => simp [hl] at hv
    | some value =>
      simp only [hl]
      simp [native_set_parm, ctrl_command, CameraParameters.set]

theorem setAntibanding_own (env : Env) (s : QualcommCameraHardware) (p : CameraParameters)
    (hv : (attr_lookup antibanding (p.get .KEY_ANTIBANDING)).isSome) :
    (setAntibanding env s p).2.mParameters.strs .KEY_ANTIBANDING = p.get .KEY_ANTIBANDING := by
  unfold setAntibanding
  cases hg : p.get .KEY_ANTIBANDING with
  | none => simp [hg, attr_lookup] at hv
  | some str =>
    rw [hg] at hv
    cases hl : attr_lookup antibanding (some str) with
    | none => simp [hl] at hv
    | some value =>
      simp only [hl]
      simp [native_set_parm, ctrl_command, CameraParameters.set]

theorem setGpsLocation_own (s : QualcommCameraHardware) (p : CameraParameters) (k : StrKey)
    (hk : k = .KEY_GPS_LATITUDE ∨ k = .KEY_GPS_LONGITUDE ∨ k = .KEY_GPS_ALTITUDE ∨
      k = .KEY_GPS_TIMESTAMP)
    (hv : (p.get k).isSome) :
    (s.setGpsLocation p).2.mParameters.strs k = p.get k := by
  unfold setGpsLocation copyGps
  rcases hk with rfl | rfl | rfl | rfl <;>
  cases h1 : p.get .KEY_GPS_LATITUDE <;> cases h2 : p.get .KEY_GPS_LONGITUDE <;>
  cases h3 : p.get .KEY_GPS_ALTITUDE <;> cases h4 : p.get .KEY_GPS_TIMESTAMP <;>
    simp_all [CameraParameters.set]

theorem setRotation_own (s : QualcommCameraHardware) (p : CameraParameters)
    (hv : p.getInt .KEY_ROTATION = 0 ∨ p.getInt .KEY_ROTATION = 90 ∨
      p.getInt .KEY_ROTATION = 180 ∨ p.getInt .KEY_ROTATION = 270) :
    (s.setRotation p).2.mParameters.ints .KEY_ROTATION = some (p.getInt .KEY_ROTATION) := by
  unfold setRotation
  generalize p.getInt .KEY_ROTATION = r at hv
  have h1 : r ≠ NOT_FOUND := by unfold NOT_FOUND; omega
  simp [h1, hv, CameraParameters.setInt]

theorem setZoom_own (env : Env) (s : QualcommCameraHardware) (p : CameraParameters)
    (hv : 0 ≤ p.getInt .zoom ∧ p.getInt .zoom ≤ 5) :
    (setZoom env s p).2.mParameters.ints .zoom = some (p.getInt .zoom) := by
  unfold setZoom
  generalize p.getInt .zoom = z at hv
  simp [hv, MAX_ZOOM_LEVEL, CameraParameters.setInt, native_set_parm, ctrl_command]

theorem setFocusMode_own (s : QualcommCameraHardware) (p : CameraParameters)
    (hv : (attr_lookup focus_modes (p.get .KEY_FOCUS_MODE)).isSome) :
    (s.setFocusMode p).2.mParameters.strs .KEY_FOCUS_MODE = p.get .KEY_FOCUS_MODE := by
  unfold setFocusMode
  cases hg : p.get .KEY_FOCUS_MODE with
  | none => simp [hg, attr_lookup] at hv
  | some str =>
    rw [hg] at hv
    cases hl : attr_lookup focus_modes (some str) with
    | none => simp [hl] at hv
    | some value =>
      simp only [hl]
      simp [CameraParameters.set]

theorem setOrientation_own (s : QualcommCameraHardware) (p : CameraParameters)
    (hv : p.get .orientation = some "portrait" ∨ p.get .orientation = some "landscape") :
    (s.setOrientation p).2.mParameters.strs .orientation = p.get .orientation := by
  unfold setOrientation
  rcases hv with hv | hv <;> simp [hv, CameraParameters.set]

theorem applySetter_snd (f : Setter) (p : CameraParameters)
    (acc : status_t × QualcommCameraHardware) :
    (applySetter f p acc).2 = (f acc.2 p).2 := rfl

/-- C4: `setParameters` runs the twelve setters exactly once each, in the
fixed order, each on the state left by the one before and whatever the
earlier ones returned; it returns `NO_ERROR` if and only if every setter
returned `NO_ERROR`; and every field of the request that is valid is stored
in the final state, whatever happened to the other fields. -/
theorem setParameters_aggregates (env : Env) (s : QualcommCameraHardware)
    (params : CameraParameters) :
    ((runSettersInOrder (parameterSetters env) params s).1.length = 12 ∧
     (setParameters env s params).2 = (runSettersInOrder (parameterSetters env) params s).2 ∧
     ((setParameters env s params).1 = NO_ERROR ↔
        ∀ rc ∈ (runSettersInOrder (parameterSetters env) params s).1, rc = NO_ERROR)) ∧
    ((⟨params.getPreviewSize.1, params.getPreviewSize.2⟩ : camera_size_type) ∈ preview_sizes →
      (setParameters env s params).2.mParameters.getPreviewSize = params.getPreviewSize) ∧
    ((⟨params.getPictureSize.1, params.getPictureSize.2⟩ : camera_size_type) ∈ s.picture_sizes →
      (setParameters env s params).2.mParameters.getPictureSize = params.getPictureSize) ∧
    (0 < params.getInt .KEY_JPEG_QUALITY ∧ params.getInt .KEY_JPEG_QUALITY ≤ 100 →
      (setParameters env s params).2.mParameters.getInt .KEY_JPEG_QUALITY
        = params.getInt .KEY_JPEG_QUALITY) ∧
    (0 < params.getInt .KEY_JPEG_THUMBNAIL_QUALITY ∧
        params.getInt .KEY_JPEG_THUMBNAIL_QUALITY ≤ 100 →
      (setParameters env s params).2.mParameters.getInt .KEY_JPEG_THUMBNAIL_QUALITY
        = params.getInt .KEY_JPEG_THUMBNAIL_QUALITY) ∧
    ((attr_lookup antibanding (params.get .KEY_ANTIBANDING)).isSome →
      (setParameters env s params).2.mParameters.get .KEY_ANTIBANDING
        = params.get .KEY_ANTIBANDING) ∧
    ((attr_lookup effects (params.get .KEY_EFFECT)).isSome →
      (setParameters env s params).2.mParameters.get .KEY_EFFECT = params.get .KEY_EFFECT) ∧
    ((attr_lookup whitebalance (params.get .KEY_WHITE_BALANCE)).isSome →
      (setParameters env s params).2.mParameters.get .KEY_WHITE_BALANCE
        = params.get .KEY_WHITE_BALANCE) ∧
    (s.flash_enabled = true → (attr_lookup flash (params.get .KEY_FLASH_MODE)).isSome →
      (setParameters env s params).2.mParameters.get .KEY_FLASH_MODE
        = params.get .KEY_FLASH_MODE) ∧
    (∀ k : StrKey, k = .KEY_GPS_LATITUDE ∨ k = .KEY_GPS_LONGITUDE ∨ k = .KEY_GPS_ALTITUDE ∨
        k = .KEY_GPS_TIMESTAMP → (params.get k).isSome →
      (setParameters env s params).2.mParameters.get k = params.get k) ∧
    (params.getInt .KEY_ROTATION = 0 ∨ params.getInt .KEY_ROTATION = 90 ∨
        params.getInt .KEY_ROTATION = 180 ∨ params.getInt .KEY_ROTATION = 270 →
      (setParameters env s params).2.mParameters.getInt .KEY_ROTATION
        = params.getInt .KEY_ROTATION) ∧
    (0 ≤ params.getInt .zoom ∧ params.getInt .zoom ≤ 5 →
      (setParameters env s params).2.mParameters.getInt .zoom = params.getInt .zoom) ∧
    ((attr_lookup focus_modes (params.get .KEY_FOCUS_MODE)).isSome →
      (setParameters env s params).2.mParameters.get .KEY_FOCUS_MODE
        = params.get .KEY_FOCUS_MODE) ∧
    (params.get .orientation = some "portrait" ∨ params.get .orientation = some "landscape" →
      (setParameters env s params).2.mParameters.get .orientation
        = params.get .orientation) := by
  have hfold := foldl_applySetter (parameterSetters env) params NO_ERROR s
  rw [← setParameters_eq_foldl] at hfold
  obtain ⟨hstate, hrc, hlen⟩ := hfold
  refine ⟨⟨by rw [hlen]; rfl, hstate, by simpa using hrc⟩, ?_⟩
  simp only [setParameters, applySetter_snd, setEffect, setWhiteBalance]
  refine ⟨?_, ?_, ?_, ?_, ?_, ?_, ?_, ?_, ?_, ?_, ?_, ?_, ?_⟩
  · intro hv
    have hown := fun X => setPreviewSize_own X params hv
    simp only [CameraParameters.getPreviewSize, CameraParameters.getPictureSize,
      CameraParameters.getSize, CameraParameters.getInt, CameraParameters.get] at hown hv ⊢
    simp [setOrientation_frame, setFocusMode_frame, setZoom_frame, setRotation_frame,
      setGpsLocation_frame, setFlash_frame, setAttr_frame, setAntibanding_frame,
      setJpegQuality_frame, setPictureSize_frame, setPreviewSize_frame, hown]
  · intro hv
    have hps : (s.setPreviewSize params).2.picture_sizes = s.picture_sizes :=
      (setPreviewSize_frame s params).2.2.2.2
    have hown := setPictureSize_own (s.setPreviewSize params).2 params (by rw [hps]; exact hv)
    simp only [CameraParameters.getPreviewSize, CameraParameters.getPictureSize,
      CameraParameters.getSize, CameraParameters.getInt, CameraParameters.get] at hown hv ⊢
    simp [setOrientation_frame, setFocusMode_frame, setZoom_frame, setRotation_frame,
      setGpsLocation_frame, setFlash_frame, setAttr_frame, setAntibanding_frame,
      setJpegQuality_frame, setPictureSize_frame, setPreviewSize_frame, hown]
  · intro hv
    have hown := fun X => (setJpegQuality_ints X params).1
    simp only [CameraParameters.getPreviewSize, CameraParameters.getPictureSize,
      CameraParameters.getSize, CameraParameters.getInt, CameraParameters.get] at hown hv ⊢
    simp [setOrientation_frame, setFocusMode_frame, setZoom_frame, setRotation_frame,
      setGpsLocation_frame, setFlash_frame, setAttr_frame, setAntibanding_frame,
      setJpegQuality_frame, setPictureSize_frame, setPreviewSize_frame, hown, hv]
  · intro hv
    have hown := fun X => (setJpegQuality_ints X params).2
    simp only [CameraParameters.getPreviewSize, CameraParameters.getPictureSize,
      CameraParameters.getSize, CameraParameters.getInt, CameraParameters.get] at hown hv ⊢
    simp [setOrientation_frame, setFocusMode_frame, setZoom_frame, setRotation_frame,
      setGpsLocation_frame, setFlash_frame, setAttr_frame, setAntibanding_frame,
      setJpegQuality_frame, setPictureSize_frame, setPreviewSize_frame, hown, hv]
  · intro hv
    have hown := fun X => setAntibanding_own env X params hv
    simp only [CameraParameters.getPreviewSize, CameraParameters.getPictureSize,
      CameraParameters.getSize, CameraParameters.getInt, CameraParameters.get] at hown hv ⊢
    simp [setOrientation_frame, setFocusMode_frame, setZoom_frame, setRotation_frame,
      setGpsLocation_frame, setFlash_frame, setAttr_frame, setAntibanding_frame,
      setJpegQuality_frame, setPictureSize_frame, setPreviewSize_frame, hown]
  · intro hv
    have hown := fun X => setAttr_own env X params _ _ .CAMERA_SET_PARM_EFFECT hv
    simp only [CameraParameters.getPreviewSize, CameraParameters.getPictureSize,
      CameraParameters.getSize, CameraParameters.getInt, CameraParameters.get] at hown hv ⊢
    simp [setOrientation_frame, setFocusMode_frame, setZoom_frame, setRotation_frame,
      setGpsLocation_frame, setFlash_frame, setAttr_frame, setAntibanding_frame,
      setJpegQuality_frame, setPictureSize_frame, setPreviewSize_frame, hown]
  · intro hv
    have hown := fun X => setAttr_own env X params _ _ .CAMERA_SET_PARM_WB hv
    simp only [CameraParameters.getPreviewSize, CameraParameters.getPictureSize,
      CameraParameters.getSize, CameraParameters.getInt, CameraParameters.get] at hown hv ⊢
    simp [setOrientation_frame, setFocusMode_frame, setZoom_frame, setRotation_frame,
      setGpsLocation_frame, setFlash_frame, setAttr_frame, setAntibanding_frame,
      setJpegQuality_frame, setPictureSize_frame, setPreviewSize_frame, hown]
  · intro hf hv
    have hown := fun X => setAttr_own env X params _ _ .CAMERA_SET_PARM_LED_MODE hv
    have hfl : ∀ X : QualcommCameraHardware, X.flash_enabled = true →
        (setFlash env X params).2.mParameters.strs .KEY_FLASH_MODE
          = params.get .KEY_FLASH_MODE := by
      intro X hX
      unfold setFlash
      simp [hX, hown]
    simp only [CameraParameters.getPreviewSize, CameraParameters.getPictureSize,
      CameraParameters.getSize, CameraParameters.getInt, CameraParameters.get] at hfl ⊢
    simp only [setOrientation_frame, setFocusMode_frame, setZoom_frame, setRotation_frame,
      setGpsLocation_frame, setFlash_frame, setAttr_frame, setAntibanding_frame,
      setJpegQuality_frame, setPictureSize_frame, setPreviewSize_frame, ne_eq, not_false_eq_true, reduceCtorEq]
    rw [hfl]
    simp [setOrientation_frame, setFocusMode_frame, setZoom_frame, setRotation_frame,
      setGpsLocation_frame, setFlash_frame, setAttr_frame, setAntibanding_frame,
      setJpegQuality_frame, setPictureSize_frame, setPreviewSize_frame, hf]
  · intro k hk hv
    have hown := fun X => setGpsLocation_own X params k hk hv
    simp only [CameraParameters.getPreviewSize, CameraParameters.getPictureSize,
      CameraParameters.getSize, CameraParameters.getInt, CameraParameters.get] at hown hv ⊢
    rcases hk with rfl | rfl | rfl | rfl <;>
      simp [setOrientation_frame, setFocusMode_frame, setZoom_frame, setRotation_frame,
      setGpsLocation_frame, setFlash_frame, setAttr_frame, setAntibanding_frame,
      setJpegQuality_frame, setPictureSize_frame, setPreviewSize_frame, hown]
  · intro hv
    have hown := fun X => setRotation_own X params hv
    simp only [CameraParameters.getPreviewSize, CameraParameters.getPictureSize,
      CameraParameters.getSize, CameraParameters.getInt, CameraParameters.get] at hown hv ⊢
    simp [setOrientation_frame, setFocusMode_frame, setZoom_frame, setRotation_frame,
      setGpsLocation_frame, setFlash_frame, setAttr_frame, setAntibanding_frame,
      setJpegQuality_frame, setPictureSize_frame, setPreviewSize_frame, hown]
  · intro hv
    have hown := fun X => setZoom_own env X params hv
    simp only [CameraParameters.getPreviewSize, CameraParameters.getPictureSize,
      CameraParameters.getSize, CameraParameters.getInt, CameraParameters.get] at hown hv ⊢
    simp [setOrientation_frame, setFocusMode_frame, setZoom_frame, setRotation_frame,
      setGpsLocation_frame, setFlash_frame, setAttr_frame, setAntibanding_frame,
      setJpegQuality_frame, setPictureSize_frame, setPreviewSize_frame, hown]
  · intro hv
    have hown := fun X => setFocusMode_own X params hv
    simp only [CameraParameters.getPreviewSize, CameraParameters.getPictureSize,
      CameraParameters.getSize, CameraParameters.getInt, CameraParameters.get] at hown hv ⊢
    simp [setOrientation_frame, setFocusMode_frame, setZoom_frame, setRotation_frame,
      setGpsLocation_frame, setFlash_frame, setAttr_frame, setAntibanding_frame,
      setJpegQuality_frame, setPictureSize_frame, setPreviewSize_frame, hown]
  · intro hv
    have hown := fun X => setOrientation_own X params hv
    simp only [CameraParameters.getPreviewSize, CameraParameters.getPictureSize,
      CameraParameters.getSize, CameraParameters.getInt, CameraParameters.get] at hown hv ⊢
    simp [setOrientation_frame, setFocusMode_frame, setZoom_frame, setRotation_frame,
      setGpsLocation_frame, setFlash_frame, setAttr_frame, setAntibanding_frame,
      setJpegQuality_frame, setPictureSize_frame, setPreviewSize_frame, hown]

/-- C4 at a request with an unsupported preview size, zoom level 3 and
orientation landscape: the call fails, and zoom and orientation are stored. -/
theorem setParameters_aggregates_witness :
    (setParameters (sampleEnv (fun _ => true) (fun _ _ => true)) sampleSession
        sampleMixedRequest).1 = BAD_VALUE ∧
    (0 ≤ sampleMixedRequest.getInt .zoom ∧ sampleMixedRequest.getInt .zoom ≤ 5) ∧
    (setParameters (sampleEnv (fun _ => true) (fun _ _ => true)) sampleSession
        sampleMixedRequest).2.mParameters.getInt .zoom = 3 ∧
    (setParameters (sampleEnv (fun _ => true) (fun _ _ => true)) sampleSession
        sampleMixedRequest).2.mParameters.get .orientation = some "landscape" :=
  ⟨by decide, by decide,
   (setParameters_aggregates (sampleEnv (fun _ => true) (fun _ _ => true)) sampleSession
      sampleMixedRequest).2.2.2.2.2.2.2.2.2.2.2.1 (by decide),
   (setParameters_aggregates (sampleEnv (fun _ => true) (fun _ _ => true)) sampleSession
      sampleMixedRequest).2.2.2.2.2.2.2.2.2.2.2.2.2 (by decide)⟩

/-! ## Shutter notification -/

theorem shutterNotifications_append (a b : List Event) :
    shutterNotifications (a ++ b) = shutterNotifications a + shutterNotifications b := by
  simp [shutterNotifications, List.countP_append]

theorem shutterNotifications_destroy (env : Env) (p : PmemPool) :
    shutterNotifications (p.destroy env) = 0 := by
  unfold PmemPool.destroy MemPool.destroy shutterNotifications
  simp only [List.countP_eq_zero, List.mem_append]
  intro e he
  rcases he with (he | he) | he
  · cases hh : p.mHeap with
    | none => simp [hh] at he
    | some h =>
      simp only [hh, List.mem_map] at he
      obtain ⟨cnt, _, rfl⟩ := he
      simp [register_buf, isShutterNotification]
  · simp at he
    subst he
    simp [isShutterNotification]
  · cases hh : p.mHeap with
    | none => simp [hh] at he
    | some h =>
      simp [hh] at he
      subst he
      simp [isShutterNotification]

theorem shutterNotifications_releasePmem (env : Env) (others : List (Option PmemPool))
    (p : Option PmemPool) : shutterNotifications (releasePmem env others p) = 0 := by
  unfold releasePmem
  cases p with
  | none => simp [shutterNotifications]
  | some q =>
    simp only []
    split
    · simp [shutterNotifications]
    · exact shutterNotifications_destroy env q

theorem notifyShutter_budget (env : Env) (s : QualcommCameraHardware) (crop : common_crop_t) :
    shutterNotifications (notifyShutter env s crop).log
        + (if (notifyShutter env s crop).mShutterPending then 1 else 0)
      ≤ shutterNotifications s.log + (if s.mShutterPending then 1 else 0) := by
  unfold notifyShutter
  by_cases hfire : (s.mShutterPending && s.mNotifyCallback &&
      s.msgTypeEnabled CAMERA_MSG_SHUTTER) = true
  · have hp : s.mShutterPending = true := by
      simp only [Bool.and_eq_true] at hfire
      exact hfire.1.1
    have hR : (if s.mShutterPending = true then 1 else 0) = 1 := by simp [hp]
    rw [if_pos hfire, hR]
    simp only [setDisplayHeap]
    split_ifs <;> first
      | contradiction
      | (simp only [shutterNotifications_append, shutterNotifications_releasePmem]
         simp [shutterNotifications, isShutterNotification])
  · rw [if_neg hfire]

theorem invokeNotifyShutter_fold (env : Env) (invs : List ShutterInvocation) :
    ∀ s : QualcommCameraHardware,
      shutterNotifications (invs.foldl (invokeNotifyShutter env) s).log
          + (if (invs.foldl (invokeNotifyShutter env) s).mShutterPending then 1 else 0)
        ≤ shutterNotifications s.log + (if s.mShutterPending then 1 else 0) := by
  induction invs with
  | nil => intro s; simp
  | cons i rest ih =>
    intro s
    simp only [List.foldl_cons]
    exact le_trans (ih _) (notifyShutter_budget env _ i.crop)

theorem takePicture_arms (env : Env) (s0 : QualcommCameraHardware)
    (r : status_t × QualcommCameraHardware) (htake : takePicture env s0 = some r)
    (hok : r.1 = NO_ERROR) : r.2.mShutterPending = true := by
  unfold takePicture at htake
  split at htake
  · cases htake
  · dsimp only at htake
    split at htake
    · cases htake
      simp [UNKNOWN_ERROR, NO_ERROR] at hok
    · split at htake
      · cases htake
        simp [UNKNOWN_ERROR, NO_ERROR] at hok
      · cases htake
        rfl
  

/-- C5: whatever the sequence of `notifyShutter` invocations (each with its
own crop geometry, message mask and callback registration), the number of
`CAMERA_MSG_SHUTTER` notifications grows by at most one, and by none when the
shutter is not pending; and a `takePicture` that returns `NO_ERROR` leaves the
shutter pending, so that the invocations that follow it notify the consumer
at most once. -/
theorem shutter_notified_at_most_once (env : Env) (invs : List ShutterInvocation) :
    (∀ s : QualcommCameraHardware,
      shutterNotifications (invs.foldl (invokeNotifyShutter env) s).log
        ≤ shutterNotifications s.log + (if s.mShutterPending then 1 else 0)) ∧
    (∀ (env0 : Env) (s0 : QualcommCameraHardware) (r : status_t × QualcommCameraHardware),
      takePicture env0 s0 = some r → r.1 = NO_ERROR →
      r.2.mShutterPending = true ∧
      shutterNotifications (invs.foldl (invokeNotifyShutter env) r.2).log
        ≤ shutterNotifications r.2.log + 1) := by
  have hgen : ∀ s : QualcommCameraHardware,
      shutterNotifications (invs.foldl (invokeNotifyShutter env) s).log
        ≤ shutterNotifications s.log + (if s.mShutterPending then 1 else 0) := by
    intro s
    have h := invokeNotifyShutter_fold env invs s
    omega
  refine ⟨hgen, ?_⟩
  intro env0 s0 r htake hok
  have harm := takePicture_arms env0 s0 r htake hok
  refine ⟨harm, ?_⟩
  have h := hgen r.2
  simp only [harm, if_true] at h
  exact h

/-- C5 on the sample session: `takePicture` succeeds, and two invocations of
`notifyShutter` with the shutter message enabled notify the consumer once. -/
theorem shutter_notified_at_most_once_witness :
    takePicture (sampleEnv (fun _ => true) (fun _ _ => true)) sampleSession = some sampleTaken ∧
    sampleTaken.1 = NO_ERROR ∧
    shutterNotifications (sampleInvocations.foldl
      (invokeNotifyShutter (sampleEnv (fun _ => true) (fun _ _ => true))) sampleTaken.2).log
      ≤ shutterNotifications sampleTaken.2.log + 1 ∧
    shutterNotifications (sampleInvocations.foldl
      (invokeNotifyShutter (sampleEnv (fun _ => true) (fun _ _ => true))) sampleTaken.2).log
      = 1 :=
  ⟨rfl, by decide,
   ((shutter_notified_at_most_once (sampleEnv (fun _ => true) (fun _ _ => true))
      sampleInvocations).2 (sampleEnv (fun _ => true) (fun _ _ => true)) sampleSession
      sampleTaken rfl (by decide)).2,
   by decide⟩

/-! ## Buffer pools -/

theorem land_high_mask (u k : Nat) (hk : k ≤ 32) (hu : u < 2 ^ 32) :
    Nat.land u (2 ^ 32 - 2 ^ k) = u / 2 ^ k * 2 ^ k := by
  have hmask : 2 ^ 32 - 2 ^ k = (2 ^ (32 - k) - 1) <<< k := by
    rw [Nat.shiftLeft_eq, Nat.sub_mul, one_mul, ← pow_add, Nat.sub_add_cancel hk]
  have hdiv : u / 2 ^ k * 2 ^ k = (u >>> k) <<< k := by
    rw [Nat.shiftLeft_eq, Nat.shiftRight_eq_div_pow]
  show u &&& (2 ^ 32 - 2 ^ k) = u / 2 ^ k * 2 ^ k
  rw [hmask, hdiv]
  apply Nat.eq_of_testBit_eq
  intro i
  simp only [Nat.testBit_and, Nat.testBit_shiftLeft, Nat.testBit_shiftRight,
    Nat.testBit_two_pow_sub_one]
  by_cases hik : k ≤ i
  · have e : k + (i - k) = i := by omega
    rw [e]
    by_cases hi : i < 32
    · have : i - k < 32 - k := by omega
      simp [hik, this]
    · have hlt : u < 2 ^ i := lt_of_lt_of_le hu (Nat.pow_le_pow_right (by norm_num) (by omega))
      simp [Nat.testBit_lt_two_pow hlt]
  · simp [hik]

/-- Masking with the complement of `2^k - 1` rounds an `int` down to a
multiple of `2^k`. -/
theorem and32_not32_pow (x : Int) (k : Nat) (hk : k ≤ 30) (hx0 : -2147483648 ≤ x)
    (hx : x < 2147483648) :
    and32 x (not32 (2 ^ k - 1)) = x / 2 ^ k * 2 ^ k := by
  have hP : (1 : Int) ≤ 2 ^ k := by exact_mod_cast Nat.one_le_two_pow
  have hP' : (2 : Int) ^ k ≤ 2 ^ 30 := by
    exact_mod_cast Nat.pow_le_pow_right (by norm_num : 0 < 2) hk
  have hP30 : (2 : Int) ^ 30 = 1073741824 := by norm_num
  have hPpos : (0 : Int) < 2 ^ k := by omega
  -- the bit pattern of x
  have hm0 : 0 ≤ x % 4294967296 := Int.emod_nonneg _ (by norm_num)
  have hm1 : x % 4294967296 < 4294967296 := Int.emod_lt_of_pos _ (by norm_num)
  obtain ⟨u, hu⟩ := Int.eq_ofNat_of_zero_le hm0
  have hu32 : u < 2 ^ 32 := by
    have : (u : Int) < 4294967296 := by rw [← hu]; exact hm1
    exact_mod_cast this
  have h1 : (toU32 x).toNat = u := by
    unfold toU32
    rw [hu]
    exact Int.toNat_ofNat u
  have h2 : (toU32 (not32 (2 ^ k - 1))).toNat = 2 ^ 32 - 2 ^ k := by
    unfold toU32 not32
    have e : (-(2 ^ k - 1 : Int) - 1) % 4294967296 = 4294967296 - 2 ^ k := by
      have : (-(2 ^ k - 1 : Int) - 1) = (4294967296 - 2 ^ k) + (-1) * 4294967296 := by ring
      rw [this, Int.add_mul_emod_self]
      apply Int.emod_eq_of_lt <;> omega
    rw [e]
    have hk32 : (2:Nat) ^ k ≤ 2 ^ 32 := Nat.pow_le_pow_right (by norm_num) (by omega)
    have : ((4294967296 : Int) - 2 ^ k) = ((2 ^ 32 - 2 ^ k : Nat) : Int) := by
      rw [Nat.cast_sub hk32]
      norm_num
    rw [this, Int.toNat_ofNat]
  unfold and32
  rw [h1, h2, land_high_mask u k (by omega) hu32]
  have hcast : Int.ofNat (u / 2 ^ k * 2 ^ k) = (x % 4294967296) / 2 ^ k * 2 ^ k := by
    rw [hu]
    show ((u / 2 ^ k * 2 ^ k : Nat) : Int) = _
    push_cast
    rfl
  rw [hcast]
  -- x % 2^32 = x + 2^32 * c
  obtain ⟨c, hc⟩ : ∃ c : Int, x % 4294967296 = x + 4294967296 * c :=
    ⟨-(x / 4294967296), by rw [Int.emod_def]; ring⟩
  have hQ : (4294967296 : Int) = 2 ^ k * 2 ^ (32 - k) := by
    rw [← pow_add]
    have : k + (32 - k) = 32 := by omega
    rw [this]
    norm_num
  have hdiv : (x % 4294967296) / 2 ^ k = x / 2 ^ k + 2 ^ (32 - k) * c := by
    rw [hc, hQ, mul_assoc, Int.add_mul_ediv_left _ _ (ne_of_gt hPpos)]
  have hval : (x % 4294967296) / 2 ^ k * 2 ^ k = x / 2 ^ k * 2 ^ k + 4294967296 * c := by
    rw [hdiv, hQ]
    ring
  rw [hval]
  have hy1 : x / 2 ^ k * 2 ^ k ≤ x := Int.ediv_mul_le x (ne_of_gt hPpos)
  have hy0 : -2147483648 ≤ x / 2 ^ k * 2 ^ k := by
    have hR : (2147483648 : Int) = 2 ^ (31 - k) * 2 ^ k := by
      rw [← pow_add]
      have : 31 - k + k = 31 := by omega
      rw [this]
      norm_num
    have hle : -(2 ^ (31 - k) : Int) ≤ x / 2 ^ k := by
      rw [Int.le_ediv_iff_mul_le hPpos]
      linarith
    have := Int.mul_le_mul_of_nonneg_right hle (le_of_lt hPpos)
    linarith
  generalize x / 2 ^ k * 2 ^ k = y at *
  unfold toS32
  omega

/-- Halving an `int` leaves it within half the range. -/
theorem tdiv_two_bounds (x : Int) (h0 : -2147483648 ≤ x) (h1 : x < 2147483648) :
    -1073741824 ≤ x.tdiv 2 ∧ x.tdiv 2 ≤ 1073741824 := by
  rcases Int.le_total 0 x with hx | hx
  · rw [Int.tdiv_eq_ediv hx (by norm_num)]
    omega
  · have hn : x = -(-x) := by ring
    rw [hn, Int.neg_tdiv, Int.tdiv_eq_ediv (by omega) (by norm_num)]
    omega

theorem leastMultiple_spec (P b : Int) (hP : 0 < P) :
    P ∣ leastMultiple P b ∧ b ≤ leastMultiple P b ∧ leastMultiple P b < b + P := by
  unfold leastMultiple
  refine ⟨Dvd.intro_left _ rfl, ?_, ?_⟩
  · have h := Int.lt_ediv_add_one_mul_self (b + P - 1) hP
    linarith
  · have h := Int.ediv_mul_le (b + P - 1) (ne_of_gt hP)
    linarith

theorem leastMultiple_least (P b m : Int) (hP : 0 < P) (hm : P ∣ m) (hb : b ≤ m) :
    leastMultiple P b ≤ m := by
  obtain ⟨q, rfl⟩ := hm
  unfold leastMultiple
  have h1 : (b + P - 1) / P ≤ q := by
    apply Int.le_of_lt_add_one
    apply Int.ediv_lt_of_lt_mul hP
    nlinarith
  calc (b + P - 1) / P * P ≤ q * P := Int.mul_le_mul_of_nonneg_right h1 (le_of_lt hP)
    _ = P * q := by ring

theorem alignedBufferSize_eq (env : Env) (k : Nat) (hP : env.pageSize = 2 ^ k) (hk : k ≤ 30)
    (b n f : Int) (name : String) (hb : -2147483648 ≤ b)
    (hov : b + env.pageSize ≤ 2147483648) :
    (MemPool.new env b n f name).mAlignedBufferSize = leastMultiple env.pageSize b := by
  have hP1 : (1 : Int) ≤ 2 ^ k := by exact_mod_cast Nat.one_le_two_pow
  have hP' : (2 : Int) ^ k ≤ 2 ^ 30 := by
    exact_mod_cast Nat.pow_le_pow_right (by norm_num : 0 < 2) hk
  have hP30 : (2 : Int) ^ 30 = 1073741824 := by norm_num
  unfold MemPool.new leastMultiple
  simp only [hP] at hov ⊢
  have e1 : toS32 (2 ^ k - 1) = 2 ^ k - 1 := by unfold toS32; omega
  have e2 : toS32 (b + (2 ^ k - 1)) = b + (2 ^ k - 1) := by unfold toS32; omega
  rw [e1, e2, and32_not32_pow _ k hk (by omega) (by omega)]
  have : b + (2 ^ k - 1) = b + 2 ^ k - 1 := by ring
  rw [this]

/-- What the constructor of a pmem pool does when the region is created. -/
theorem PmemPool_new_of_heap (env : Env) (dev : String) (fd : Int) (t : msm_pmem_t)
    (b n f : Int) (name : String) (h : MemoryHeap)
    (hheap : (PmemPool.new env dev fd t b n f name).1.mHeap = some h) :
    (PmemPool.new env dev fd t b n f name) =
      (let p1 : PmemPool :=
        { toMemPool := { MemPool.new env b n f name with mHeap := some h }
          mPmemType := t
          mCameraControlFd := env.dup fd
          mAlignedSize := toS32 ((MemPool.new env b n f name).mAlignedBufferSize * n)
          mFd := h.heapID
          object := 0 }
       ({ p1 with toMemPool := p1.toMemPool.completeInitialization },
        PmemPool.registerAll env p1 h n t)) := by
  unfold PmemPool.new at hheap ⊢
  simp only at hheap ⊢
  split_ifs at hheap ⊢ with h1 h2 h3
  all_goals first
    | (simp [MemPool.new] at hheap; done)
    | (have hh : env.pmem_heap dev
          (toS32 ((MemPool.new env b n f name).mAlignedBufferSize * n)) = h := by
        simp only [MemPool.completeInitialization] at hheap
        split_ifs at hheap <;> simpa using hheap
       simp only [hh])

/-- C7 (amended): for a pool with buffer size `b >= 0`, `n` slots, type `t`
and frame size `f > 0`, on pages of `2^k` bytes, with `b + pageSize` and
`n * A` within the range of a 32-bit `int`, whose shared region `h` was
created: the aligned slot size is `A`, the least multiple of the page size
that is at least `b`; construction issues exactly `n` register calls in slot
order, call `i` carrying offset `i * A`, address `base + i * A`, length `b`
and a writable flag that is false exactly when `i = n - 1` and `t` is the
preview type; and the buffer handle of slot `i` starts at offset `i * A`. -/
theorem pmemPool_registration (env : Env) (k : Nat) (hP : env.pageSize = 2 ^ k) (hk : k ≤ 30)
    (dev : String) (fd : Int) (t : msm_pmem_t) (b : Int) (n : Nat) (f : Int) (name : String)
    (hb : 0 ≤ b) (hov : b + env.pageSize ≤ 2147483648)
    (hfit : leastMultiple env.pageSize b * n < 2147483648) (hf : 0 < f)
    (h : MemoryHeap) (hheap : (PmemPool.new env dev fd t b n f name).1.mHeap = some h) :
    (env.pageSize ∣ leastMultiple env.pageSize b ∧ b ≤ leastMultiple env.pageSize b ∧
      ∀ m, env.pageSize ∣ m → b ≤ m → leastMultiple env.pageSize b ≤ m) ∧
    (PmemPool.new env dev fd t b n f name).1.mAlignedBufferSize
      = leastMultiple env.pageSize b ∧
    (PmemPool.new env dev fd t b n f name).2 =
      (List.range n).map (fun (i : Nat) =>
        Event.ioctl_pmem (env.dup fd) true
          { type := t, fd := h.heapID, offset := (i : Int) * leastMultiple env.pageSize b, len := b
            vaddr := h.base + (i : Int) * leastMultiple env.pageSize b, y_off := 0
            cbcr_off := (toS32 (f * 2)).tdiv 3
            active := !(decide (i + 1 = n) && decide (t = msm_pmem_t.MSM_PMEM_OUTPUT2)) }
          (env.ioctl_pmem true
            { type := t, fd := h.heapID, offset := (i : Int) * leastMultiple env.pageSize b, len := b
              vaddr := h.base + (i : Int) * leastMultiple env.pageSize b, y_off := 0
              cbcr_off := (toS32 (f * 2)).tdiv 3
              active := !(decide (i + 1 = n) && decide (t = msm_pmem_t.MSM_PMEM_OUTPUT2)) })) ∧
    (PmemPool.new env dev fd t b n f name).1.mBuffers =
      (List.range n).map (fun (i : Nat) =>
        MemoryBase.mk h.heapID ((i : Int) * leastMultiple env.pageSize b) f) := by
  have hPpos : 0 < env.pageSize := by rw [hP]; positivity
  obtain ⟨hdvd, hle, hlt⟩ := leastMultiple_spec env.pageSize b hPpos
  have hA := alignedBufferSize_eq env k hP hk b n f name (by omega) hov
  have hbs : (MemPool.new env b n f name).mBufferSize = b := rfl
  have hfs : (MemPool.new env b n f name).mFrameSize = f := rfl
  have hns : (MemPool.new env b n f name).mNumBuffers = n := rfl
  have hleast := fun m => leastMultiple_least env.pageSize b m hPpos
  generalize leastMultiple env.pageSize b = A at *
  have hA0 : 0 ≤ A := le_trans hb hle
  have hslot : ∀ i : Nat, i < n → toS32 (A * i) = A * i ∧ toU32 (A * i) = A * i := by
    intro i hi
    have h1 : A * (i : Int) ≤ A * n :=
      Int.mul_le_mul_of_nonneg_left (by exact_mod_cast le_of_lt hi) hA0
    have h2 : 0 ≤ A * (i : Int) := Int.mul_nonneg hA0 (Int.ofNat_nonneg i)
    unfold toS32 toU32
    omega
  have hnew := PmemPool_new_of_heap env dev fd t b n f name h hheap
  refine ⟨⟨hdvd, hle, hleast⟩, ?_, ?_, ?_⟩
  · rw [hnew]
    simp only [MemPool.completeInitialization]
    split_ifs <;> exact hA
  · rw [hnew]
    simp only [PmemPool.registerAll, register_buf, register_buf_info, hbs, hfs, hA,
      Int.toNat_ofNat]
    apply List.map_congr_left
    intro i hi
    obtain ⟨e1, e2⟩ := hslot i (List.mem_range.1 hi)
    rw [mul_comm] at e1 e2
    have e3 : ((i : Int) == (n : Int) - 1) = decide (i + 1 = n) := by
      by_cases hin : i + 1 = n
      · subst hin
        simp
      · have : ¬ ((i : Int) = (n : Int) - 1) := by omega
        simp [hin, this]
    have e4 : (t == msm_pmem_t.MSM_PMEM_OUTPUT2) = decide (t = msm_pmem_t.MSM_PMEM_OUTPUT2) := by
      cases t <;> rfl
    simp only [Int.ofNat_eq_coe, e1, e2, e3, e4, mul_comm A]
  · rw [hnew]
    simp only [MemPool.completeInitialization, hfs, hf, if_true, hns, Int.toNat_ofNat, hA,
      MemPool.heapID]
    apply List.map_congr_left
    intro i hi
    obtain ⟨e1, _⟩ := hslot i (List.mem_range.1 hi)
    rw [mul_comm] at e1
    simp only [Int.ofNat_eq_coe, e1]

theorem registerAll_length (env : Env) (p : PmemPool) (h : MemoryHeap) (n : Int)
    (t : msm_pmem_t) : (PmemPool.registerAll env p h n t).length = n.toNat := by
  simp [PmemPool.registerAll]

theorem registerAll_isRegisterCall (env : Env) (p : PmemPool) (h : MemoryHeap) (n : Int)
    (t : msm_pmem_t) : ∀ e ∈ PmemPool.registerAll env p h n t, isRegisterCall e = true := by
  intro e he
  simp only [PmemPool.registerAll, List.mem_map] at he
  obtain ⟨i, _, rfl⟩ := he
  rfl

/-- The constructor either creates the region and issues the registration
loop, or leaves the pool without a heap and registers nothing. -/
theorem PmemPool_new_cases (env : Env) (dev : String) (fd : Int) (t : msm_pmem_t)
    (b n f : Int) (name : String) :
    (∃ h, (PmemPool.new env dev fd t b n f name).1.mHeap = some h) ∨
    ((PmemPool.new env dev fd t b n f name).1.mHeap = none ∧
      ∀ e ∈ (PmemPool.new env dev fd t b n f name).2, isRegisterCall e = false) := by
  unfold PmemPool.new
  simp only
  split_ifs with h1 h2 h3
  · right; simp [MemPool.new]
  · left
    simp only [MemPool.completeInitialization]
    split_ifs <;> exact ⟨_, rfl⟩
  · right; simp [isRegisterCall]
  · right; simp [MemPool.new]

theorem destroy_of_heap (env : Env) (p : PmemPool) (h : MemoryHeap) (hh : p.mHeap = some h) :
    p.destroy env =
      (List.range p.mNumBuffers.toNat).map (fun cnt =>
        (register_buf env p.mCameraControlFd p.mBufferSize p.mFrameSize h.heapID
          (toU32 (toS32 (p.mAlignedBufferSize * Int.ofNat cnt)))
          (h.base + toS32 (p.mAlignedBufferSize * Int.ofNat cnt))
          p.mPmemType false false).2)
      ++ [Event.close p.mCameraControlFd, Event.heap_release h.heapID] := by
  simp [PmemPool.destroy, MemPool.destroy, hh]

theorem destroy_of_no_heap (env : Env) (p : PmemPool) (hh : p.mHeap = none) :
    p.destroy env = [Event.close p.mCameraControlFd] := by
  simp [PmemPool.destroy, MemPool.destroy, hh]

theorem pmemPool_mirror (env env' : Env) (dev : String) (fd : Int) (t : msm_pmem_t)
    (b n f : Int) (name : String) (h : MemoryHeap)
    (hheap : (PmemPool.new env dev fd t b n f name).1.mHeap = some h) :
    (PmemPool.new env dev fd t b n f name).1.destroy env' =
      (PmemPool.new env dev fd t b n f name).2.map (asUnregister env')
        ++ [Event.close (env.dup fd), Event.heap_release h.heapID] ∧
    (PmemPool.new env dev fd t b n f name).2.length = n.toNat ∧
    (∀ e ∈ (PmemPool.new env dev fd t b n f name).2, isRegisterCall e = true) := by
  have hnew := PmemPool_new_of_heap env dev fd t b n f name h hheap
  refine ⟨?_, ?_, ?_⟩
  · rw [destroy_of_heap env' _ h hheap, hnew]
    have hc : ∀ q : MemPool, q.completeInitialization.mNumBuffers = q.mNumBuffers ∧
        q.completeInitialization.mBufferSize = q.mBufferSize ∧
        q.completeInitialization.mFrameSize = q.mFrameSize ∧
        q.completeInitialization.mAlignedBufferSize = q.mAlignedBufferSize := by
      intro q
      unfold MemPool.completeInitialization
      split_ifs <;> simp
    simp only [hc, PmemPool.registerAll, List.map_map, List.append_cancel_right_eq]
    apply List.map_congr_left
    intro i _
    simp [register_buf, register_buf_info, asUnregister, MemPool.new]
  · rw [hnew]
    exact registerAll_length _ _ _ _ _
  · rw [hnew]
    exact registerAll_isRegisterCall _ _ _ _ _

theorem isSuccessfulRegister_imp (e : Event) (h : isSuccessfulRegister e = true) :
    isRegisterCall e = true := by
  cases e <;> simp_all [isSuccessfulRegister, isRegisterCall]
  rename_i camfd reg info ok
  cases reg <;> cases ok <;> simp_all [isSuccessfulRegister, isRegisterCall]

theorem countP_unregister_mirror (env : Env) (evs : List Event)
    (hall : ∀ e ∈ evs, isRegisterCall e = true) :
    (evs.map (asUnregister env)).countP isUnregisterCall = evs.countP isRegisterCall := by
  induction evs with
  | nil => rfl
  | cons e rest ih =>
    have he := hall e (List.mem_cons_self _ _)
    have hrest := ih (fun x hx => hall x (List.mem_cons_of_mem _ hx))
    cases e <;> simp_all [isRegisterCall, asUnregister, isUnregisterCall, List.countP_cons]

/-- C6 (amended): the number of unregister calls issued by the destructor
equals the number of register calls issued by the constructor, whatever
their outcomes; it is therefore at least, and not always equal to, the number
of register calls that succeeded. -/
theorem pmemPool_unregister_count (env env' : Env) (dev : String) (fd : Int) (t : msm_pmem_t)
    (b n f : Int) (name : String) :
    ((PmemPool.new env dev fd t b n f name).1.destroy env').countP isUnregisterCall
      = (PmemPool.new env dev fd t b n f name).2.countP isRegisterCall ∧
    (PmemPool.new env dev fd t b n f name).2.countP isSuccessfulRegister
      ≤ ((PmemPool.new env dev fd t b n f name).1.destroy env').countP isUnregisterCall := by
  have hmain : ((PmemPool.new env dev fd t b n f name).1.destroy env').countP isUnregisterCall
      = (PmemPool.new env dev fd t b n f name).2.countP isRegisterCall := by
    rcases PmemPool_new_cases env dev fd t b n f name with ⟨h, hh⟩ | ⟨hnone, hno⟩
    · obtain ⟨hd, _, hall⟩ := pmemPool_mirror env env' dev fd t b n f name h hh
      rw [hd, List.countP_append, countP_unregister_mirror env' _ hall]
      simp [isUnregisterCall]
    · rw [destroy_of_no_heap env' _ hnone]
      have h0 : (PmemPool.new env dev fd t b n f name).2.countP isRegisterCall = 0 := by
        rw [List.countP_eq_zero]
        intro e he
        simp [hno e he]
      rw [h0]
      simp [isUnregisterCall]
  refine ⟨hmain, ?_⟩
  rw [hmain]
  exact List.countP_mono_left (fun e _ he => isSuccessfulRegister_imp e he) 

/-- C8: the destructor of a pool that reports itself initialized issues, for
every register call of the constructor and in the same (slot) order, one
unregister call on the same descriptor with the same argument block (region
handle, offset, length, address, type, chroma offset; only the active flag
is cleared), and only then closes the descriptor and releases the region. -/
theorem pmemPool_unregisters_mirror (env env' : Env) (dev : String) (fd : Int)
    (t : msm_pmem_t) (b n f : Int) (name : String)
    (hinit : (PmemPool.new env dev fd t b n f name).1.initialized = true) :
    ∃ h : MemoryHeap, (PmemPool.new env dev fd t b n f name).1.mHeap = some h ∧
      (PmemPool.new env dev fd t b n f name).1.destroy env' =
        (PmemPool.new env dev fd t b n f name).2.map (asUnregister env')
          ++ [Event.close (env.dup fd), Event.heap_release h.heapID] ∧
      (PmemPool.new env dev fd t b n f name).2.length = n.toNat ∧
      (∀ e ∈ (PmemPool.new env dev fd t b n f name).2, isRegisterCall e = true) := by
  cases hh : (PmemPool.new env dev fd t b n f name).1.mHeap with
  | none => simp [MemPool.initialized, hh] at hinit
  | some h => exact ⟨h, rfl, pmemPool_mirror env env' dev fd t b n f name h hh⟩

/-- C6 (as stated, refuted): when both registration ioctls of a two-slot
pool fail, no register call succeeded and yet the destructor issues two
unregister calls. -/
theorem pmemPool_unregisters_failed_registrations :
    (PmemPool.new sampleEnvNoRegister "/dev/pmem_adsp" 3
        .MSM_PMEM_OUTPUT2 4096 2 4096 "preview").2.countP isSuccessfulRegister = 0 ∧
    ((PmemPool.new sampleEnvNoRegister "/dev/pmem_adsp" 3
        .MSM_PMEM_OUTPUT2 4096 2 4096 "preview").1.destroy
      sampleEnvNoRegister).countP isUnregisterCall = 2 := by
  decide

/-- C7 (as stated, refuted): a pool built with frame size 0 has its region
created and no buffer handle at all; and for buffer size 2147483647 the
aligned slot size is -2147483648, which is not a multiple of the page size
that is at least the buffer size. -/
theorem pmemPool_no_handles_or_overflow :
    ((PmemPool.new (sampleEnv (fun _ => true) (fun _ _ => true)) "/dev/pmem_adsp" 3
        .MSM_PMEM_MAINIMG 4096 2 0 "snapshot camera").1.mHeap.isSome = true ∧
     (PmemPool.new (sampleEnv (fun _ => true) (fun _ _ => true)) "/dev/pmem_adsp" 3
        .MSM_PMEM_MAINIMG 4096 2 0 "snapshot camera").1.mBuffers = []) ∧
    ((PmemPool.new (sampleEnv (fun _ => true) (fun _ _ => true)) "/dev/pmem_adsp" 3
        .MSM_PMEM_MAINIMG 2147483647 1 2147483647 "snapshot camera").1.mHeap.isSome = true ∧
     (PmemPool.new (sampleEnv (fun _ => true) (fun _ _ => true)) "/dev/pmem_adsp" 3
        .MSM_PMEM_MAINIMG 2147483647 1 2147483647 "snapshot camera").1.mAlignedBufferSize
        = -2147483648) := by
  decide

/-- The amended C7 on the preview pool for 640x480 frames: the slot size is
462848 and the four handles start at multiples of it. -/
theorem pmemPool_registration_witness :
    (0 : Int) < 460800 ∧
    samplePreviewPool.1.mHeap = some ⟨11, 1073741824, 1851392⟩ ∧
    leastMultiple 4096 460800 = 462848 ∧
    samplePreviewPool.1.mBuffers =
      (List.range 4).map (fun (i : Nat) =>
        MemoryBase.mk 11 ((i : Int) * leastMultiple 4096 460800) 460800) :=
  ⟨by decide, by decide, by decide,
   (pmemPool_registration (sampleEnv (fun _ => true) (fun _ _ => true)) 12 (by decide)
      (by decide) "/dev/pmem_adsp" 3 .MSM_PMEM_OUTPUT2 460800 4 460800 "preview"
      (by decide) (by decide) (by decide) (by decide) ⟨11, 1073741824, 1851392⟩
      (by decide)).2.2.2⟩

/-- C8 on the preview pool for 640x480 frames. -/
theorem pmemPool_unregisters_mirror_witness :
    samplePreviewPool.1.initialized = true ∧
    ∃ h : MemoryHeap, samplePreviewPool.1.mHeap = some h ∧
      samplePreviewPool.1.destroy sampleEnvNoRegister =
        samplePreviewPool.2.map (asUnregister sampleEnvNoRegister)
          ++ [Event.close 103, Event.heap_release h.heapID] ∧
      samplePreviewPool.2.length = 4 ∧
      (∀ e ∈ samplePreviewPool.2, isRegisterCall e = true) :=
  ⟨by decide,
   pmemPool_unregisters_mirror (sampleEnv (fun _ => true) (fun _ _ => true))
     sampleEnvNoRegister "/dev/pmem_adsp" 3 .MSM_PMEM_OUTPUT2 460800 4 460800 "preview"
     (by decide)⟩

/-! ## Preview frames -/

/-- What a successful `initPreview` leaves in the session. -/
theorem initPreview_success (env : Env) (s s' : QualcommCameraHardware)
    (hinit : initPreview env s = some (true, s')) :
    s'.mPreviewFrameSize =
      (toS32 (toS32 (s.mParameters.getPreviewSize.1 * s.mParameters.getPreviewSize.2)
        * 3)).tdiv 2 ∧
    s'.mPreviewHeap = some ((PmemPool.new env "/dev/pmem_adsp" s.mCameraControlFd
      .MSM_PMEM_OUTPUT2 s'.mPreviewFrameSize env.kPreviewBufferCount s'.mPreviewFrameSize
      "preview").1.numbered s.mPoolsCreated) ∧
    (PmemPool.new env "/dev/pmem_adsp" s.mCameraControlFd
      .MSM_PMEM_OUTPUT2 s'.mPreviewFrameSize env.kPreviewBufferCount s'.mPreviewFrameSize
      "preview").1.initialized = true ∧
    s'.frames = previewFrames (PmemPool.new env "/dev/pmem_adsp" s.mCameraControlFd
      .MSM_PMEM_OUTPUT2 s'.mPreviewFrameSize env.kPreviewBufferCount s'.mPreviewFrameSize
      "preview").1 env.kPreviewBufferCount s.mParameters.getPreviewSize.1
      s.mParameters.getPreviewSize.2 := by
  unfold initPreview at hinit
  simp only at hinit
  split_ifs at hinit with h1 h2 h3 h4
  all_goals simp only [Option.some.injEq, Prod.mk.injEq] at hinit
  · exact absurd hinit.1 (by simp)
  · obtain ⟨-, rfl⟩ := hinit
    refine ⟨rfl, rfl, ?_, rfl⟩
    simpa using h3
  · exact absurd hinit.1 (by simp)

theorem toS32_range (x : Int) : -2147483648 ≤ toS32 x ∧ toS32 x < 2147483648 := by
  unfold toS32
  omega

theorem leastMultiple_pos_imp (P b : Int) (hP : 0 < P) (hA : 0 < leastMultiple P b) :
    0 < b := by
  by_contra hb
  have hb' : b ≤ 0 := not_lt.1 hb
  have h1 : (b + P - 1) / P < 1 := Int.ediv_lt_of_lt_mul hP (by linarith)
  have h2 : (b + P - 1) / P ≤ 0 := by omega
  have h3 : (b + P - 1) / P * P ≤ 0 := Int.mul_nonpos_of_nonpos_of_nonneg h2 (le_of_lt hP)
  unfold leastMultiple at hA
  omega

/-- C9: for the preview pool left by a successful `initPreview`, with
positive aligned slot size `A`, lying within the 32-bit address space and
not larger than an `int` can hold, and for every slot index
`k < kPreviewBufferCount`: the frame descriptor `frames[k]` has buffer
address `base + A * k`; `receivePreviewFrame` computes from it the index
`(address - base) / A = k`; and the handle it passes to the consumer is
`mBuffers[k]`, the handle of that slot, which starts at offset `k * A`. -/
theorem previewFrame_index (env : Env) (j : Nat) (hP : env.pageSize = 2 ^ j) (hj : j ≤ 30)
    (s s' : QualcommCameraHardware) (hinit : initPreview env s = some (true, s'))
    (pool : PmemPool) (hpool : s'.mPreviewHeap = some pool)
    (h : MemoryHeap) (hheap : pool.mHeap = some h)
    (hApos : 0 < pool.mAlignedBufferSize)
    (hbase : 0 ≤ h.base)
    (hspace : h.base + pool.mAlignedBufferSize * env.kPreviewBufferCount ≤ 4294967296)
    (hsize : pool.mAlignedBufferSize * env.kPreviewBufferCount ≤ 2147483648)
    (k : Nat) (hk : (k : Int) < env.kPreviewBufferCount) :
    ∃ frame : msm_frame, s'.frames.get? k = some frame ∧
      frame.buffer = h.base + pool.mAlignedBufferSize * k ∧
      previewFrameIndex pool frame = k ∧
      bufferAt pool.mBuffers (previewFrameIndex pool frame) = pool.mBuffers.get? k ∧
      pool.mBuffers.get? k
        = some ⟨h.heapID, k * pool.mAlignedBufferSize, s'.mPreviewFrameSize⟩ ∧
      (∀ s1 : QualcommCameraHardware, s1.mPreviewHeap = some pool →
        s1.mCameraRunning = true → s1.mDataCallback = true →
        s1.msgTypeEnabled CAMERA_MSG_PREVIEW_FRAME = true →
        (s1.mDataCallbackTimestamp && s1.msgTypeEnabled CAMERA_MSG_VIDEO_FRAME) = false →
        (receivePreviewFrame s1 frame).1.log = s1.log ++
          [Event.data_callback CAMERA_MSG_PREVIEW_FRAME
            (some ⟨h.heapID, k * pool.mAlignedBufferSize, s'.mPreviewFrameSize⟩)]) := by
  obtain ⟨hfs, hph, -, hfr⟩ := initPreview_success env s s' hinit
  generalize s'.mPreviewFrameSize = b at *
  rw [hpool, Option.some.injEq] at hph
  have hPpos : 0 < env.pageSize := by rw [hP]; positivity
  have hP30 : env.pageSize ≤ 1073741824 := by
    rw [hP]
    have : (2 : Int) ^ j ≤ 2 ^ 30 := by
      exact_mod_cast Nat.pow_le_pow_right (by norm_num : 0 < 2) hj
    linarith
  obtain ⟨hb0, hb1⟩ : -1073741824 ≤ b ∧ b ≤ 1073741824 := by
    rw [hfs]
    exact tdiv_two_bounds _ (toS32_range _).1 (toS32_range _).2
  have hheap' : (PmemPool.new env "/dev/pmem_adsp" s.mCameraControlFd .MSM_PMEM_OUTPUT2 b
      env.kPreviewBufferCount b "preview").1.mHeap = some h := by
    rw [hph] at hheap; exact hheap
  have hnew := PmemPool_new_of_heap env _ _ _ _ _ _ _ h hheap'
  have hA0 := alignedBufferSize_eq env j hP hj b env.kPreviewBufferCount b "preview"
    (by omega) (by omega)
  have hc : ∀ q : MemPool, q.completeInitialization.mAlignedBufferSize
      = q.mAlignedBufferSize := by
    intro q
    unfold MemPool.completeInitialization
    split_ifs <;> rfl
  have hA : pool.mAlignedBufferSize = leastMultiple env.pageSize b := by
    rw [hph]
    show (PmemPool.new env "/dev/pmem_adsp" s.mCameraControlFd .MSM_PMEM_OUTPUT2 b
      env.kPreviewBufferCount b "preview").1.mAlignedBufferSize = _
    rw [hnew]
    simp only [hc]
    exact hA0
  have hbpos : 0 < b := leastMultiple_pos_imp env.pageSize b hPpos (hA ▸ hApos)
  have hkn : k < env.kPreviewBufferCount.toNat := by omega
  have hbuf : pool.mBuffers = (List.range env.kPreviewBufferCount.toNat).map
      (fun i => MemoryBase.mk h.heapID (toS32 (Int.ofNat i * pool.mAlignedBufferSize)) b) := by
    rw [hA, hph]
    show (PmemPool.new env "/dev/pmem_adsp" s.mCameraControlFd .MSM_PMEM_OUTPUT2 b
      env.kPreviewBufferCount b "preview").1.mBuffers = _
    rw [hnew]
    simp only [MemPool.completeInitialization]
    have hfs' : (MemPool.new env b env.kPreviewBufferCount b "preview").mFrameSize = b := rfl
    have hns' : (MemPool.new env b env.kPreviewBufferCount b "preview").mNumBuffers
        = env.kPreviewBufferCount := rfl
    simp only [hfs', hbpos, if_true, hns', hA0, MemPool.heapID, gt_iff_lt]
  replace hfr : s'.frames = previewFrames pool env.kPreviewBufferCount
      s.mParameters.getPreviewSize.1 s.mParameters.getPreviewSize.2 := by
    rw [hfr, hph]; rfl
  generalize hAeq : pool.mAlignedBufferSize = A at *
  have hAk0 : 0 ≤ A * (k : Int) := Int.mul_nonneg (le_of_lt hApos) (Int.ofNat_nonneg k)
  have hAk1 : A * (k : Int) + A ≤ A * env.kPreviewBufferCount := by nlinarith
  have e1 : toS32 (A * (k : Int)) = A * k := by unfold toS32; omega
  have hget : s'.frames.get? k = some
      { fd := pool.heapID, buffer := h.base + A * k, y_off := 0
        cbcr_off := toS32 (s.mParameters.getPreviewSize.1 * s.mParameters.getPreviewSize.2) } := by
    rw [hfr]
    have e2 : toU32 (toU32 h.base + A * (k : Int)) = h.base + A * k := by
      unfold toU32; omega
    simp [previewFrames, hkn, hheap, hAeq, e1, e2, List.getElem?_range, List.getElem?_map]
  have hidx : previewFrameIndex pool
      { fd := pool.heapID, buffer := h.base + A * k, y_off := 0
        cbcr_off := toS32 (s.mParameters.getPreviewSize.1 * s.mParameters.getPreviewSize.2) }
      = k := by
    simp only [previewFrameIndex, hheap, hAeq]
    have e3 : toS32 (toS32 (h.base + A * (k : Int)) - toS32 h.base) = A * k := by
      unfold toS32; omega
    have e4 : (A * (k : Int)).tdiv A = k := by
      rw [Int.tdiv_eq_ediv hAk0 (le_of_lt hApos), Int.mul_ediv_cancel_left _ (ne_of_gt hApos)]
    have e5 : toS32 (k : Int) = k := by
      have : (k : Int) ≤ A * k := by nlinarith
      unfold toS32; omega
    rw [e3, e4, e5]
  have hbk : pool.mBuffers.get? k = some ⟨h.heapID, k * A, b⟩ := by
    rw [hbuf]
    have e6 : toS32 ((k : Int) * A) = k * A := by rw [mul_comm]; rw [e1]
    simp [hkn, e6, List.getElem?_range, List.getElem?_map]
  refine ⟨_, hget, rfl, hidx, ?_, hbk, ?_⟩
  · rw [hidx]
    simp [bufferAt]
  · intro s1 hs1 hrun hcb hmask hrec
    unfold receivePreviewFrame
    simp only [msgTypeEnabled] at hmask hrec
    simp only [hs1, hrun, hidx, msgTypeEnabled, hcb, hmask, hrec, Bool.not_true,
      Bool.false_eq_true, if_false, Bool.and_self, if_true]
    simpa [bufferAt] using hbk

/-- C9 on the preview pool for 640x480 frames, at slot 2. -/
theorem previewFrame_index_witness :
    QualcommCameraHardware.initPreview (sampleEnv (fun _ => true) (fun _ _ => true))
      samplePreviewSession = some (true, samplePreviewStarted.2) ∧
    samplePreviewStarted.2.mPreviewHeap = some samplePreviewPool.1 ∧
    0 < samplePreviewPool.1.mAlignedBufferSize ∧
    ∃ frame : msm_frame, samplePreviewStarted.2.frames.get? 2 = some frame ∧
      frame.buffer = 1073741824 + samplePreviewPool.1.mAlignedBufferSize * (2 : Nat) ∧
      previewFrameIndex samplePreviewPool.1 frame = (2 : Nat) :=
  ⟨rfl, by decide, by decide,
   (previewFrame_index (sampleEnv (fun _ => true) (fun _ _ => true)) 12 (by decide)
      (by decide) samplePreviewSession samplePreviewStarted.2 rfl samplePreviewPool.1
      (by decide) ⟨11, 1073741824, 1851392⟩ (by decide) (by decide) (by decide) (by decide)
      (by decide) 2 (by decide)).imp (fun _ hf => ⟨hf.1, hf.2.1, hf.2.2.1⟩)⟩

/-! ## Failure of `startPreview` -/

/-- C10 (as stated, refuted): when the device start-preview command fails,
`startPreview` returns an error with both flags false while the preview pool
is still held (the frame thread, still marked running, has only been asked
to terminate); and when the set-dimension command fails it returns an error
with the pool still held and no frame thread running. -/
theorem startPreview_failure_keeps_pool :
    startPreviewOutcome (startPreview (sampleEnvFailing .CAMERA_START_PREVIEW)
        samplePreviewSession) = some (UNKNOWN_ERROR, false, false, true, true) ∧
    startPreviewOutcome (startPreview (sampleEnvFailing .CAMERA_SET_PARM_DIMENSION)
        samplePreviewSession) = some (UNKNOWN_ERROR, false, false, true, false) := by
  decide

theorem initPreview_pool_failure (env : Env) (s : QualcommCameraHardware)
    (r : Bool × QualcommCameraHardware) (hinit : initPreview env s = some r)
    (hpool : (previewPoolOf env s).1.initialized = false) :
    r.1 = false ∧ r.2.mPreviewHeap = none ∧ r.2.mCameraRunning = s.mCameraRunning := by
  unfold initPreview at hinit
  unfold previewPoolOf at hpool
  simp only at hinit
  split_ifs at hinit with h1 h2 h3 h4
  all_goals simp only [Option.some.injEq] at hinit
  · subst hinit
    exact ⟨rfl, rfl, rfl⟩
  · simp [hpool] at h3
  · simp [hpool] at h3

theorem initPreview_flags (env : Env) (s : QualcommCameraHardware)
    (r : Bool × QualcommCameraHardware) (hinit : initPreview env s = some r) :
    r.2.mCameraRunning = s.mCameraRunning ∧ (r.1 = true → r.2.mFrameThreadRunning = true) := by
  unfold initPreview at hinit
  simp only at hinit
  split_ifs at hinit with h1 h2 h3 h4
  all_goals simp only [Option.some.injEq] at hinit
  all_goals subst hinit
  · exact ⟨rfl, by simp⟩
  · exact ⟨rfl, fun h => h⟩
  · exact ⟨rfl, by simp⟩

/-- What a successful `initPreview` leaves in the session, with its calls:
the construction of the pool, the release of the pool held before, the
set-dimension command and the launch of the frame thread. -/
theorem initPreview_started (env : Env) (s s1 : QualcommCameraHardware)
    (hinit : initPreview env s = some (true, s1)) :
    s1.mPreviewHeap = some ((previewPoolOf env s).1.numbered s.mPoolsCreated) ∧
    s1.mFrameThreadRunning = true ∧
    s1.mCameraControlFd = s.mCameraControlFd ∧
    s1.log = s.log ++ (previewPoolOf env s).2 ++ releasePmem env [] s.mPreviewHeap
      ++ [Event.ioctl_ctrl s.mCameraControlFd .CAMERA_SET_PARM_DIMENSION
            (.dimension s.mDimension) true,
          Event.pthread_create .frame true] := by
  unfold initPreview at hinit
  unfold previewPoolOf
  simp only at hinit
  split_ifs at hinit with h1 h2 h3 h4
  all_goals simp only [Option.some.injEq, Prod.mk.injEq] at hinit
  · exact absurd hinit.1 (by simp)
  · obtain ⟨hr, rfl⟩ := hinit
    simp only [native_set_parm, ctrl_command] at h4
    refine ⟨rfl, hr, rfl, ?_⟩
    simp [native_set_parm, ctrl_command, h4, hr]
  · exact absurd hinit.1 (by simp)

/-- What the exit of the frame thread does to a session: the preview pool it
holds, if any, is destroyed, the member is cleared and the running flag too. -/
theorem runFrameThread_frees (env : Env) (s : QualcommCameraHardware) :
    (runFrameThread env s).mPreviewHeap = none ∧
    (runFrameThread env s).mFrameThreadRunning = false ∧
    (∀ pool, s.mPreviewHeap = some pool →
      (runFrameThread env s).log = s.log ++ pool.destroy env) := by
  refine ⟨rfl, rfl, fun pool hp => ?_⟩
  simp [runFrameThread, releasePmem, hp]

/-- C10 (amended): whenever `startPreview` returns an error, `mCameraRunning`
and `mPreviewInitialized` are both false afterwards.  If the preview pool
could not be initialized, no preview pool remains held.  If the device
start-preview command failed, the call has not freed the preview pool: after
the start command its only call is the request to the frame thread to
terminate, which it does not wait for, and it leaves in `mPreviewHeap` the
pool it found there or, when it initialised the preview itself, the pool it
has just allocated, with the frame thread it started still marked running.
That pool is destroyed by the frame thread when it exits. -/
theorem startPreview_failure_idle (env : Env) (s : QualcommCameraHardware)
    (rc : status_t) (s' : QualcommCameraHardware)
    (hret : startPreview env s = some (rc, s')) (herr : rc ≠ NO_ERROR) :
    s'.mCameraRunning = false ∧ s'.mPreviewInitialized = false ∧
    (s.mPreviewInitialized = false → (previewPoolOf env s).1.initialized = false →
      s'.mPreviewHeap = none) ∧
    (env.ioctl_ctrl .CAMERA_START_PREVIEW = false →
      (s.mPreviewInitialized = true ∨ ∃ s1, initPreview env s = some (true, s1)) →
      s'.log.getLast? = some Event.camframe_terminate ∧
      (s.mPreviewInitialized = false → s'.mFrameThreadRunning = true) ∧
      (s.mPreviewInitialized = true →
        s'.mPreviewHeap = s.mPreviewHeap ∧
        s'.log = s.log ++
          [Event.ioctl_ctrl s.mCameraControlFd .CAMERA_START_PREVIEW .null false,
           Event.camframe_terminate]) ∧
      (s.mPreviewInitialized = false →
        s'.mPreviewHeap = some ((previewPoolOf env s).1.numbered s.mPoolsCreated) ∧
        s'.log = s.log ++ (previewPoolOf env s).2 ++ releasePmem env [] s.mPreviewHeap
          ++ [Event.ioctl_ctrl s.mCameraControlFd .CAMERA_SET_PARM_DIMENSION
                (.dimension s.mDimension) true,
              Event.pthread_create .frame true,
              Event.ioctl_ctrl s.mCameraControlFd .CAMERA_START_PREVIEW .null false,
              Event.camframe_terminate]) ∧
      ∀ env' : Env, (runFrameThread env' s').mPreviewHeap = none ∧
        (runFrameThread env' s').mFrameThreadRunning = false ∧
        ∀ pool, s'.mPreviewHeap = some pool →
          (runFrameThread env' s').log = s'.log ++ pool.destroy env') := by
  unfold startPreview startPreviewInternal at hret
  by_cases hrun : s.mCameraRunning = true
  · simp [hrun] at hret
    exact absurd hret.1.symm herr
  · have hrun' : s.mCameraRunning = false := by simpa using hrun
    simp only [hrun', Bool.false_eq_true, if_false] at hret
    by_cases hpi : s.mPreviewInitialized = true
    · simp only [hpi, Bool.not_true, Bool.false_eq_true, if_false, native_start_preview,
        ctrl_command, deinitPreview] at hret
      split_ifs at hret with hst
      · simp only [Option.some.injEq, Prod.mk.injEq] at hret
        obtain ⟨-, rfl⟩ := hret
        refine ⟨by simpa using hst, rfl, by simp [hpi], ?_⟩
        intro hfail _
        refine ⟨by simp, by simp [hpi], fun _ => ⟨rfl, by simp [hfail]⟩, by simp [hpi],
          fun env' => runFrameThread_frees env' _⟩
      · simp only [Option.some.injEq, Prod.mk.injEq] at hret
        exact absurd hret.1.symm herr
    · have hpi' : s.mPreviewInitialized = false := by simpa using hpi
      simp only [hpi', Bool.not_false, if_true] at hret
      cases hip : initPreview env s with
      | none => simp [hip] at hret
      | some r =>
        obtain ⟨ok, s1⟩ := r
        obtain ⟨hcr, hft⟩ := initPreview_flags env s (ok, s1) hip
        simp only [hip, Option.map_some'] at hret
        cases ok with
        | false =>
          simp only [Option.some.injEq, Prod.mk.injEq] at hret
          obtain ⟨-, rfl⟩ := hret
          refine ⟨by simpa [hrun'] using hcr, rfl, ?_, ?_⟩
          · intro _ hpool
            exact (initPreview_pool_failure env s (false, s1) hip hpool).2.1
          · intro _ hstage
            rcases hstage with h | ⟨s2, h⟩
            · simp [hpi'] at h
            · simp at h
        | true =>
          obtain ⟨q1, q2, q3, q4⟩ := initPreview_started env s s1 hip
          simp only [native_start_preview, ctrl_command, deinitPreview] at hret
          split_ifs at hret with hst
          · simp only [Option.some.injEq, Prod.mk.injEq] at hret
            obtain ⟨-, rfl⟩ := hret
            refine ⟨by simpa using hst, rfl, ?_, ?_⟩
            · intro _ hpool
              have := (initPreview_pool_failure env s (true, s1) hip hpool).1
              simp at this
            · intro hfail _
              refine ⟨by simp, fun _ => hft rfl, fun h => absurd h hpi, fun _ => ⟨q1, ?_⟩,
                fun env' => runFrameThread_frees env' _⟩
              simp [q4, q3, hfail]
          · simp only [Option.some.injEq, Prod.mk.injEq] at hret
            exact absurd hret.1.symm herr

/-- The amended C10 on the sample preview session when the device refuses
to start the preview. -/
theorem startPreview_failure_idle_witness :
    startPreview (sampleEnvFailing .CAMERA_START_PREVIEW) samplePreviewSession
      = some (sampleStartFailed.1, sampleStartFailed.2) ∧
    sampleStartFailed.1 ≠ NO_ERROR ∧
    sampleStartFailed.2.mCameraRunning = false ∧
    sampleStartFailed.2.mPreviewInitialized = false ∧
    sampleStartFailed.2.log.getLast? = some Event.camframe_terminate ∧
    sampleStartFailed.2.mPreviewHeap
      = some ((previewPoolOf (sampleEnvFailing .CAMERA_START_PREVIEW)
          samplePreviewSession).1.numbered 0) ∧
    (sampleStartFailed.2.log.filter (fun e => match e with
      | Event.heap_release _ => true
      | _ => false)) = [] ∧
    ((runFrameThread (sampleEnv (fun _ => true) (fun _ _ => true)) sampleStartFailed.2).log.filter
      (fun e => match e with
        | Event.heap_release _ => true
        | _ => false)) = [Event.heap_release 11] :=
  ⟨rfl, by decide,
   (startPreview_failure_idle (sampleEnvFailing .CAMERA_START_PREVIEW) samplePreviewSession
      sampleStartFailed.1 sampleStartFailed.2 rfl (by decide)).1,
   (startPreview_failure_idle (sampleEnvFailing .CAMERA_START_PREVIEW) samplePreviewSession
      sampleStartFailed.1 sampleStartFailed.2 rfl (by decide)).2.1,
   ((startPreview_failure_idle (sampleEnvFailing .CAMERA_START_PREVIEW) samplePreviewSession
      sampleStartFailed.1 sampleStartFailed.2 rfl (by decide)).2.2.2 (by decide)
      (Or.inr ⟨((initPreview (sampleEnvFailing .CAMERA_START_PREVIEW)
        samplePreviewSession).getD (false, samplePreviewSession)).2, rfl⟩)).1,
   (((startPreview_failure_idle (sampleEnvFailing .CAMERA_START_PREVIEW) samplePreviewSession
      sampleStartFailed.1 sampleStartFailed.2 rfl (by decide)).2.2.2 (by decide)
      (Or.inr ⟨((initPreview (sampleEnvFailing .CAMERA_START_PREVIEW)
        samplePreviewSession).getD (false, samplePreviewSession)).2, rfl⟩)).2.2.2.1
      (by decide)).1,
   by decide, by decide⟩

/-! ## Still capture: what the pool steps leave alone -/


theorem countP_of_deviceCalls (p : Event → Bool)
    (hp : ∀ e, isDeviceCall e = true → p e = false) (l : List Event)
    (h : ∀ e ∈ l, isDeviceCall e = true) : l.countP p = 0 := by
  rw [List.countP_eq_zero]
  intro e he
  simp [hp e (h e he)]

theorem deviceCalls_MemPool_destroy (q : MemPool) : ∀ e ∈ q.destroy, isDeviceCall e = true := by
  intro e he
  unfold MemPool.destroy at he
  cases hh : q.mHeap with
  | none => simp [hh] at he
  | some h =>
    simp [hh] at he
    subst he
    rfl

theorem deviceCalls_PmemPool_destroy (env : Env) (q : PmemPool) :
    ∀ e ∈ q.destroy env, isDeviceCall e = true := by
  intro e he
  unfold PmemPool.destroy at he
  simp only [List.mem_append] at he
  rcases he with (he | he) | he
  · cases hh : q.mHeap with
    | none => simp [hh] at he
    | some h =>
      simp only [hh, List.mem_map] at he
      obtain ⟨cnt, _, rfl⟩ := he
      simp [register_buf, isDeviceCall]
  · simp at he
    subst he
    rfl
  · exact deviceCalls_MemPool_destroy _ e he

theorem deviceCalls_PmemPool_new (env : Env) (pmem_pool : String) (fd : Int) (t : msm_pmem_t)
    (buffer_size num_buffers frame_size : Int) (name : String) :
    ∀ e ∈ (PmemPool.new env pmem_pool fd t buffer_size num_buffers frame_size name).2,
      isDeviceCall e = true := by
  intro e he
  unfold PmemPool.new at he
  simp only [] at he
  split_ifs at he
  · simp at he
  · simp only [PmemPool.registerAll, List.mem_map] at he
    obtain ⟨cnt, _, rfl⟩ := he
    simp [register_buf, isDeviceCall]
  · simp at he
    subst he
    rfl
  · simp at he

theorem deviceCalls_releasePmem (env : Env) (others : List (Option PmemPool))
    (q : Option PmemPool) : ∀ e ∈ releasePmem env others q, isDeviceCall e = true := by
  intro e he
  unfold releasePmem at he
  cases q with
  | none => simp at he
  | some q =>
    simp only [] at he
    split at he
    · simp at he
    · exact deviceCalls_PmemPool_destroy env q e he

theorem deviceCalls_releaseJpeg (q : Option MemPool) :
    ∀ e ∈ releaseJpeg q, isDeviceCall e = true := by
  intro e he
  unfold releaseJpeg at he
  cases q with
  | none => simp at he
  | some q => exact deviceCalls_MemPool_destroy q e he


theorem initRaw_eq (env : Env) (s : QualcommCameraHardware) (b : Bool) :
    initRaw env s b =
      if !(native_set_parm env s .CAMERA_SET_PARM_DIMENSION (.dimension s.mDimension)).1 then
        (false, (native_set_parm env s .CAMERA_SET_PARM_DIMENSION (.dimension s.mDimension)).2)
      else initRawPools env
        (native_set_parm env s .CAMERA_SET_PARM_DIMENSION (.dimension s.mDimension)).2
        s.mParameters.getPictureSize.1 s.mParameters.getPictureSize.2 b := by
  unfold initRaw initRawPools initRawThumbnailHeap initRawJpegHeap initRawSizes
  rfl


theorem countP_releasePmem (p : Event → Bool)
    (hp : ∀ e, isDeviceCall e = true → p e = false) (env : Env)
    (others : List (Option PmemPool)) (q : Option PmemPool) :
    (releasePmem env others q).countP p = 0 :=
  countP_of_deviceCalls p hp _ (deviceCalls_releasePmem env others q)

theorem countP_releaseJpeg (p : Event → Bool)
    (hp : ∀ e, isDeviceCall e = true → p e = false) (q : Option MemPool) :
    (releaseJpeg q).countP p = 0 :=
  countP_of_deviceCalls p hp _ (deviceCalls_releaseJpeg q)

theorem countP_PmemPool_new (p : Event → Bool)
    (hp : ∀ e, isDeviceCall e = true → p e = false) (env : Env) (pmem_pool : String) (fd : Int)
    (t : msm_pmem_t) (buffer_size num_buffers frame_size : Int) (name : String) :
    (PmemPool.new env pmem_pool fd t buffer_size num_buffers frame_size name).2.countP p = 0 :=
  countP_of_deviceCalls p hp _ (deviceCalls_PmemPool_new env pmem_pool fd t _ _ _ name)

theorem KeepsCapture.trans {a b c : QualcommCameraHardware} (h1 : KeepsCapture a b)
    (h2 : KeepsCapture b c) : KeepsCapture a c :=
  ⟨h2.1.trans h1.1, h2.2.1.trans h1.2.1, fun p hp => (h2.2.2 p hp).trans (h1.2.2 p hp)⟩

theorem keeps_clearDisplayHeap (env : Env) (a s : QualcommCameraHardware)
    (h : KeepsCapture a s) : KeepsCapture a (clearDisplayHeap env s) := by
  refine h.trans ⟨rfl, rfl, fun p hp => ?_⟩
  simp [clearDisplayHeap, List.countP_append, countP_releasePmem p hp]

theorem ctrl_command_pools (env : Env) (s : QualcommCameraHardware) (fd : Int)
    (t : cam_ctrl_type) (v : CtrlValue) :
    (ctrl_command env s fd t v).1 = env.ioctl_ctrl t ∧
    (ctrl_command env s fd t v).2.mRawHeap = s.mRawHeap ∧
    (ctrl_command env s fd t v).2.mJpegHeap = s.mJpegHeap ∧
    (ctrl_command env s fd t v).2.mThumbnailHeap = s.mThumbnailHeap ∧
    (ctrl_command env s fd t v).2.mDisplayHeap = s.mDisplayHeap :=
  ⟨rfl, rfl, rfl, rfl, rfl⟩

theorem newRawHeap_pools (env : Env) (s : QualcommCameraHardware) (dev : String) :
    (newRawHeap env s dev).mJpegHeap = s.mJpegHeap ∧
    (newRawHeap env s dev).mThumbnailHeap = s.mThumbnailHeap ∧
    (newRawHeap env s dev).mDisplayHeap = s.mDisplayHeap :=
  ⟨rfl, rfl, rfl⟩

theorem initRawPools_failure (env : Env) (s : QualcommCameraHardware) (w h : Int) (b : Bool)
    (hfail : (initRawPools env s w h b).1 = false) :
    (initRawPools env s w h b).2.mRawHeap = none ∧
    (initRawPools env s w h b).2.mJpegHeap = none ∧
    ((initRawPools env s w h b).2.mThumbnailHeap = none ∨
      (initRawPools env s w h b).2.mThumbnailHeap = s.mThumbnailHeap) ∧
    (initRawPools env s w h b).2.mDisplayHeap = s.mDisplayHeap := by
  have h2 : (if s.mJpegHeap.isSome then clearJpegHeap s else s).mJpegHeap = none ∧
      (if s.mJpegHeap.isSome then clearJpegHeap s else s).mThumbnailHeap = s.mThumbnailHeap ∧
      (if s.mJpegHeap.isSome then clearJpegHeap s else s).mDisplayHeap = s.mDisplayHeap := by
    split_ifs with hj
    · exact ⟨rfl, rfl, rfl⟩
    · refine ⟨?_, rfl, rfl⟩
      cases hq : s.mJpegHeap with
      | none => rfl
      | some q => simp [hq] at hj
  unfold initRawPools at hfail ⊢
  simp only [] at hfail ⊢
  generalize (if s.mJpegHeap.isSome then clearJpegHeap s else s) = s2 at h2 hfail ⊢
  have h3 : (initRawSizes s2 w h).mJpegHeap = none ∧
      (initRawSizes s2 w h).mThumbnailHeap = s.mThumbnailHeap ∧
      (initRawSizes s2 w h).mDisplayHeap = s.mDisplayHeap := h2
  generalize initRawSizes s2 w h = s3 at h3 hfail ⊢
  have h4 : (newRawHeap env s3 "/dev/pmem_camera").mJpegHeap = none ∧
      (newRawHeap env s3 "/dev/pmem_camera").mThumbnailHeap = s.mThumbnailHeap ∧
      (newRawHeap env s3 "/dev/pmem_camera").mDisplayHeap = s.mDisplayHeap := h3
  generalize newRawHeap env s3 "/dev/pmem_camera" = s4 at h4 hfail ⊢
  have h5 : (if !pmemInitialized s4.mRawHeap then
        newRawHeap env s4 "/dev/pmem_adsp" else s4).mJpegHeap = none ∧
      (if !pmemInitialized s4.mRawHeap then
        newRawHeap env s4 "/dev/pmem_adsp" else s4).mThumbnailHeap = s.mThumbnailHeap ∧
      (if !pmemInitialized s4.mRawHeap then
        newRawHeap env s4 "/dev/pmem_adsp" else s4).mDisplayHeap = s.mDisplayHeap := by
    split_ifs
    · exact h4
    · exact h4
  generalize (if !pmemInitialized s4.mRawHeap then
      newRawHeap env s4 "/dev/pmem_adsp" else s4) = s5 at h5 hfail ⊢
  have h6 : (initRawJpegHeap env s5).mThumbnailHeap = s.mThumbnailHeap ∧
      (initRawJpegHeap env s5).mDisplayHeap = s.mDisplayHeap := h5.2
  generalize initRawJpegHeap env s5 = s6 at h6 hfail ⊢
  have h7 : (initRawThumbnailHeap env s6).mDisplayHeap = s.mDisplayHeap := h6.2
  generalize initRawThumbnailHeap env s6 = s7 at h7 hfail ⊢
  split_ifs at hfail ⊢
  · exact ⟨rfl, h5.1, Or.inr h5.2.1, h5.2.2⟩
  · exact ⟨rfl, rfl, Or.inr h6.1, h6.2⟩
  · exact ⟨rfl, rfl, Or.inl rfl, h7⟩



/-- C12 (counterexample): with the pools of an earlier capture still held,
`initRaw` returns false and leaves pools allocated: when the set-dimension
command fails all three pools stay, and when the raw pool cannot be created
the thumbnail pool of the earlier capture stays. -/
theorem initRaw_failure_keeps_earlier_pools :
    sampleCaptured.mRawHeap.isSome = true ∧ sampleCaptured.mJpegHeap.isSome = true ∧
    sampleCaptured.mThumbnailHeap.isSome = true ∧
    (initRaw (sampleEnvFailing .CAMERA_SET_PARM_DIMENSION) sampleCaptured true).1 = false ∧
    (initRaw (sampleEnvFailing .CAMERA_SET_PARM_DIMENSION) sampleCaptured true).2.mRawHeap.isSome
      = true ∧
    (initRaw (sampleEnvFailing .CAMERA_SET_PARM_DIMENSION) sampleCaptured true).2.mJpegHeap.isSome
      = true ∧
    (initRaw (sampleEnvFailing .CAMERA_SET_PARM_DIMENSION)
      sampleCaptured true).2.mThumbnailHeap.isSome = true ∧
    (initRaw sampleEnvNoPmem sampleCaptured true).1 = false ∧
    (initRaw sampleEnvNoPmem sampleCaptured true).2.mRawHeap = none ∧
    (initRaw sampleEnvNoPmem sampleCaptured true).2.mThumbnailHeap.isSome = true := by
  decide


/-- C12 (amended): when `initRaw` returns false because the set-dimension
command failed, no pool member is changed; when it returns false after that
command succeeded, the raw and jpeg pool members are null afterwards and the
thumbnail member is null or still holds the pool it held before the call.  So
called from a state that holds none of the three pools, a failed `initRaw`
leaves none of them allocated. -/
theorem initRaw_failure_releases_own_pools (env : Env) (s : QualcommCameraHardware) (b : Bool)
    (hfail : (initRaw env s b).1 = false) :
    (env.ioctl_ctrl .CAMERA_SET_PARM_DIMENSION = false →
      (initRaw env s b).2.mRawHeap = s.mRawHeap ∧
      (initRaw env s b).2.mJpegHeap = s.mJpegHeap ∧
      (initRaw env s b).2.mThumbnailHeap = s.mThumbnailHeap) ∧
    (env.ioctl_ctrl .CAMERA_SET_PARM_DIMENSION = true →
      (initRaw env s b).2.mRawHeap = none ∧
      (initRaw env s b).2.mJpegHeap = none ∧
      ((initRaw env s b).2.mThumbnailHeap = none ∨
        (initRaw env s b).2.mThumbnailHeap = s.mThumbnailHeap)) ∧
    (s.mRawHeap = none → s.mJpegHeap = none → s.mThumbnailHeap = none →
      (initRaw env s b).2.mRawHeap = none ∧
      (initRaw env s b).2.mJpegHeap = none ∧
      (initRaw env s b).2.mThumbnailHeap = none) := by
  rw [initRaw_eq] at hfail ⊢
  have hsp := ctrl_command_pools env s s.mCameraControlFd .CAMERA_SET_PARM_DIMENSION
    (.dimension s.mDimension)
  unfold native_set_parm at hfail ⊢
  generalize ctrl_command env s s.mCameraControlFd .CAMERA_SET_PARM_DIMENSION
    (.dimension s.mDimension) = r at hsp hfail ⊢
  obtain ⟨ret, s1⟩ := r
  simp only [] at hsp hfail ⊢
  obtain ⟨hret, hraw, hjpeg, hthumb, -⟩ := hsp
  cases ret
  · simp only [Bool.not_false, if_true] at hfail ⊢
    rw [← hret]
    refine ⟨fun _ => ⟨hraw, hjpeg, hthumb⟩, fun h => by simp at h, fun h1 h2 h3 => ?_⟩
    exact ⟨hraw.trans h1, hjpeg.trans h2, hthumb.trans h3⟩
  · simp only [Bool.not_true, Bool.false_eq_true, if_false] at hfail ⊢
    obtain ⟨h1, h2, h3, -⟩ := initRawPools_failure env s1 _ _ b hfail
    rw [hthumb] at h3
    rw [← hret]
    refine ⟨fun h => by simp at h, fun _ => ⟨h1, h2, h3⟩, fun _ _ ht => ⟨h1, h2, ?_⟩⟩
    rcases h3 with h3 | h3
    · exact h3
    · exact h3.trans ht

theorem initRaw_failure_releases_own_pools_witness :
    (initRaw sampleEnvNoPmem sampleCaptured true).1 = false ∧
    (initRaw sampleEnvNoPmem sampleCaptured true).2.mRawHeap = none ∧
    (initRaw sampleEnvNoPmem sampleCaptured true).2.mJpegHeap = none ∧
    ((initRaw sampleEnvNoPmem sampleCaptured true).2.mThumbnailHeap = none ∨
      (initRaw sampleEnvNoPmem sampleCaptured true).2.mThumbnailHeap
        = sampleCaptured.mThumbnailHeap) :=
  ⟨by decide,
   (initRaw_failure_releases_own_pools sampleEnvNoPmem sampleCaptured true (by decide)).2.1
     (by decide)⟩

/-! ## Creation of the session -/

/-- C13: when `createInstance` finds no session, `/dev/oncrpc` exists and
`startCamera` fails, the destructor of the session just constructed runs at
`return NULL` while `createInstance` still holds `singleton_lock`.  With the
mutexes of the framework, which are not recursive, the destructor waits for
that lock and the call does not return.  Were the lock recursive, the call
would return null and leave the registry empty, as the claim expects. -/
theorem createInstance_startCamera_failure (env : Env) (reg : Registry)
    (picture_sizes : List camera_size_type) (flash_enabled shutterPending : Bool)
    (hrel : reg.singleton_releasing = false) (hnone : reg.singleton = none)
    (hstat : 0 ≤ env.stat_oncrpc)
    (hfail : (startCamera env (new picture_sizes flash_enabled shutterPending)).1 = false) :
    (env.recursive_mutex = false →
      createInstance env reg picture_sizes flash_enabled shutterPending = none) ∧
    (env.recursive_mutex = true →
      createInstance env reg picture_sizes flash_enabled shutterPending
        = some (none, ⟨false, none⟩)) := by
  unfold createInstance
  rw [if_neg (by simp [hrel])]
  simp only [hnone]
  rw [if_neg (by omega)]
  generalize startCamera env (new picture_sizes flash_enabled shutterPending) = r at hfail ⊢
  obtain ⟨started, cam⟩ := r
  simp only [] at hfail
  subst hfail
  constructor
  · intro hm
    simp [destructor, hm]
  · intro hm
    simp [destructor, hm]

theorem createInstance_startCamera_failure_witness :
    (startCamera sampleEnvNoDevice (new [] false false)).1 = false ∧
    createInstance sampleEnvNoDevice sampleRegistryEmpty [] false false = none ∧
    createInstance sampleEnvNoDeviceRecursive sampleRegistryEmpty [] false false
      = some (none, ⟨false, none⟩) :=
  ⟨by decide,
   (createInstance_startCamera_failure sampleEnvNoDevice sampleRegistryEmpty [] false false
     rfl rfl (by decide) (by decide)).1 rfl,
   (createInstance_startCamera_failure sampleEnvNoDeviceRecursive sampleRegistryEmpty [] false
     false rfl rfl (by decide) (by decide)).2 rfl⟩

/-! ## Stopping the preview -/

/-- The calls that `stopPreviewInternal` makes, in order. -/
theorem stopPreviewInternal_log (env : Env) (s : QualcommCameraHardware) :
    (stopPreviewInternal env s).log = s.log ++
      (if s.mCameraRunning then
        (if s.mNotifyCallback && s.msgTypeEnabled CAMERA_MSG_FOCUS then
          [Event.ioctl_ctrl s.mCameraControlFd .CAMERA_AUTO_FOCUS_CANCEL .null
            (env.ioctl_ctrl .CAMERA_AUTO_FOCUS_CANCEL)] else [])
        ++ [Event.ioctl_ctrl s.mCameraControlFd .CAMERA_STOP_PREVIEW .null
            (env.ioctl_ctrl .CAMERA_STOP_PREVIEW)]
        ++ (if env.ioctl_ctrl .CAMERA_STOP_PREVIEW && s.mPreviewInitialized then
          [Event.camframe_terminate] else [])
      else []) := by
  unfold stopPreviewInternal cancelAutoFocusInternal native_cancel_afmode native_stop_preview
    ctrl_command deinitPreview
  cases hrun : s.mCameraRunning <;>
  cases hg : (s.mNotifyCallback && s.msgTypeEnabled CAMERA_MSG_FOCUS) <;>
  cases hst : env.ioctl_ctrl .CAMERA_STOP_PREVIEW <;>
  cases hpi : s.mPreviewInitialized <;> simp [hrun, hg, hst, hpi]

/-- What `stopPreviewInternal` leaves alone. -/
theorem stopPreviewInternal_fields (env : Env) (s : QualcommCameraHardware) :
    (stopPreviewInternal env s).mCameraControlFd = s.mCameraControlFd ∧
    (stopPreviewInternal env s).mRawHeap = s.mRawHeap ∧
    (stopPreviewInternal env s).mJpegHeap = s.mJpegHeap ∧
    (stopPreviewInternal env s).mThumbnailHeap = s.mThumbnailHeap ∧
    (stopPreviewInternal env s).mDisplayHeap = s.mDisplayHeap ∧
    (stopPreviewInternal env s).libmmcamera = s.libmmcamera ∧
    (stopPreviewInternal env s).mAutoFocusThreadRunning = s.mAutoFocusThreadRunning := by
  unfold stopPreviewInternal cancelAutoFocusInternal native_cancel_afmode native_stop_preview
    ctrl_command deinitPreview
  cases hrun : s.mCameraRunning <;>
  cases hg : (s.mNotifyCallback && s.msgTypeEnabled CAMERA_MSG_FOCUS) <;>
  cases hst : env.ioctl_ctrl .CAMERA_STOP_PREVIEW <;>
  cases hpi : s.mPreviewInitialized <;> simp [hrun, hg, hst, hpi]


theorem deinitRaw_log (env : Env) (s : QualcommCameraHardware) :
    (deinitRaw env s).log = s.log ++ poolReleaseCalls env s := by
  simp [deinitRaw, clearDisplayHeap, clearRawHeap, clearJpegHeap, clearThumbnailHeap,
    poolReleaseCalls]

theorem deinitRaw_fields (env : Env) (s : QualcommCameraHardware) :
    (deinitRaw env s).mRawHeap = none ∧ (deinitRaw env s).mJpegHeap = none ∧
    (deinitRaw env s).mThumbnailHeap = none ∧ (deinitRaw env s).mDisplayHeap = none ∧
    (deinitRaw env s).mCameraControlFd = s.mCameraControlFd ∧
    (deinitRaw env s).libmmcamera = s.libmmcamera ∧
    (deinitRaw env s).mPreviewHeap = s.mPreviewHeap := by
  simp [deinitRaw, clearDisplayHeap, clearRawHeap, clearJpegHeap, clearThumbnailHeap]


theorem poolReleaseCalls_congr (env : Env) (a b : QualcommCameraHardware)
    (hr : a.mRawHeap = b.mRawHeap) (hj : a.mJpegHeap = b.mJpegHeap)
    (ht : a.mThumbnailHeap = b.mThumbnailHeap) (hd : a.mDisplayHeap = b.mDisplayHeap) :
    poolReleaseCalls env a = poolReleaseCalls env b := by
  simp [poolReleaseCalls, hr, hj, ht, hd]

/-- The state in which `release` reaches the encoder join. -/
theorem release_stop_stage (env : Env) (s : QualcommCameraHardware) :
    ∀ s1, s1 = (if s.mCameraRunning then
        stopPreviewInternal env
          (if s.mDataCallbackTimestamp && s.msgTypeEnabled CAMERA_MSG_VIDEO_FRAME then
            { s with mReleasedRecordingFrame := true } else s)
        else s) →
      s1.log = s.log ++ stopPreviewCalls env s ∧
      s1.mCameraControlFd = s.mCameraControlFd ∧ s1.mRawHeap = s.mRawHeap ∧
      s1.mJpegHeap = s.mJpegHeap ∧ s1.mThumbnailHeap = s.mThumbnailHeap ∧
      s1.mDisplayHeap = s.mDisplayHeap ∧ s1.libmmcamera = s.libmmcamera := by
  intro s1 hs1
  subst hs1
  by_cases hrun : s.mCameraRunning = true
  · rw [if_pos hrun]
    have hlog := stopPreviewInternal_log env
      (if s.mDataCallbackTimestamp && s.msgTypeEnabled CAMERA_MSG_VIDEO_FRAME then
        { s with mReleasedRecordingFrame := true } else s)
    have hfld := stopPreviewInternal_fields env
      (if s.mDataCallbackTimestamp && s.msgTypeEnabled CAMERA_MSG_VIDEO_FRAME then
        { s with mReleasedRecordingFrame := true } else s)
    have h0 : ∀ s0, s0 = (if s.mDataCallbackTimestamp && s.msgTypeEnabled CAMERA_MSG_VIDEO_FRAME
        then { s with mReleasedRecordingFrame := true } else s) →
        s0.log = s.log ∧ s0.mCameraRunning = s.mCameraRunning ∧
        s0.mNotifyCallback = s.mNotifyCallback ∧ s0.mMsgEnabled = s.mMsgEnabled ∧
        s0.mCameraControlFd = s.mCameraControlFd ∧
        s0.mPreviewInitialized = s.mPreviewInitialized ∧ s0.mRawHeap = s.mRawHeap ∧
        s0.mJpegHeap = s.mJpegHeap ∧ s0.mThumbnailHeap = s.mThumbnailHeap ∧
        s0.mDisplayHeap = s.mDisplayHeap ∧ s0.libmmcamera = s.libmmcamera := by
      intro s0 hs0
      subst hs0
      split_ifs <;> simp
    generalize (if s.mDataCallbackTimestamp && s.msgTypeEnabled CAMERA_MSG_VIDEO_FRAME then
        { s with mReleasedRecordingFrame := true } else s) = s0 at hlog hfld h0 ⊢
    obtain ⟨e1, e2, e3, e4, e5, e6, e7, e8, e9, e10, e11⟩ := h0 s0 rfl
    obtain ⟨f1, f2, f3, f4, f5, f6, -⟩ := hfld
    refine ⟨?_, f1.trans e5, f2.trans e7, f3.trans e8, f4.trans e9, f5.trans e10, f6.trans e11⟩
    rw [hlog]
    simp only [stopPreviewCalls, msgTypeEnabled, e1, e2, e3, e4, e5, e6]
  · rw [if_neg hrun]
    simp [stopPreviewCalls, hrun]


/-- What the members give up when they are cleared one after the other, said
with the destructor calls: a member whose pool the display member holds too
makes no call, and the display member destroys what it holds. -/
theorem poolReleaseCalls_eq (env : Env) (s : QualcommCameraHardware) :
    poolReleaseCalls env s = poolDestroyCalls env s := by
  unfold poolReleaseCalls poolDestroyCalls releasePmem destroyOf releaseJpeg
  cases ht : s.mThumbnailHeap <;> cases hr : s.mRawHeap <;> cases hd : s.mDisplayHeap <;>
    cases hj : s.mJpegHeap <;> simp [eq_comm]

/-- C14: for a session whose vendor library is loaded (a second `release`
returns at once), `release` makes its calls in this order: the calls that
stop a running preview (none when no preview runs), the encoder join, the
destructor calls of the thumbnail, jpeg, raw and display pools (a pool that
the display member shares with the raw or thumbnail member is destroyed once,
when the display member is cleared), the exit command, the release of the
configuration thread and the close of the control descriptor.  Afterwards
`mCameraControlFd` is -1, the four pool members are null and
`singleton_releasing` is set. -/
theorem release_order (env : Env) (releasing : Bool) (s : QualcommCameraHardware)
    (hlib : env.DLOPEN_LIBMMCAMERA = true → s.libmmcamera = true) :
    (release env releasing s).2.log =
      s.log ++ stopPreviewCalls env s ++ [Event.jpeg_encoder_join]
        ++ poolDestroyCalls env s
        ++ [Event.ioctl_ctrl s.mCameraControlFd .CAMERA_EXIT .null (env.ioctl_ctrl .CAMERA_EXIT),
            Event.release_cam_conf_thread, Event.close s.mCameraControlFd]
        ++ (if env.DLOPEN_LIBMMCAMERA then [Event.dlclose] else []) ∧
    (s.mCameraRunning = true →
      Event.ioctl_ctrl s.mCameraControlFd .CAMERA_STOP_PREVIEW .null
        (env.ioctl_ctrl .CAMERA_STOP_PREVIEW) ∈ stopPreviewCalls env s) ∧
    (s.mCameraRunning = false → stopPreviewCalls env s = []) ∧
    (release env releasing s).2.mCameraControlFd = -1 ∧
    (release env releasing s).2.mRawHeap = none ∧
    (release env releasing s).2.mJpegHeap = none ∧
    (release env releasing s).2.mThumbnailHeap = none ∧
    (release env releasing s).2.mDisplayHeap = none ∧
    (release env releasing s).1 = true := by
  have hguard : ¬ (env.DLOPEN_LIBMMCAMERA && !s.libmmcamera) = true := by
    cases hd : env.DLOPEN_LIBMMCAMERA
    · simp
    · simp [hlib hd]
  have h1 := release_stop_stage env s _ rfl
  unfold release
  rw [if_neg hguard]
  simp only []
  generalize (if s.mCameraRunning then
        stopPreviewInternal env
          (if s.mDataCallbackTimestamp && s.msgTypeEnabled CAMERA_MSG_VIDEO_FRAME then
            { s with mReleasedRecordingFrame := true } else s)
        else s) = s1 at h1 ⊢
  obtain ⟨hlog1, hfd1, hr1, hj1, ht1, hd1, hl1⟩ := h1
  have h3log := deinitRaw_log env { s1 with log := s1.log ++ [Event.jpeg_encoder_join] }
  have h3 := deinitRaw_fields env { s1 with log := s1.log ++ [Event.jpeg_encoder_join] }
  have hp : poolReleaseCalls env { s1 with log := s1.log ++ [Event.jpeg_encoder_join] }
      = poolReleaseCalls env s := poolReleaseCalls_congr env _ s hr1 hj1 ht1 hd1
  rw [hp, poolReleaseCalls_eq] at h3log
  simp only [] at h3log h3
  generalize deinitRaw env { s1 with log := s1.log ++ [Event.jpeg_encoder_join] } = s3
    at h3log h3 ⊢
  obtain ⟨g1, g2, g3, g4, g5, g6, -⟩ := h3
  refine ⟨?_, ?_, ?_, ?_, ?_, ?_, ?_, ?_, ?_⟩
  · cases hdl : env.DLOPEN_LIBMMCAMERA
    · simp [ctrl_command, h3log, hlog1, g5, hfd1]
    · simp [ctrl_command, h3log, hlog1, g5, hfd1, g6, hl1, hlib hdl]
  · intro hrun
    simp [stopPreviewCalls, hrun]
  · intro hrun
    simp [stopPreviewCalls, hrun]
  all_goals first
    | rfl
    | (simp only [ctrl_command] <;> split_ifs <;> simp [g1, g2, g3, g4])

/-- C14 after a capture, its worker and a second `takePicture`: the raw member
holds a new pool that differs from the pool of the first capture, still held
by the display member, in its identity only; `release` destroys the
thumbnail, jpeg, raw and display pools, each with its own calls. -/
theorem release_order_witness :
    sampleSecondCapture.libmmcamera = true ∧
    sampleSecondCapture.mRawHeap ≠ sampleSecondCapture.mDisplayHeap ∧
    sampleSecondCapture.mRawHeap.map (fun p => p.numbered 0)
      = sampleSecondCapture.mDisplayHeap.map (fun p => p.numbered 0) ∧
    (release (sampleEnv (fun _ => true) (fun _ _ => true)) false sampleSecondCapture).2.log =
      sampleSecondCapture.log
        ++ stopPreviewCalls (sampleEnv (fun _ => true) (fun _ _ => true)) sampleSecondCapture
        ++ [Event.jpeg_encoder_join]
        ++ poolDestroyCalls (sampleEnv (fun _ => true) (fun _ _ => true)) sampleSecondCapture
        ++ [Event.ioctl_ctrl sampleSecondCapture.mCameraControlFd .CAMERA_EXIT .null
              ((sampleEnv (fun _ => true) (fun _ _ => true)).ioctl_ctrl .CAMERA_EXIT),
            Event.release_cam_conf_thread, Event.close sampleSecondCapture.mCameraControlFd]
        ++ (if (sampleEnv (fun _ => true) (fun _ _ => true)).DLOPEN_LIBMMCAMERA
            then [Event.dlclose] else []) ∧
    (poolDestroyCalls (sampleEnv (fun _ => true) (fun _ _ => true)) sampleSecondCapture).filter
        (fun e => match e with
          | Event.heap_release _ => true
          | Event.close _ => true
          | _ => false)
      = [Event.close 103, Event.heap_release 11, Event.heap_release 12,
         Event.close 103, Event.heap_release 11, Event.close 103, Event.heap_release 11] ∧
    (release (sampleEnv (fun _ => true) (fun _ _ => true)) false
      sampleSecondCapture).2.mCameraControlFd = -1 ∧
    (release (sampleEnv (fun _ => true) (fun _ _ => true)) false sampleSecondCapture).2.mRawHeap
      = none ∧
    (release (sampleEnv (fun _ => true) (fun _ _ => true)) false sampleSecondCapture).1 = true :=
  have h := release_order (sampleEnv (fun _ => true) (fun _ _ => true)) false
    sampleSecondCapture (fun _ => by decide)
  ⟨by decide, by decide, by decide, h.1, by decide, h.2.2.2.1, h.2.2.2.2.1,
   h.2.2.2.2.2.2.2.2⟩

/-- C17 (counterexample): the session is previewing and a focus worker is
marked running, but no notification callback is registered and no message is
enabled; `stopPreview` sends the stop command without any cancel command. -/
theorem stopPreview_no_cancel_without_focus_messages :
    samplePreviewingFocus.mCameraRunning = true ∧
    samplePreviewingFocus.mAutoFocusThreadRunning = true ∧
    (stopPreview (sampleEnv (fun _ => true) (fun _ _ => true)) samplePreviewingFocus).log =
      [Event.ioctl_ctrl 3 .CAMERA_STOP_PREVIEW .null true, Event.camframe_terminate] := by
  decide

/-- C17 (amended): when `stopPreview` runs while the session is previewing
and is not recording, the cancel-autofocus command is sent, immediately before
the stop-preview command, exactly when a notification callback is registered
and focus messages are enabled, whether or not a focus worker is marked
running; otherwise only the stop-preview command is sent.  The call returns
without waiting for the worker: the running flag of the worker is as
before. -/
theorem stopPreview_cancel_gate (env : Env) (s : QualcommCameraHardware)
    (hrun : s.mCameraRunning = true)
    (hrec : (s.mDataCallbackTimestamp && s.msgTypeEnabled CAMERA_MSG_VIDEO_FRAME) = false) :
    (stopPreview env s).log = s.log ++
      (if s.mNotifyCallback && s.msgTypeEnabled CAMERA_MSG_FOCUS then
        [Event.ioctl_ctrl s.mCameraControlFd .CAMERA_AUTO_FOCUS_CANCEL .null
          (env.ioctl_ctrl .CAMERA_AUTO_FOCUS_CANCEL)] else [])
      ++ [Event.ioctl_ctrl s.mCameraControlFd .CAMERA_STOP_PREVIEW .null
          (env.ioctl_ctrl .CAMERA_STOP_PREVIEW)]
      ++ (if env.ioctl_ctrl .CAMERA_STOP_PREVIEW && s.mPreviewInitialized then
        [Event.camframe_terminate] else []) ∧
    (stopPreview env s).mAutoFocusThreadRunning = s.mAutoFocusThreadRunning := by
  unfold stopPreview
  rw [hrec]
  simp only [Bool.false_eq_true, if_false]
  refine ⟨?_, (stopPreviewInternal_fields env s).2.2.2.2.2.2⟩
  rw [stopPreviewInternal_log, if_pos hrun]
  simp only [List.append_assoc]

theorem stopPreview_cancel_gate_witness :
    (stopPreview (sampleEnv (fun _ => true) (fun _ _ => true))
        { samplePreviewingFocus with mNotifyCallback := true, mMsgEnabled := 4 }).log =
      [Event.ioctl_ctrl 3 .CAMERA_AUTO_FOCUS_CANCEL .null true,
       Event.ioctl_ctrl 3 .CAMERA_STOP_PREVIEW .null true, Event.camframe_terminate] ∧
    (stopPreview (sampleEnv (fun _ => true) (fun _ _ => true))
        { samplePreviewingFocus with mNotifyCallback := true, mMsgEnabled := 4 }
      ).mAutoFocusThreadRunning = true :=
  stopPreview_cancel_gate (sampleEnv (fun _ => true) (fun _ _ => true))
    { samplePreviewingFocus with mNotifyCallback := true, mMsgEnabled := 4 } rfl (by decide)

/-! ## Autofocus -/

theorem clearBit0_eq (x : Nat) (hx : x < 4294967296) : clearBit0 x = roundDownEven x := by
  unfold clearBit0 roundDownEven
  rw [Nat.mod_eq_of_lt hx]
  have h := land_high_mask x 1 (by norm_num) (by norm_num; exact hx)
  norm_num at h
  exact h

theorem shutterDisplay_spec (dim : cam_ctrl_dimension_t) (crop : common_crop_t)
    (h1w : crop.in1_w < 4294967296) (h1h : crop.in1_h < 4294967296)
    (h2w : crop.in2_w < 4294967296) (h2h : crop.in2_h < 4294967296) :
    shutterDisplay dim crop =
      if (shutterPrimary dim crop).width > 2048 ∨ (shutterPrimary dim crop).height > 2048 then
        (shutterFallback dim crop, true)
      else (shutterPrimary dim crop, false) := by
  unfold shutterDisplay shutterPrimary shutterFallback
  rw [clearBit0_eq _ h1w, clearBit0_eq _ h1h, clearBit0_eq _ h2w, clearBit0_eq _ h2h]
  by_cases hc : crop.in1_w = 0 ∨ crop.in1_h = 0
  · simp only [if_pos hc]
  · simp only [if_neg hc]


/-- C19: whenever `notifyShutter` fires (the shutter is pending, a
notification callback is registered and shutter messages are enabled), for
every crop geometry with 32-bit fields and every dimension state, the
notification is the last call made, any call before it being the release of
the pool displayed so far; it reports the primary size and the raw pool
becomes the display pool when both primary dimensions are at most 2048, and
it reports the fallback size and the thumbnail pool becomes the display pool
exactly when a primary dimension exceeds 2048.  The shutter is no longer
pending afterwards. -/
theorem notifyShutter_reports_size (env : Env) (s : QualcommCameraHardware)
    (crop : common_crop_t)
    (hfire : (s.mShutterPending && s.mNotifyCallback && s.msgTypeEnabled CAMERA_MSG_SHUTTER)
      = true)
    (h1w : crop.in1_w < 4294967296) (h1h : crop.in1_h < 4294967296)
    (h2w : crop.in2_w < 4294967296) (h2h : crop.in2_h < 4294967296) :
    ∃ evs, (∀ e ∈ evs, isDeviceCall e = true) ∧
      (notifyShutter env s crop).log = s.log ++ evs ++
        [Event.notify_callback CAMERA_MSG_SHUTTER
          (some (if (shutterPrimary s.mDimension crop).width > 2048 ∨
              (shutterPrimary s.mDimension crop).height > 2048
            then shutterFallback s.mDimension crop else shutterPrimary s.mDimension crop)) 0] ∧
      (notifyShutter env s crop).mDisplayHeap =
        (if (shutterPrimary s.mDimension crop).width > 2048 ∨
            (shutterPrimary s.mDimension crop).height > 2048
          then s.mThumbnailHeap else s.mRawHeap) ∧
      (notifyShutter env s crop).mShutterPending = false := by
  unfold notifyShutter
  rw [if_pos hfire]
  have hd : (setDisplayHeap env s s.mRawHeap).mDimension = s.mDimension := rfl
  simp only [hd, shutterDisplay_spec s.mDimension crop h1w h1h h2w h2h]
  by_cases hbig : (shutterPrimary s.mDimension crop).width > 2048 ∨
      (shutterPrimary s.mDimension crop).height > 2048
  · simp only [if_pos hbig, if_true]
    refine ⟨releasePmem env [s.mRawHeap, s.mThumbnailHeap] s.mDisplayHeap ++
      releasePmem env [s.mRawHeap, s.mThumbnailHeap] s.mRawHeap, ?_, ?_⟩
    · intro e he
      rcases List.mem_append.1 he with h | h
      · exact deviceCalls_releasePmem _ _ _ e h
      · exact deviceCalls_releasePmem _ _ _ e h
    · simp [setDisplayHeap]
  · simp only [if_neg hbig, Bool.false_eq_true, if_false]
    refine ⟨releasePmem env [s.mRawHeap, s.mThumbnailHeap] s.mDisplayHeap, ?_, ?_⟩
    · exact deviceCalls_releasePmem _ _ _
    · simp [setDisplayHeap]

theorem notifyShutter_reports_size_witness :
    ∃ evs, (∀ e ∈ evs, isDeviceCall e = true) ∧
      (notifyShutter (sampleEnv (fun _ => true) (fun _ _ => true)) sampleCaptured
        ⟨640, 512, 480, 384, 1601, 2048, 1201, 1536, 1⟩).log = sampleCaptured.log ++ evs ++
        [Event.notify_callback CAMERA_MSG_SHUTTER (some ⟨1600, 1200⟩) 0] ∧
      (notifyShutter (sampleEnv (fun _ => true) (fun _ _ => true)) sampleCaptured
        ⟨640, 512, 480, 384, 1601, 2048, 1201, 1536, 1⟩).mDisplayHeap
          = sampleCaptured.mRawHeap ∧
      (notifyShutter (sampleEnv (fun _ => true) (fun _ _ => true)) sampleCaptured
        ⟨640, 512, 480, 384, 1601, 2048, 1201, 1536, 1⟩).mShutterPending = false :=
  notifyShutter_reports_size (sampleEnv (fun _ => true) (fun _ _ => true)) sampleCaptured
    ⟨640, 512, 480, 384, 1601, 2048, 1201, 1536, 1⟩ (by decide) (by decide) (by decide)
    (by decide) (by decide)

/-! ## The raw-image branch -/

theorem notifyShutter_mCrop (env : Env) (s : QualcommCameraHardware) (crop : common_crop_t) :
    (notifyShutter env s crop).mCrop = s.mCrop := by
  unfold notifyShutter
  by_cases h : (s.mShutterPending && s.mNotifyCallback && s.msgTypeEnabled CAMERA_MSG_SHUTTER)
      = true
  · rw [if_pos h]
    simp only []
    split_ifs <;> rfl
  · rw [if_neg h]

/-- C20 (counterexample): the device reports a crop geometry without a
second input window; the raw-image branch finishes with the raw picture
delivered and `mCrop` still holding the reported geometry, not zeros. -/
theorem receiveRawImage_keeps_unzoomed_crop :
    (receiveRawImage sampleEnvUnzoomed sampleCaptured).map (fun r => (r.1, r.2.mCrop))
      = some (true, ⟨0, 512, 0, 384, 0, 2048, 0, 1536, 1⟩) ∧
    (⟨0, 512, 0, 384, 0, 2048, 0, 1536, 1⟩ : common_crop_t) ≠ common_crop_t.zero := by
  decide

set_option maxRecDepth 1000000 in
/-- With the zoomed geometry, whose windows fit the picture and the thumbnail,
every access of the two crops lies within its heap and the raw-image branch
returns. -/
theorem receiveRawImage_zoomed_returns :
    receiveRawImage sampleEnvZoomed sampleCaptured
      = some ((receiveRawImage sampleEnvZoomed sampleCaptured).getD (false, sampleCaptured)) :=
  rfl

set_option maxRecDepth 1000000 in
/-- With a thumbnail window larger than the thumbnail the 32-bit offsets of
`crop_yuv420` wrap, the first copy reads outside the heap, and the raw-image
branch has no defined result. -/
theorem receiveRawImage_wide_window :
    crop_yuv420_within 294912 512 384 640 480 = false ∧
    (receiveRawImage sampleEnvWideWindow sampleCaptured).isNone = true := by
  decide

/-- C20 (amended): for every crop geometry that the device reports, when the
raw-image branch of `receiveRawPicture` finishes, `mCrop` is all zeros if the
reported `in2_w` and `in2_h`, rounded down to even, are both non-zero (the
picture was cropped in place); otherwise `mCrop` holds the reported geometry
with its four input dimensions rounded down to even. -/
theorem receiveRawImage_crop_reset (env : Env) (s : QualcommCameraHardware)
    (crop : common_crop_t)
    (hraw : (s.mDataCallback && s.msgTypeEnabled CAMERA_MSG_RAW_IMAGE) = true)
    (hget : env.get_picture = some crop) (r : Bool × QualcommCameraHardware)
    (hres : receiveRawImage env s = some r) :
    r.1 = true ∧
    r.2.mCrop =
      if clearBit0 crop.in2_w ≠ 0 ∧ clearBit0 crop.in2_h ≠ 0 then common_crop_t.zero
      else cropInputsEven crop := by
  unfold receiveRawImage native_get_picture at hres
  rw [if_pos hraw] at hres
  simp only [hget, Bool.not_true, Bool.false_eq_true, if_false] at hres
  generalize hs2 : notifyShutter env _ _ = s2 at hres
  have hc : s2.mCrop = cropInputsEven crop := by
    rw [← hs2, notifyShutter_mCrop]
    rfl
  by_cases hz : clearBit0 crop.in2_w ≠ 0 ∧ clearBit0 crop.in2_h ≠ 0
  · rw [if_pos hz]
    have hcond : (s2.mCrop.in2_w != 0 && s2.mCrop.in2_h != 0) = true := by
      rw [hc]; simpa [cropInputsEven] using hz
    rw [if_pos hcond] at hres
    cases hr : heapOf s2.mRawHeap with
    | none => simp [hr] at hres
    | some raw =>
      cases ht : heapOf s2.mThumbnailHeap with
      | none => simp [hr, ht] at hres
      | some thumbnail =>
        simp only [hr, ht] at hres
        split_ifs at hres with hw
        cases hd : s2.mDisplayHeap with
        | none => simp [hd] at hres
        | some display =>
          simp only [hd, Option.some.injEq] at hres
          subst hres
          exact ⟨rfl, rfl⟩
  · rw [if_neg hz]
    have hcond : ¬ (s2.mCrop.in2_w != 0 && s2.mCrop.in2_h != 0) = true := by
      rw [hc]; simpa [cropInputsEven] using hz
    rw [if_neg hcond] at hres
    cases hd : s2.mDisplayHeap with
    | none => simp [hd] at hres
    | some display =>
      simp only [hd, Option.some.injEq] at hres
      subst hres
      exact ⟨rfl, hc⟩

theorem receiveRawImage_crop_reset_witness :
    (receiveRawImage sampleEnvZoomed sampleCaptured).isSome = true ∧
    ((receiveRawImage sampleEnvZoomed sampleCaptured).getD (false, sampleCaptured)).1 = true ∧
    ((receiveRawImage sampleEnvZoomed sampleCaptured).getD (false, sampleCaptured)).2.mCrop
      = common_crop_t.zero :=
  have h := receiveRawImage_crop_reset sampleEnvZoomed sampleCaptured
    ⟨400, 512, 300, 384, 1600, 2048, 1200, 1536, 1⟩ (by decide) rfl
    ((receiveRawImage sampleEnvZoomed sampleCaptured).getD (false, sampleCaptured))
    receiveRawImage_zoomed_returns
  ⟨by rw [receiveRawImage_zoomed_returns]; rfl, h.1, h.2.trans (if_pos (by decide))⟩

/-! ## Jpeg encoding failures -/

theorem land_two_pow_ne_zero (m k : Nat) : (Nat.land m (2 ^ k) != 0) = m.testBit k := by
  show (m &&& 2 ^ k != 0) = m.testBit k
  rw [Nat.and_two_pow]
  cases h : m.testBit k <;> simp

theorem testBit_mask_complement (a k : Nat) (ha : a < 4294967296) (hk : k < 32) :
    (4294967295 - a).testBit k = !a.testBit k := by
  have h : 4294967295 - a = 2 ^ 32 - (a + 1) := by norm_num; omega
  rw [h, Nat.testBit_two_pow_sub_succ (by norm_num; exact ha)]
  simp [hk]

/-- C21: for every mask state and every 32-bit mask `a`, `enableMsgType a`
yields `m | a` and `disableMsgType a` yields `m & ~a`, leaving the rest of
the session alone.  So for every single-bit message type `2^k`, `k < 32`,
`msgTypeEnabled` is true after enabling `a` when the bit is in `a` and is as
before when it is not; it is false after disabling `a` when the bit is in
`a` and is as before when it is not.  Enabling and disabling are
idempotent. -/
theorem msgType_gating (s : QualcommCameraHardware) (a k : Nat) (ha : a < 4294967296)
    (hk : k < 32) :
    (enableMsgType s a).mMsgEnabled = s.mMsgEnabled ||| a ∧
    (disableMsgType s a).mMsgEnabled = s.mMsgEnabled &&& (4294967295 - a) ∧
    (enableMsgType s a).msgTypeEnabled (2 ^ k)
      = (a.testBit k || s.msgTypeEnabled (2 ^ k)) ∧
    (disableMsgType s a).msgTypeEnabled (2 ^ k)
      = (!a.testBit k && s.msgTypeEnabled (2 ^ k)) ∧
    enableMsgType (enableMsgType s a) a = enableMsgType s a ∧
    disableMsgType (disableMsgType s a) a = disableMsgType s a ∧
    enableMsgType s a = { s with mMsgEnabled := s.mMsgEnabled ||| a } ∧
    disableMsgType s a = { s with mMsgEnabled := s.mMsgEnabled &&& (4294967295 - a) } := by
  have hmod : a % 4294967296 = a := Nat.mod_eq_of_lt ha
  have he : enableMsgType s a = { s with mMsgEnabled := s.mMsgEnabled ||| a } := by
    simp only [enableMsgType, hmod]; rfl
  have hd : disableMsgType s a = { s with mMsgEnabled := s.mMsgEnabled &&& (4294967295 - a) } := by
    simp only [disableMsgType, hmod]; rfl
  refine ⟨by rw [he], by rw [hd], ?_, ?_, ?_, ?_, he, hd⟩
  · rw [he]
    simp only [msgTypeEnabled, land_two_pow_ne_zero, Nat.testBit_or]
    exact Bool.or_comm _ _
  · rw [hd]
    simp only [msgTypeEnabled, land_two_pow_ne_zero, Nat.testBit_and,
      testBit_mask_complement a k ha hk]
    exact Bool.and_comm _ _
  · simp only [enableMsgType, hmod]
    congr 1
    show (s.mMsgEnabled ||| a) ||| a = s.mMsgEnabled ||| a
    rw [Nat.or_assoc, Nat.or_self]
  · simp only [disableMsgType, hmod]
    congr 1
    show (s.mMsgEnabled &&& (4294967295 - a)) &&& (4294967295 - a)
      = s.mMsgEnabled &&& (4294967295 - a)
    rw [Nat.and_assoc, Nat.and_self]

theorem msgType_gating_witness :
    (enableMsgType sampleSession 0x102).mMsgEnabled = sampleSession.mMsgEnabled ||| 0x102 ∧
    (enableMsgType sampleSession 0x102).msgTypeEnabled (2 ^ 8)
      = ((0x102 : Nat).testBit 8 || sampleSession.msgTypeEnabled (2 ^ 8)) :=
  have h := msgType_gating sampleSession 0x102 8 (by decide) (by decide)
  ⟨h.1, h.2.2.1⟩

/-! ## Chroma offsets -/

theorem frameSize_cbcr (w h : Int) (heven : 2 ∣ w * h) (h0 : 0 ≤ w * h)
    (hov : w * h * 3 < 2147483648) :
    (toS32 (toS32 (w * h) * 3)).tdiv 2 = w * h * 3 / 2 ∧
    (toS32 ((toS32 (toS32 (w * h) * 3)).tdiv 2 * 2)).tdiv 3 = w * h ∧
    toS32 (w * h) = w * h := by
  obtain ⟨k, hk⟩ := heven
  generalize w * h = a at *
  subst hk
  have e1 : toS32 (2 * k) = 2 * k := by unfold toS32; omega
  have e2 : toS32 (2 * k * 3) = 2 * k * 3 := by unfold toS32; omega
  have e3 : (2 * k * 3 : Int).tdiv 2 = 3 * k := by
    rw [Int.tdiv_eq_ediv (by omega) (by norm_num)]; omega
  have e4 : toS32 (3 * k * 2) = 3 * k * 2 := by unfold toS32; omega
  have e5 : (3 * k * 2 : Int).tdiv 3 = 2 * k := by
    rw [Int.tdiv_eq_ediv (by omega) (by norm_num)]; omega
  refine ⟨?_, ?_, e1⟩
  · rw [e1, e2, e3]; omega
  · rw [e1, e2, e3, e4, e5]

/-- C29: when `initPreview` succeeds for a preview of `w` by `h` pixels with
`w*h` even and `3*w*h` within the range of `int`, the frame size of the
preview pool is `w*h*3/2`, every register call made for the pool passes the
chroma offset `w*h` (the frame size times 2 divided by 3), and so does every
frame descriptor filled in.  Every supported preview size meets the
conditions. -/
theorem preview_chroma_offsets_agree (env : Env) (s s' : QualcommCameraHardware) (w h : Int)
    (hsize : s.mParameters.getPreviewSize = (w, h))
    (heven : 2 ∣ w * h) (h0 : 0 ≤ w * h) (hov : w * h * 3 < 2147483648)
    (hinit : initPreview env s = some (true, s')) :
    s'.mPreviewFrameSize = w * h * 3 / 2 ∧
    (∀ e ∈ (PmemPool.new env "/dev/pmem_adsp" s.mCameraControlFd .MSM_PMEM_OUTPUT2
        s'.mPreviewFrameSize env.kPreviewBufferCount s'.mPreviewFrameSize "preview").2,
      registeredCbcrOff e = some (w * h)) ∧
    (∀ f ∈ s'.frames, f.cbcr_off = w * h) ∧
    (∀ sz ∈ preview_sizes, 2 ∣ sz.width * sz.height ∧ 0 ≤ sz.width * sz.height ∧
      sz.width * sz.height * 3 < 2147483648) := by
  obtain ⟨hf, hpool, hinitd, hframes⟩ := initPreview_success env s s' hinit
  obtain ⟨a1, a2, a3⟩ := frameSize_cbcr w h heven h0 hov
  rw [hsize] at hf hframes
  simp only [] at hf hframes
  refine ⟨hf.trans a1, ?_, ?_, by decide⟩
  · intro e he
    have hheap : ∃ hp, (PmemPool.new env "/dev/pmem_adsp" s.mCameraControlFd .MSM_PMEM_OUTPUT2
        s'.mPreviewFrameSize env.kPreviewBufferCount s'.mPreviewFrameSize "preview").1.mHeap
          = some hp := by
      unfold MemPool.initialized at hinitd
      split at hinitd
      · rename_i hp hh
        exact ⟨hp, hh⟩
      · simp at hinitd
    obtain ⟨hp, hh⟩ := hheap
    rw [PmemPool_new_of_heap env _ _ _ _ _ _ _ hp hh] at he
    simp only [PmemPool.registerAll, List.mem_map] at he
    obtain ⟨cnt, -, rfl⟩ := he
    simp only [register_buf, registeredCbcrOff, register_buf_info, MemPool.new, hf]
    rw [a2]
  · intro f hfm
    rw [hframes] at hfm
    simp only [previewFrames, List.mem_map] at hfm
    obtain ⟨cnt, -, rfl⟩ := hfm
    exact a3

theorem preview_chroma_offsets_agree_witness :
    samplePreviewStarted.2.mPreviewFrameSize = 640 * 480 * 3 / 2 ∧
    (∀ f ∈ samplePreviewStarted.2.frames, f.cbcr_off = 640 * 480) :=
  have h := preview_chroma_offsets_agree (sampleEnv (fun _ => true) (fun _ _ => true))
    samplePreviewSession samplePreviewStarted.2 640 480 (by decide) (by decide) (by decide)
    (by decide) rfl
  ⟨h.1, h.2.2.1⟩

/-! ## Recording -/

/-- C30: in every session state in which a timestamped data callback is
registered and `CAMERA_MSG_VIDEO_FRAME` is enabled, the public `stopPreview`
changes nothing: no call is made and the session is as before.  In every
state in which a data callback is registered and `CAMERA_MSG_PREVIEW_FRAME`
is enabled, `stopRecording` sets the released flag and does nothing else: no
command is sent and the preview is not stopped. -/
theorem stop_gated_by_other_consumer (env : Env) (s : QualcommCameraHardware) :
    ((s.mDataCallbackTimestamp && s.msgTypeEnabled CAMERA_MSG_VIDEO_FRAME) = true →
      stopPreview env s = s) ∧
    ((s.mDataCallback && s.msgTypeEnabled CAMERA_MSG_PREVIEW_FRAME) = true →
      stopRecording env s = { s with mReleasedRecordingFrame := true } ∧
      (stopRecording env s).log = s.log ∧
      (stopRecording env s).mCameraRunning = s.mCameraRunning ∧
      (stopRecording env s).mPreviewInitialized = s.mPreviewInitialized ∧
      (stopRecording env s).mReleasedRecordingFrame = true) := by
  constructor
  · intro h
    unfold stopPreview
    rw [if_pos h]
  · intro h
    have he : stopRecording env s = { s with mReleasedRecordingFrame := true } := by
      unfold stopRecording
      simp only []
      rw [if_pos (by simpa [msgTypeEnabled] using h)]
    rw [he]
    exact ⟨rfl, rfl, rfl, rfl, rfl⟩

theorem stop_gated_by_other_consumer_witness :
    (stopPreview (sampleEnv (fun _ => true) (fun _ _ => true)) sampleRecordingSession).log
      = sampleRecordingSession.log ∧
    (stopRecording (sampleEnv (fun _ => true) (fun _ _ => true)) sampleRecordingSession
      ).mCameraRunning = true ∧
    (stopRecording (sampleEnv (fun _ => true) (fun _ _ => true)) sampleRecordingSession
      ).mReleasedRecordingFrame = true :=
  have h := stop_gated_by_other_consumer (sampleEnv (fun _ => true) (fun _ _ => true))
    sampleRecordingSession
  ⟨congrArg QualcommCameraHardware.log (h.1 (by decide)),
   (h.2 (by decide)).2.2.1, (h.2 (by decide)).2.2.2.2⟩

/-! ## The display pool at the raw-image callback -/

/-- C27: when the raw-image callback is due (a data callback is registered,
raw-image messages are enabled and the picture is fetched) but
`notifyShutter` does not fire (no notification callback, shutter messages
disabled, or the shutter no longer pending) and no display pool has been
selected before, `receiveRawPicture` reaches `mDisplayHeap->mBuffers[0]` with
a null `mDisplayHeap`. -/
theorem receiveRawPicture_null_display (env : Env) (s : QualcommCameraHardware)
    (crop : common_crop_t)
    (hraw : (s.mDataCallback && s.msgTypeEnabled CAMERA_MSG_RAW_IMAGE) = true)
    (hget : env.get_picture = some crop)
    (hnofire : (s.mShutterPending && s.mNotifyCallback && s.msgTypeEnabled CAMERA_MSG_SHUTTER)
      = false)
    (hdisp : s.mDisplayHeap = none) :
    receiveRawImage env s = none ∧ receiveRawPicture env s = none := by
  have h1 : receiveRawImage env s = none := by
    unfold receiveRawImage native_get_picture
    rw [if_pos hraw]
    simp only [hget, Bool.not_true, Bool.false_eq_true, if_false]
    have hn : ∀ t c, t.mShutterPending = s.mShutterPending → t.mNotifyCallback = s.mNotifyCallback
        → t.mMsgEnabled = s.mMsgEnabled → notifyShutter env t c = t := by
      intro t c e1 e2 e3
      unfold notifyShutter
      rw [if_neg]
      simp only [msgTypeEnabled, e1, e2, e3]
      simp only [msgTypeEnabled] at hnofire
      simp [hnofire]
    generalize hs2 : notifyShutter env _ _ = s2
    have hd2 : s2.mDisplayHeap = none := by
      rw [← hs2, hn]
      · exact hdisp
      all_goals rfl
    split
    · rfl
    · rename_i s3 hs3
      have hd3 : s3.mDisplayHeap = none := by
        split at hs3
        · split at hs3
          · split at hs3
            · simp only [Option.some.injEq] at hs3
              subst hs3
              exact hd2
            · simp at hs3
          · simp at hs3
        · simp only [Option.some.injEq] at hs3
          subst hs3
          exact hd2
      simp [hd3]
  refine ⟨h1, ?_⟩
  unfold receiveRawPicture
  rw [h1]

theorem receiveRawPicture_null_display_witness :
    sampleRawOnlyTaken.1 = NO_ERROR ∧
    (native_start_snapshot (sampleEnv (fun _ => true) (fun _ _ => true)) sampleRawOnlyTaken.2
      sampleRawOnlyTaken.2.mCameraControlFd).1 = true ∧
    receiveRawPicture (sampleEnv (fun _ => true) (fun _ _ => true)) sampleRawOnlyTaken.2 = none ∧
    (runSnapshotThread (sampleEnv (fun _ => true) (fun _ _ => true))
      sampleRawOnlyTaken.2).isNone = true :=
  ⟨by decide, by decide,
   (receiveRawPicture_null_display (sampleEnv (fun _ => true) (fun _ _ => true))
     sampleRawOnlyTaken.2 common_crop_t.zero (by decide) rfl (by decide) (by decide)).2,
   by decide⟩

/-! ## The country table -/

set_option maxRecDepth 100000 in
theorem country_codes_sorted :
    country_numeric.Pairwise (fun a b => a.country_code < b.country_code) := by
  decide

theorem country_numeric_length : country_numeric.length = 197 := rfl

theorem country_codes_mono (i j : Nat) (a b : country_map)
    (hi : country_numeric.get? i = some a) (hj : country_numeric.get? j = some b)
    (hij : i < j) : a.country_code < b.country_code := by
  rw [List.get?_eq_getElem?, List.getElem?_eq_some] at hi hj
  obtain ⟨h1, rfl⟩ := hi
  obtain ⟨h2, rfl⟩ := hj
  exact List.pairwise_iff_getElem.1 country_codes_sorted i j h1 h2 hij

theorem country_codes_unique (i j : Nat) (a b : country_map)
    (hi : country_numeric.get? i = some a) (hj : country_numeric.get? j = some b)
    (hc : a.country_code = b.country_code) : i = j := by
  rcases Nat.lt_trichotomy i j with h | h | h
  · have := country_codes_mono i j a b hi hj h
    omega
  · exact h
  · have := country_codes_mono j i b a hj hi h
    omega

theorem countryLookup_of_entry (c i : Nat) (e : country_map)
    (hi : country_numeric.get? i = some e) (hc : e.country_code = c) :
    countryLookup c = e.type := by
  unfold countryLookup
  cases hf : country_numeric.find? (fun e => e.country_code == c) with
  | none =>
    rw [List.find?_eq_none] at hf
    have hmem : e ∈ country_numeric := List.mem_iff_get?.2 ⟨i, hi⟩
    exact absurd (by simpa using hc) (hf e hmem)
  | some e' =>
    have hp := List.find?_some hf
    obtain ⟨j, hj⟩ := List.mem_iff_get?.1 (List.mem_of_find?_eq_some hf)
    have hcj : e'.country_code = c := by simpa using hp
    have hij := country_codes_unique i j e e' hi hj (hc.trans hcj.symm)
    subst hij
    rw [hi] at hj
    cases hj
    rfl

theorem countryLookup_of_absent (c : Nat)
    (hno : ∀ k e, country_numeric.get? k = some e → e.country_code ≠ c) :
    countryLookup c = .CAMERA_ANTIBANDING_60HZ := by
  unfold countryLookup
  cases hf : country_numeric.find? (fun e => e.country_code == c) with
  | none => rfl
  | some e' =>
    have hp := List.find?_some hf
    obtain ⟨j, hj⟩ := List.mem_iff_get?.1 (List.mem_of_find?_eq_some hf)
    exact absurd (by simpa using hp) (hno j e' hj)

theorem camera_get_location_search_correct (c : Nat) :
    ∀ (fuel : Nat) (left right : Int), 1 ≤ fuel → 2 * (right - left + 1) < 2 ^ fuel →
      0 ≤ left → right < 197 →
      (∀ k e, country_numeric.get? k = some e → e.country_code = c →
        left ≤ (k : Int) ∧ (k : Int) ≤ right) →
      camera_get_location_search c fuel left right = some (countryLookup c) := by
  intro fuel
  induction fuel with
  | zero => intro left right h1; omega
  | succ f ih =>
    intro left right _ hsize hl hr hwin
    have hpow : (2 : Int) ^ (f + 1) = 2 * 2 ^ f := by rw [pow_succ]; ring
    rw [hpow] at hsize
    have hP1 : (1 : Int) ≤ 2 ^ f := by exact_mod_cast Nat.one_le_two_pow
    unfold camera_get_location_search
    by_cases hlr : left ≤ right
    · rw [if_pos hlr]
      simp only []
      have hidx0 : 0 ≤ (left + right) / 2 := by omega
      have hidx1 : left ≤ (left + right) / 2 := by omega
      have hidx2 : (left + right) / 2 ≤ right := by omega
      obtain ⟨n, hn⟩ := Int.eq_ofNat_of_zero_le hidx0
      have hnlt : n < country_numeric.length := by
        rw [country_numeric_length]; omega
      have hget : country_numeric.get? ((left + right) / 2).toNat
          = some (country_numeric.get ⟨n, hnlt⟩) := by
        rw [hn]
        exact List.get?_eq_get hnlt
      have hgetn : country_numeric.get? n = some (country_numeric.get ⟨n, hnlt⟩) :=
        List.get?_eq_get hnlt
      rw [hget]
      simp only []
      generalize country_numeric.get ⟨n, hnlt⟩ = e at hgetn
      have hf1 : 1 ≤ f ∨ f = 0 := by omega
      have hfpos : 1 ≤ f := by
        rcases hf1 with h | h
        · exact h
        · subst h
          norm_num at hsize
          omega
      by_cases hc : e.country_code = c
      · rw [if_pos hc, countryLookup_of_entry c n e hgetn hc]
      · rw [if_neg hc]
        by_cases hgt : e.country_code > c
        · rw [if_pos hgt]
          apply ih left ((left + right) / 2 - 1) hfpos (by omega) hl (by omega)
          intro k e' hk hck
          obtain ⟨w1, w2⟩ := hwin k e' hk hck
          refine ⟨w1, ?_⟩
          by_contra hcon
          have hkn : n ≤ k := by omega
          rcases Nat.lt_or_ge n k with h | h
          · have := country_codes_mono n k e e' hgetn hk h
            omega
          · have hnk : n = k := by omega
            subst hnk
            rw [hgetn] at hk
            cases hk
            exact hc hck
        · rw [if_neg hgt]
          apply ih ((left + right) / 2 + 1) right hfpos (by omega) (by omega) hr
          intro k e' hk hck
          obtain ⟨w1, w2⟩ := hwin k e' hk hck
          refine ⟨?_, w2⟩
          by_contra hcon
          have hkn : k ≤ n := by omega
          rcases Nat.lt_or_ge k n with h | h
          · have := country_codes_mono k n e' e hk hgetn h
            omega
          · have hnk : n = k := by omega
            subst hnk
            rw [hgetn] at hk
            cases hk
            exact hc hck
    · rw [if_neg hlr]
      rw [countryLookup_of_absent c]
      intro k e hk hck
      obtain ⟨w1, w2⟩ := hwin k e hk hck
      omega

theorem camera_get_location_loop_of_search (c : Nat) :
    ∀ (fuel : Nat) (left right : Int) (t : camera_antibanding_type),
      camera_get_location_search c fuel left right = some t →
      camera_get_location_loop c fuel left right = t := by
  intro fuel
  induction fuel with
  | zero =>
    intro left right t h
    simp [camera_get_location_search] at h
  | succ f ih =>
    intro left right t h
    unfold camera_get_location_search at h
    unfold camera_get_location_loop
    by_cases hlr : left ≤ right
    · rw [if_pos hlr] at h ⊢
      simp only [] at h ⊢
      cases hg : country_numeric.get? ((left + right) / 2).toNat with
      | none =>
        simp only [hg, Option.some.injEq] at h ⊢
        exact h
      | some e =>
        simp only [hg] at h ⊢
        split_ifs at h ⊢ with h1 h2
        · simpa using h
        · exact ih _ _ _ h
        · exact ih _ _ _ h
    · rw [if_neg hlr] at h ⊢
      simpa using h


/-- C28: the table `country_numeric` is strictly increasing in
`country_code`, and for every country code `c` the binary search of
`camera_get_location` ends within the iterations it is given and returns what
the linear lookup returns: the type of the entry with code `c`, which is
unique, when there is one, and `CAMERA_ANTIBANDING_60HZ` otherwise. -/
theorem camera_get_location_agrees_with_lookup (c : Nat) :
    country_numeric.Pairwise (fun a b => a.country_code < b.country_code) ∧
    camera_get_location_search c country_number 0 (Int.ofNat country_number - 1)
      = some (countryLookup c) ∧
    camera_get_location_loop c country_number 0 (Int.ofNat country_number - 1)
      = countryLookup c ∧
    (∀ e ∈ country_numeric, e.country_code = c →
      countryLookup c = e.type ∧
      ∀ e' ∈ country_numeric, e'.country_code = c → e' = e) ∧
    ((∀ e ∈ country_numeric, e.country_code ≠ c) →
      countryLookup c = .CAMERA_ANTIBANDING_60HZ) ∧
    (∀ gsm_operator_numeric : String, gsm_operator_numeric.length ≠ 0 →
      (toU32 (atoi (gsm_operator_numeric.toList.take 3))).toNat = c →
      camera_get_location gsm_operator_numeric = countryLookup c) := by
  have hn : country_number = 197 := rfl
  have hsearch : camera_get_location_search c country_number 0 (Int.ofNat country_number - 1)
      = some (countryLookup c) := by
    apply camera_get_location_search_correct c country_number 0 _ (by rw [hn]; norm_num)
      (by rw [hn]; norm_num) (le_refl 0) (by rw [hn]; norm_num)
    intro k e hk _
    have hlt : k < country_numeric.length := by
      rw [List.get?_eq_some] at hk
      exact hk.1
    rw [country_numeric_length] at hlt
    rw [hn]
    constructor
    · omega
    · simp only [Int.ofNat_eq_coe, Nat.cast_ofNat]; omega
  have hloop := camera_get_location_loop_of_search c _ _ _ _ hsearch
  refine ⟨country_codes_sorted, hsearch, hloop, ?_, ?_, ?_⟩
  · intro e he hc
    obtain ⟨i, hi⟩ := List.mem_iff_get?.1 he
    refine ⟨countryLookup_of_entry c i e hi hc, ?_⟩
    intro e' he' hc'
    obtain ⟨j, hj⟩ := List.mem_iff_get?.1 he'
    have hij := country_codes_unique i j e e' hi hj (hc.trans hc'.symm)
    subst hij
    rw [hi] at hj
    cases hj
    rfl
  · intro hno
    apply countryLookup_of_absent
    intro k e hk
    exact hno e (List.mem_iff_get?.2 ⟨k, hk⟩)
  · intro str hlen hcode
    unfold camera_get_location
    rw [if_neg hlen]
    simp only [hcode]
    exact hloop

theorem camera_get_location_agrees_with_lookup_witness :
    camera_get_location_loop 310 country_number 0 (Int.ofNat country_number - 1)
      = countryLookup 310 ∧
    camera_get_location_search 1000 country_number 0 (Int.ofNat country_number - 1)
      = some (countryLookup 1000) :=
  ⟨(camera_get_location_agrees_with_lookup 310).2.2.1,
   (camera_get_location_agrees_with_lookup 1000).2.1⟩

/-- C23, counterexample: on the recording session a release made while no
delivery is pending leaves the released flag set; the next delivery calls the
recording callback for the second preview buffer and completes at once, with no
release after its callback. -/
theorem recording_delivery_without_release :
    (sampleRecordingSession.mDataCallbackTimestamp
      && sampleRecordingSession.msgTypeEnabled CAMERA_MSG_VIDEO_FRAME) = true ∧
    (releaseRecordingFrame sampleRecordingSession).mCameraRunning = true ∧
    (releaseRecordingFrame sampleRecordingSession).mPreviewHeap.isSome = true ∧
    (receivePreviewFrame (releaseRecordingFrame sampleRecordingSession)
      ⟨11, 1074204672, 0, 307200⟩).2 = false ∧
    ((receivePreviewFrame (releaseRecordingFrame sampleRecordingSession)
      ⟨11, 1074204672, 0, 307200⟩).1.log.getLast?.map
      (fun e => match e with
        | Event.data_callback_timestamp m b => m == CAMERA_MSG_VIDEO_FRAME && b.isSome
        | _ => false)) = some true := by
  refine ⟨by decide, by decide, by decide, by decide, by decide⟩

/-- A delivery with the recording callback enabled: it parks exactly when the
released flag is clear, and leaves the flag clear either way. -/
theorem receivePreviewFrame_recording (s : QualcommCameraHardware) (frame : msm_frame)
    (pool : PmemPool) (hrun : s.mCameraRunning = true) (hpool : s.mPreviewHeap = some pool)
    (hrec : (s.mDataCallbackTimestamp && s.msgTypeEnabled CAMERA_MSG_VIDEO_FRAME) = true) :
    (receivePreviewFrame s frame).2 = !s.mReleasedRecordingFrame ∧
    (receivePreviewFrame s frame).1.mReleasedRecordingFrame = false ∧
    (receivePreviewFrame s frame).1.mCameraRunning = true ∧
    (receivePreviewFrame s frame).1.mPreviewHeap = some pool ∧
    (receivePreviewFrame s frame).1.mDataCallbackTimestamp = s.mDataCallbackTimestamp ∧
    (receivePreviewFrame s frame).1.mMsgEnabled = s.mMsgEnabled ∧
    (receivePreviewFrame s frame).1.log.getLast? =
      some (Event.data_callback_timestamp CAMERA_MSG_VIDEO_FRAME
        (bufferAt pool.mBuffers (previewFrameIndex pool frame))) := by
  cases hf : s.mReleasedRecordingFrame <;>
    simp [receivePreviewFrame, hrun, hpool, hf] <;>
    split_ifs <;> simp_all [msgTypeEnabled]

/-- C23, amended: with recording-frame delivery enabled, a delivery that finds
the released flag clear calls the recording callback and parks with the flag
still clear, so it stays parked until a release sets the flag; once
`releaseRecordingFrame` has set it and the parked thread resumes, the flag is
clear again and the next delivery parks: one release lets one delivery
complete.  A delivery that finds the flag already set completes right after its
callback, and resets the flag, so the delivery after it parks. -/
theorem recording_delivery_latch (s : QualcommCameraHardware) (frame next : msm_frame)
    (pool : PmemPool) (hrun : s.mCameraRunning = true) (hpool : s.mPreviewHeap = some pool)
    (hrec : (s.mDataCallbackTimestamp && s.msgTypeEnabled CAMERA_MSG_VIDEO_FRAME) = true) :
    (receivePreviewFrame s frame).1.log.getLast? =
      some (Event.data_callback_timestamp CAMERA_MSG_VIDEO_FRAME
        (bufferAt pool.mBuffers (previewFrameIndex pool frame))) ∧
    (s.mReleasedRecordingFrame = false →
      (receivePreviewFrame s frame).2 = true ∧
      (receivePreviewFrame s frame).1.mReleasedRecordingFrame = false ∧
      (releaseRecordingFrame (receivePreviewFrame s frame).1).mReleasedRecordingFrame = true ∧
      (receivePreviewFrameResume
        (releaseRecordingFrame (receivePreviewFrame s frame).1)).mReleasedRecordingFrame
          = false ∧
      (receivePreviewFrame (receivePreviewFrameResume
        (releaseRecordingFrame (receivePreviewFrame s frame).1)) next).2 = true) ∧
    (s.mReleasedRecordingFrame = true →
      (receivePreviewFrame s frame).2 = false ∧
      (receivePreviewFrame s frame).1.mReleasedRecordingFrame = false ∧
      (receivePreviewFrame (receivePreviewFrame s frame).1 next).2 = true) := by
  obtain ⟨h1, h2, h3, h4, h5, h6, h7⟩ := receivePreviewFrame_recording s frame pool hrun hpool hrec
  have hrec1 : ((receivePreviewFrame s frame).1.mDataCallbackTimestamp
      && (receivePreviewFrame s frame).1.msgTypeEnabled CAMERA_MSG_VIDEO_FRAME) = true := by
    simpa [msgTypeEnabled, h5, h6] using hrec
  refine ⟨h7, fun hf => ⟨by simp [h1, hf], h2, rfl, rfl, ?_⟩, fun hf => ⟨by simp [h1, hf], h2, ?_⟩⟩
  · have h := (receivePreviewFrame_recording
      (receivePreviewFrameResume (releaseRecordingFrame (receivePreviewFrame s frame).1))
      next pool h3 h4 hrec1).1
    rw [h]; rfl
  · have h := (receivePreviewFrame_recording (receivePreviewFrame s frame).1
      next pool h3 h4 hrec1).1
    rw [h, h2]; rfl

theorem recording_delivery_latch_witness :
    sampleRecordingSession.mReleasedRecordingFrame = false ∧
    (receivePreviewFrame sampleRecordingSession ⟨11, 1074204672, 0, 307200⟩).2 = true ∧
    (receivePreviewFrame (receivePreviewFrameResume (releaseRecordingFrame
      (receivePreviewFrame sampleRecordingSession ⟨11, 1074204672, 0, 307200⟩).1))
      ⟨11, 1074667520, 0, 307200⟩).2 = true :=
  ⟨by decide,
   ((recording_delivery_latch sampleRecordingSession ⟨11, 1074204672, 0, 307200⟩
      ⟨11, 1074667520, 0, 307200⟩
      (sampleRecordingSession.mPreviewHeap.getD samplePreviewPool.1)
      (by decide) rfl (by decide)).2.1 (by decide)).1,
   ((recording_delivery_latch sampleRecordingSession ⟨11, 1074204672, 0, 307200⟩
      ⟨11, 1074667520, 0, 307200⟩
      (sampleRecordingSession.mPreviewHeap.getD samplePreviewPool.1)
      (by decide) rfl (by decide)).2.1 (by decide)).2.2.2.2⟩

/-- One fragment: the size and the bytes received so far after it. -/
theorem receiveJpegPictureFragment_step (signedSize : Bool) (s : QualcommCameraHardware)
    (heap : Nat → Nat) (f pre : List Nat) (jpeg : MemPool) (h : MemoryHeap)
    (hj : s.mJpegHeap = some jpeg) (hh : jpeg.mHeap = some h) (hsize : 0 ≤ h.size)
    (hbound : h.size < if signedSize then 2147483648 else 4294967296)
    (hf : f.length < 4294967296)
    (hm : s.mJpegSize = min h.size (Int.ofNat pre.length))
    (hbytes : ∀ a : Nat, Int.ofNat a < s.mJpegSize → heap a = pre.getD a 0) :
    ∃ s' heap', receiveJpegPictureFragment signedSize s heap f = some (s', heap') ∧
      s'.mJpegHeap = some jpeg ∧
      s'.mJpegSize = min h.size (Int.ofNat (pre ++ f).length) ∧
      (∀ a : Nat, Int.ofNat a < s'.mJpegSize → heap' a = (pre ++ f).getD a 0) ∧
      (∀ a : Nat, h.size ≤ Int.ofNat a → heap' a = heap a) := by
  have hb : h.size < 4294967296 := by split_ifs at hbound <;> omega
  have hm0 : 0 ≤ s.mJpegSize ∧ s.mJpegSize ≤ h.size := by
    rw [hm]; constructor
    · exact le_min hsize (Int.ofNat_nonneg _)
    · exact min_le_left _ _
  have e1 : toU32 (Int.ofNat f.length) = Int.ofNat f.length := by
    unfold toU32; simp only [Int.ofNat_eq_coe]; omega
  have e2 : toU32 h.size = h.size := by unfold toU32; omega
  have e3 : toU32 s.mJpegSize = s.mJpegSize := by unfold toU32; omega
  have e4 : toU32 (h.size - s.mJpegSize) = h.size - s.mJpegSize := by unfold toU32; omega
  obtain ⟨bs, hbs, b0, b1, b2, b3⟩ : ∃ bs : Int,
      (if Int.ofNat f.length > h.size - s.mJpegSize then h.size - s.mJpegSize
        else Int.ofNat f.length) = bs ∧ 0 ≤ bs ∧
      s.mJpegSize + bs = min h.size (Int.ofNat (pre ++ f).length) ∧
      bs ≤ Int.ofNat f.length ∧ (0 < bs → s.mJpegSize = Int.ofNat pre.length) := by
    refine ⟨_, rfl, ?_⟩
    simp only [List.length_append, Int.ofNat_eq_coe, Nat.cast_add] at *
    rcases min_cases h.size (pre.length : Int) with ⟨q1, q2⟩ | ⟨q1, q2⟩ <;>
    rcases min_cases h.size ((pre.length : Int) + f.length) with ⟨r1, r2⟩ | ⟨r1, r2⟩ <;>
    split_ifs <;> omega
  have b4 : s.mJpegSize + bs ≤ h.size := by rw [b1]; exact min_le_left _ _
  have e5 : toU32 (s.mJpegSize + bs) = s.mJpegSize + bs := by unfold toU32; omega
  have e6 : (if signedSize then toS32 (s.mJpegSize + bs) else s.mJpegSize + bs)
      = s.mJpegSize + bs := by
    cases signedSize
    · rfl
    · simp only [if_true] at hbound ⊢
      unfold toS32; omega
  simp only [receiveJpegPictureFragment, hj, hh, e1, e2, e3, e4, hbs, e5, e6]
  refine ⟨_, _, rfl, rfl, b1, ?_, ?_⟩
  · intro a ha
    simp only [] at ha
    unfold copyIn
    split_ifs with hc
    · have hp : s.mJpegSize = Int.ofNat pre.length := b3 (by omega)
      have hle : pre.length ≤ a := by
        have := hc.1; rw [hp] at this; exact Int.ofNat_le.mp this
      rw [List.getD_append_right _ _ _ _ hle, hp]
      congr 1
      simp only [Int.ofNat_eq_coe]; omega
    · have hlt : Int.ofNat a < s.mJpegSize := by
        by_contra hn
        apply hc
        constructor
        · omega
        · have : bs.toNat = bs := Int.toNat_of_nonneg b0
          simp only [Int.ofNat_eq_coe] at *; omega
      rw [hbytes a hlt]
      have hlen : a < pre.length := by
        have : s.mJpegSize ≤ Int.ofNat pre.length := by rw [hm]; exact min_le_right _ _
        simp only [Int.ofNat_eq_coe] at *; omega
      rw [List.getD_append _ _ _ _ hlen]
  · intro a ha
    unfold copyIn
    rw [if_neg]
    intro hc
    have : (Int.ofNat bs.toNat) = bs := Int.toNat_of_nonneg b0
    omega


/-- Fragments received after a prefix: the size and the bytes after them. -/
theorem receiveJpegFragments_after (signedSize : Bool) (jpeg : MemPool) (h : MemoryHeap)
    (hh : jpeg.mHeap = some h) (hsize : 0 ≤ h.size)
    (hbound : h.size < if signedSize then 2147483648 else 4294967296)
    (heap0 : Nat → Nat) (fragments : List (List Nat)) :
    ∀ (s : QualcommCameraHardware) (heap : Nat → Nat) (pre : List Nat),
    s.mJpegHeap = some jpeg →
    (∀ f ∈ fragments, f.length < 4294967296) →
    s.mJpegSize = min h.size (Int.ofNat pre.length) →
    (∀ a : Nat, Int.ofNat a < s.mJpegSize → heap a = pre.getD a 0) →
    (∀ a : Nat, h.size ≤ Int.ofNat a → heap a = heap0 a) →
    ∃ s' heap', receiveJpegFragments signedSize s heap fragments = some (s', heap') ∧
      s'.mJpegSize = min h.size (Int.ofNat (pre ++ fragments.flatten).length) ∧
      (∀ a : Nat, Int.ofNat a < s'.mJpegSize → heap' a = (pre ++ fragments.flatten).getD a 0) ∧
      (∀ a : Nat, h.size ≤ Int.ofNat a → heap' a = heap0 a) := by
  induction fragments with
  | nil =>
    intro s heap pre _ _ hm hb hz
    exact ⟨s, heap, rfl, by simpa using hm, by simpa using hb, hz⟩
  | cons f fs ih =>
    intro s heap pre hj hf hm hb hz
    obtain ⟨s1, heap1, e1, hj1, hm1, hb1, hz1⟩ :=
      receiveJpegPictureFragment_step signedSize s heap f pre jpeg h hj hh hsize hbound
        (hf f (List.mem_cons_self _ _)) hm hb
    obtain ⟨s2, heap2, e2, hm2, hb2, hz2⟩ :=
      ih s1 heap1 (pre ++ f) hj1 (fun g hg => hf g (List.mem_cons_of_mem _ hg)) hm1 hb1
        (fun a ha => by rw [hz1 a ha, hz a ha])
    refine ⟨s2, heap2, ?_, ?_, ?_, hz2⟩
    · rw [← e2]
      simp only [receiveJpegFragments, List.foldl_cons, Option.bind, e1]
    · simpa [List.flatten_cons, List.append_assoc] using hm2
    · simpa [List.flatten_cons, List.append_assoc] using hb2

/-- C26: for every sequence of fragments received from `mJpegSize = 0` into a
jpeg heap of `size` bytes, every call returns, `mJpegSize` ends as the smaller
of `size` and the number of bytes received, so it never exceeds `size`, the
heap bytes below `mJpegSize` are the first bytes of the concatenation of the
fragments, and no byte at or beyond `size` is written. -/
theorem jpeg_fragments_invariant (signedSize : Bool) (s : QualcommCameraHardware)
    (heap : Nat → Nat) (fragments : List (List Nat)) (jpeg : MemPool) (h : MemoryHeap)
    (hj : s.mJpegHeap = some jpeg) (hh : jpeg.mHeap = some h) (hsize : 0 ≤ h.size)
    (hbound : h.size < if signedSize then 2147483648 else 4294967296)
    (hf : ∀ f ∈ fragments, f.length < 4294967296) (h0 : s.mJpegSize = 0) :
    ∃ s' heap', receiveJpegFragments signedSize s heap fragments = some (s', heap') ∧
      s'.mJpegSize = min h.size (Int.ofNat fragments.flatten.length) ∧
      s'.mJpegSize ≤ h.size ∧
      (∀ a : Nat, Int.ofNat a < s'.mJpegSize → fragments.flatten.get? a = some (heap' a)) ∧
      (∀ a : Nat, h.size ≤ Int.ofNat a → heap' a = heap a) := by
  obtain ⟨s', heap', e, hm, hb, hz⟩ :=
    receiveJpegFragments_after signedSize jpeg h hh hsize hbound heap fragments s heap []
      hj hf (by rw [h0]; simp [hsize]) (by intro a ha; rw [h0] at ha; simp at ha; omega)
      (fun _ _ => rfl)
  simp only [List.nil_append] at hm hb
  refine ⟨s', heap', e, hm, by rw [hm]; exact min_le_left _ _, ?_, hz⟩
  intro a ha
  have hlt : a < fragments.flatten.length := by
    have : s'.mJpegSize ≤ Int.ofNat fragments.flatten.length := by
      rw [hm]; exact min_le_right _ _
    simp only [Int.ofNat_eq_coe] at *; omega
  rw [hb a ha, List.get?_eq_get hlt, List.getD_eq_getElem _ _ hlt]
  rfl

theorem jpeg_fragments_invariant_witness :
    (∃ s' heap', receiveJpegFragments false sampleJpegSession (fun _ => 0)
        [[1, 2, 3, 4], [5, 6, 7, 8]] = some (s', heap') ∧
      s'.mJpegSize = min 6 (Int.ofNat [[1, 2, 3, 4], [5, 6, 7, 8]].flatten.length) ∧
      s'.mJpegSize ≤ 6 ∧
      (∀ a : Nat, Int.ofNat a < s'.mJpegSize →
        [[1, 2, 3, 4], [5, 6, 7, 8]].flatten.get? a = some (heap' a)) ∧
      (∀ a : Nat, (6 : Int) ≤ Int.ofNat a → heap' a = (fun _ => 0) a)) ∧
    (receiveJpegFragments false sampleJpegSession (fun _ => 0)
        [[1, 2, 3, 4], [5, 6, 7, 8]]).map
      (fun r => (r.1.mJpegSize, (List.range 8).map r.2)) = some (6, [1, 2, 3, 4, 5, 6, 0, 0]) :=
  ⟨jpeg_fragments_invariant false sampleJpegSession (fun _ => 0) [[1, 2, 3, 4], [5, 6, 7, 8]]
    sampleJpegPool ⟨12, 1342177280, 6⟩ rfl rfl (by decide) (by decide) (by decide) rfl,
   by decide⟩

/-! ## Cropping in place -/

/-- An invariant of a loop over `0, ..., n - 1`. -/
theorem foldl_range_inv {α : Type} (f : α → Nat → α) (P : Nat → α → Prop) (a : α) (n : Nat)
    (h0 : P 0 a) (hstep : ∀ k acc, k < n → P k acc → P (k + 1) (f acc k)) :
    P n ((List.range n).foldl f a) := by
  induction n with
  | zero => simpa using h0
  | succ m ih =>
    rw [List.range_succ, List.foldl_append]
    simp only [List.foldl_cons, List.foldl_nil]
    exact hstep m _ (Nat.lt_succ_self m)
      (ih (fun k acc hk hp => hstep k acc (Nat.lt_succ_of_lt hk) hp))

/-- An ascending copy to a lower or equal address moves the bytes the source
held before the copy. -/
theorem memcpy_forward (mem : Nat → Nat) (dst src n : Nat) (h : dst ≤ src) (a : Nat) :
    memcpyAscending mem dst src n a
      = if dst ≤ a ∧ a < dst + n then mem (src + (a - dst)) else mem a := by
  unfold memcpyAscending
  refine foldl_range_inv (fun m k => Function.update m (dst + k) (m (src + k)))
    (fun k m => ∀ a, m a = if dst ≤ a ∧ a < dst + k then mem (src + (a - dst)) else mem a)
    mem n ?_ ?_ a
  · intro a
    rw [if_neg]; omega
  · intro k acc _ hp b
    show Function.update acc (dst + k) (acc (src + k)) b = _
    by_cases hb : b = dst + k
    · subst hb
      rw [Function.update_same, hp (src + k), if_neg (by omega), if_pos (by omega)]
      congr 1; omega
    · rw [Function.update_noteq hb, hp b]
      by_cases hc : dst ≤ b ∧ b < dst + k
      · rw [if_pos hc, if_pos (by omega)]
      · rw [if_neg hc, if_neg (by omega)]

/-- A descending copy writes only the destination region. -/
theorem memcpyDescending_outside (dst src : Nat) :
    ∀ (n : Nat) (mem : Nat → Nat) (a : Nat), (a < dst ∨ dst + n ≤ a) →
      memcpyDescending mem dst src n a = mem a := by
  intro n
  induction n with
  | zero => intro mem a _; rfl
  | succ m ih =>
    intro mem a ha
    show memcpyDescending (Function.update mem (dst + m) (mem (src + m))) dst src m a = _
    rw [ih _ a (by omega), Function.update_noteq (by omega)]

/-- The ascending copy does what the standard promises. -/
theorem memcpyAscending_defined : MemcpyDefined memcpyAscending := by
  intro mem dst src n hdis a
  rcases hdis with h | h
  · exact memcpy_forward mem dst src n (by omega) a
  · unfold memcpyAscending
    refine foldl_range_inv (fun m k => Function.update m (dst + k) (m (src + k)))
      (fun k m => k ≤ n → ∀ a, m a
        = if dst ≤ a ∧ a < dst + k then mem (src + (a - dst)) else mem a)
      mem n ?_ ?_ (le_refl n) a
    · intro _ a
      rw [if_neg]; omega
    · intro k acc hk hp _ b
      have hp := hp (by omega)
      show Function.update acc (dst + k) (acc (src + k)) b = _
      by_cases hb : b = dst + k
      · subst hb
        rw [Function.update_same, hp (src + k), if_neg (by omega), if_pos (by omega)]
        congr 1; omega
      · rw [Function.update_noteq hb, hp b]
        by_cases hc : dst ≤ b ∧ b < dst + k
        · rw [if_pos hc, if_pos (by omega)]
        · rw [if_neg hc, if_neg (by omega)]

/-- The descending copy does what the standard promises. -/
theorem memcpyDescending_defined : MemcpyDefined memcpyDescending := by
  intro mem dst src n
  induction n generalizing mem with
  | zero =>
    intro _ a
    rw [if_neg (by omega)]; rfl
  | succ m ih =>
    intro hdis a
    show memcpyDescending (Function.update mem (dst + m) (mem (src + m))) dst src m a = _
    rw [ih _ (by omega)]
    by_cases hc : dst ≤ a ∧ a < dst + m
    · rw [if_pos hc, if_pos (by omega), Function.update_noteq (by omega)]
    · rw [if_neg hc]
      by_cases hb : a = dst + m
      · subst hb
        rw [Function.update_same, if_pos (by omega)]
        congr 1; omega
      · rw [Function.update_noteq hb, if_neg (by omega)]

/-- A descending copy reads the bytes beyond its destination region as they
were before the copy. -/
theorem memcpyDescending_beyond (dst x : Nat) :
    ∀ (n : Nat) (mem : Nat → Nat) (j : Nat), j < n → n ≤ j + x →
      memcpyDescending mem dst (dst + x) n (dst + j) = mem (dst + x + j) := by
  intro n
  induction n with
  | zero => intro mem j hj; omega
  | succ m ih =>
    intro mem j hj hx
    show memcpyDescending (Function.update mem (dst + m) (mem (dst + x + m))) dst (dst + x) m
      (dst + j) = _
    by_cases hjm : j = m
    · subst hjm
      rw [memcpyDescending_outside dst (dst + x) j _ (dst + j) (by omega),
        Function.update_same]
    · rw [ih _ j (by omega) (by omega), Function.update_noteq (by omega)]

/-- A descending copy onto a region that overlaps its source from below: the
byte `x` places before the end of the destination is not the byte its source
held, but the byte `x` places further on. -/
theorem memcpyDescending_overlap (mem : Nat → Nat) (dst x n : Nat) (hx0 : 0 < x)
    (hx : x < n) :
    memcpyDescending mem dst (dst + x) n (dst + (n - 1 - x)) = mem (dst + (n - 1 + x)) := by
  obtain ⟨m, rfl⟩ : ∃ m, n = m + 1 := ⟨n - 1, by omega⟩
  show memcpyDescending (Function.update mem (dst + m) (mem (dst + x + m))) dst (dst + x) m
    (dst + (m + 1 - 1 - x)) = _
  rw [memcpyDescending_beyond dst x m _ (m + 1 - 1 - x) (by omega) (by omega)]
  have e : dst + x + (m + 1 - 1 - x) = dst + m := by omega
  rw [e, Function.update_same]
  congr 1; omega

theorem clearBit0_le (x : Nat) (hx : x < 4294967296) : clearBit0 x ≤ x := by
  rw [clearBit0_eq x hx]; unfold roundDownEven; omega

theorem foldl_range_congr {α : Type} (f g : α → Nat → α) (a : α) (n : Nat)
    (h : ∀ k acc, k < n → f acc k = g acc k) :
    (List.range n).foldl f a = (List.range n).foldl g a := by
  refine foldl_range_inv f (fun k x => x = (List.range k).foldl g a) a n rfl ?_
  intro k acc hk hp
  rw [List.range_succ, List.foldl_append, ← hp, h k acc hk]
  rfl

/-- The rows of one plane copied downwards in place by calls of which each
moves the bytes its source held before it: every copied byte is the byte the
source held before the first copy, and nothing else changes. -/
theorem crop_rows (memcpy : (Nat → Nat) → Nat → Nat → Nat → Nat → Nat)
    (orig start : Nat → Nat) (cw rows dstBase srcBase W x yy : Nat)
    (hcw : cw ≤ W) (hbase : dstBase ≤ srcBase)
    (hcopy : ∀ k, k < rows → ∀ img a,
      memcpy img (dstBase + k * cw) (srcBase + W * (yy + k) + x) cw a
        = if dstBase + k * cw ≤ a ∧ a < dstBase + k * cw + cw
          then img (srcBase + W * (yy + k) + x + (a - (dstBase + k * cw))) else img a)
    (hstart : ∀ a, dstBase ≤ a → start a = orig a) :
    (∀ i, i < rows → ∀ j, j < cw →
      (List.range rows).foldl
        (fun img i => memcpy img (dstBase + i * cw) (srcBase + W * (yy + i) + x) cw) start
        (dstBase + i * cw + j) = orig (srcBase + W * (yy + i) + x + j)) ∧
    (∀ a, dstBase + rows * cw ≤ a →
      (List.range rows).foldl
        (fun img i => memcpy img (dstBase + i * cw) (srcBase + W * (yy + i) + x) cw) start a
        = orig a) ∧
    (∀ a, a < dstBase →
      (List.range rows).foldl
        (fun img i => memcpy img (dstBase + i * cw) (srcBase + W * (yy + i) + x) cw) start a
        = start a) := by
  refine foldl_range_inv
    (fun img i => memcpy img (dstBase + i * cw) (srcBase + W * (yy + i) + x) cw)
    (fun k out => k ≤ rows → ((∀ i, i < k → ∀ j, j < cw →
        out (dstBase + i * cw + j) = orig (srcBase + W * (yy + i) + x + j)) ∧
      (∀ a, dstBase + k * cw ≤ a → out a = orig a) ∧
      (∀ a, a < dstBase → out a = start a))) start rows ?_ ?_ (le_refl rows)
  · intro _
    refine ⟨fun i hi => absurd hi (Nat.not_lt_zero i), fun a ha => hstart a (by omega),
      fun _ _ => rfl⟩
  · intro k acc hk hp _
    obtain ⟨h1, h2, h3⟩ := hp (by omega)
    have hkW : k * cw ≤ W * (yy + k) := by
      calc k * cw ≤ k * W := Nat.mul_le_mul_left k hcw
        _ = W * k := Nat.mul_comm k W
        _ ≤ W * (yy + k) := Nat.mul_le_mul_left W (Nat.le_add_left k yy)
    have hsucc : (k + 1) * cw = k * cw + cw := Nat.succ_mul k cw
    refine ⟨?_, ?_, ?_⟩
    · intro i hi j hj
      show memcpy acc (dstBase + k * cw) (srcBase + W * (yy + k) + x) cw _ = _
      rw [hcopy k hk]
      by_cases hik : i = k
      · subst hik
        rw [if_pos (by omega), h2 _ (by omega)]
        congr 1; omega
      · have hlt : i < k := by omega
        have hmul : (i + 1) * cw ≤ k * cw := Nat.mul_le_mul_right cw hlt
        rw [Nat.succ_mul] at hmul
        rw [if_neg (by omega)]
        exact h1 i hlt j hj
    · intro a ha
      show memcpy acc (dstBase + k * cw) (srcBase + W * (yy + k) + x) cw _ = _
      rw [hcopy k hk, if_neg (by omega)]
      exact h2 a (by omega)
    · intro a ha
      show memcpy acc (dstBase + k * cw) (srcBase + W * (yy + k) + x) cw _ = _
      rw [hcopy k hk, if_neg (by omega)]
      exact h3 a ha

/-- The function `crop_yuv420` without the wrapping of the 32-bit arithmetic,
for an image that lies within the 32-bit address space. -/
theorem crop_yuv420_eq (memcpy : (Nat → Nat) → Nat → Nat → Nat → Nat → Nat)
    (width height cw ch : Nat) (image : Nat → Nat)
    (hw32 : width < 4294967296) (hh32 : height < 4294967296)
    (hcw : cw ≤ width) (hch : ch ≤ height)
    (hfit : width * height * 3 / 2 < 4294967296) :
    crop_yuv420 memcpy width height cw ch image =
      (List.range (ch / 2)).foldl
        (fun img i => memcpy img (cw * ch + i * cw)
          (width * height + width * (clearBit0 ((height - ch) / 2) / 2 + i)
            + clearBit0 ((width - cw) / 2)) cw)
        ((List.range ch).foldl
          (fun img i => memcpy img (0 + i * cw)
            (0 + width * (clearBit0 ((height - ch) / 2) + i)
              + clearBit0 ((width - cw) / 2)) cw) image) := by
  have hx : sub32 width cw / 2 = (width - cw) / 2 := by unfold sub32; omega
  have hy : sub32 height ch / 2 = (height - ch) / 2 := by unfold sub32; omega
  have hyle : clearBit0 ((height - ch) / 2) ≤ (height - ch) / 2 :=
    clearBit0_le _ (by omega)
  have hWH : width * height < 4294967296 := by omega
  have hcc : cw * ch ≤ width * height := Nat.mul_le_mul hcw hch
  have hwrap : ∀ n, n ≤ width * height → wrap32 n = n := by
    intro n hn; unfold wrap32; exact Nat.mod_eq_of_lt (by omega)
  have hrow : ∀ k, k < ch → k * cw ≤ width * height := by
    intro k hk
    calc k * cw ≤ ch * cw := Nat.mul_le_mul_right cw (Nat.le_of_lt hk)
      _ = cw * ch := Nat.mul_comm ch cw
      _ ≤ width * height := hcc
  have hsrc : ∀ r, r ≤ height → width * r ≤ width * height :=
    fun r hr => Nat.mul_le_mul_left width hr
  have hr32 : ∀ r, r ≤ height → wrap32 r = r := by
    intro r hr; unfold wrap32; exact Nat.mod_eq_of_lt (by omega)
  unfold crop_yuv420
  simp only [hx, hy]
  rw [hwrap _ (le_refl _), hwrap _ hcc]
  have hL : (List.range ch).foldl
      (fun img i => memcpy img (wrap32 (i * cw))
        (wrap32 (width * wrap32 (clearBit0 ((height - ch) / 2) + i))
          + clearBit0 ((width - cw) / 2)) cw) image
      = (List.range ch).foldl
        (fun img i => memcpy img (0 + i * cw)
          (0 + width * (clearBit0 ((height - ch) / 2) + i)
            + clearBit0 ((width - cw) / 2)) cw) image := by
    apply foldl_range_congr
    intro k acc hk
    show memcpy _ _ _ _ = memcpy _ _ _ _
    rw [hwrap _ (hrow k hk), hr32 (clearBit0 ((height - ch) / 2) + k) (by omega),
      hwrap _ (hsrc _ (by omega))]
    simp only [Nat.zero_add]
  rw [hL]
  apply foldl_range_congr
  intro k acc hk
  show memcpy _ _ _ _ = memcpy _ _ _ _
  rw [hwrap _ (hrow k (by omega)), hr32 (clearBit0 ((height - ch) / 2) / 2 + k) (by omega),
    hwrap _ (hsrc _ (by omega))]

/-- The cropped image when every call of `memcpy` moves the bytes its source
held before the call. -/
theorem crop_yuv420_of_copies (memcpy : (Nat → Nat) → Nat → Nat → Nat → Nat → Nat)
    (width height cropped_width cropped_height : Nat) (image : Nat → Nat)
    (hw32 : width < 4294967296) (hh32 : height < 4294967296)
    (hcw : cropped_width ≤ width) (hch : cropped_height ≤ height)
    (hfit : width * height * 3 / 2 < 4294967296)
    (hluma : ∀ k, k < cropped_height → ∀ img a,
      memcpy img (0 + k * cropped_width)
          (0 + width * (clearBit0 ((height - cropped_height) / 2) + k)
            + clearBit0 ((width - cropped_width) / 2)) cropped_width a
        = if 0 + k * cropped_width ≤ a ∧ a < 0 + k * cropped_width + cropped_width
          then img (0 + width * (clearBit0 ((height - cropped_height) / 2) + k)
            + clearBit0 ((width - cropped_width) / 2) + (a - (0 + k * cropped_width)))
          else img a)
    (hchroma : ∀ k, k < cropped_height / 2 → ∀ img a,
      memcpy img (cropped_width * cropped_height + k * cropped_width)
          (width * height + width * (clearBit0 ((height - cropped_height) / 2) / 2 + k)
            + clearBit0 ((width - cropped_width) / 2)) cropped_width a
        = if cropped_width * cropped_height + k * cropped_width ≤ a
            ∧ a < cropped_width * cropped_height + k * cropped_width + cropped_width
          then img (width * height
            + width * (clearBit0 ((height - cropped_height) / 2) / 2 + k)
            + clearBit0 ((width - cropped_width) / 2)
            + (a - (cropped_width * cropped_height + k * cropped_width)))
          else img a) :
    (∀ i, i < cropped_height → ∀ j, j < cropped_width →
      crop_yuv420 memcpy width height cropped_width cropped_height image
          (i * cropped_width + j)
        = image (width * (clearBit0 ((height - cropped_height) / 2) + i)
            + clearBit0 ((width - cropped_width) / 2) + j) ∧
      width * (clearBit0 ((height - cropped_height) / 2) + i)
            + clearBit0 ((width - cropped_width) / 2) + j < width * height) ∧
    (∀ i, i < cropped_height / 2 → ∀ j, j < cropped_width →
      crop_yuv420 memcpy width height cropped_width cropped_height image
          (cropped_width * cropped_height + i * cropped_width + j)
        = image (width * height
            + width * (clearBit0 ((height - cropped_height) / 2) / 2 + i)
            + clearBit0 ((width - cropped_width) / 2) + j) ∧
      width * (clearBit0 ((height - cropped_height) / 2) / 2 + i)
            + clearBit0 ((width - cropped_width) / 2) + j < width * (height / 2)) ∧
    (∀ a, cropped_width * cropped_height + cropped_height / 2 * cropped_width ≤ a →
      crop_yuv420 memcpy width height cropped_width cropped_height image a = image a) := by
  have hxle : clearBit0 ((width - cropped_width) / 2) ≤ (width - cropped_width) / 2 :=
    clearBit0_le _ (by omega)
  have hyle : clearBit0 ((height - cropped_height) / 2) ≤ (height - cropped_height) / 2 :=
    clearBit0_le _ (by omega)
  have hcc : cropped_width * cropped_height ≤ width * height := Nat.mul_le_mul hcw hch
  rw [crop_yuv420_eq memcpy width height cropped_width cropped_height image hw32 hh32 hcw hch
    hfit]
  obtain ⟨l1, l2, _⟩ := crop_rows memcpy image image cropped_width cropped_height 0 0 width
    (clearBit0 ((width - cropped_width) / 2)) (clearBit0 ((height - cropped_height) / 2))
    hcw (le_refl 0) hluma (fun _ _ => rfl)
  obtain ⟨c1, c2, c3⟩ := crop_rows memcpy image
    ((List.range cropped_height).foldl
      (fun img i => memcpy img (0 + i * cropped_width)
        (0 + width * (clearBit0 ((height - cropped_height) / 2) + i)
          + clearBit0 ((width - cropped_width) / 2)) cropped_width) image)
    cropped_width (cropped_height / 2) (cropped_width * cropped_height) (width * height) width
    (clearBit0 ((width - cropped_width) / 2)) (clearBit0 ((height - cropped_height) / 2) / 2)
    hcw hcc hchroma (fun a ha => l2 a (by rw [Nat.mul_comm] at ha; omega))
  refine ⟨?_, ?_, c2⟩
  · intro i hi j hj
    have hmul : (i + 1) * cropped_width ≤ cropped_height * cropped_width :=
      Nat.mul_le_mul_right _ hi
    rw [Nat.succ_mul, Nat.mul_comm cropped_height] at hmul
    have hrow : width * (clearBit0 ((height - cropped_height) / 2) + i + 1) ≤ width * height :=
      Nat.mul_le_mul_left _ (by omega)
    rw [Nat.mul_succ] at hrow
    constructor
    · rw [c3 _ (by omega)]
      have := l1 i hi j hj
      simp only [Nat.zero_add] at this ⊢
      exact this
    · omega
  · intro i hi j hj
    have hrow : width * (clearBit0 ((height - cropped_height) / 2) / 2 + i + 1)
        ≤ width * (height / 2) := Nat.mul_le_mul_left _ (by omega)
    rw [Nat.mul_succ] at hrow
    exact ⟨c1 i hi j hj, by omega⟩

/-- The function `crop_yuv420` is the sequence of its calls of `memcpy`. -/
theorem crop_yuv420_eq_calls (memcpy : (Nat → Nat) → Nat → Nat → Nat → Nat → Nat)
    (width height cw ch : Nat) (image : Nat → Nat) :
    crop_yuv420 memcpy width height cw ch image
      = (crop_yuv420_calls width height cw ch).foldl
          (fun img c => memcpy img c.dst c.src c.n) image := by
  simp only [crop_yuv420, crop_yuv420_calls, List.foldl_append, List.foldl_map]

/-- With a `memcpy` that copies ascending, `crop_yuv420` crops the image to its
centred window, also where a row overlaps its source. -/
theorem crop_yuv420_ascending (width height cropped_width cropped_height : Nat)
    (image : Nat → Nat)
    (hw32 : width < 4294967296) (hh32 : height < 4294967296)
    (hcw : cropped_width ≤ width) (hch : cropped_height ≤ height)
    (hfit : width * height * 3 / 2 < 4294967296) :
    (∀ i, i < cropped_height → ∀ j, j < cropped_width →
      crop_yuv420 memcpyAscending width height cropped_width cropped_height image
          (i * cropped_width + j)
        = image (width * (clearBit0 ((height - cropped_height) / 2) + i)
            + clearBit0 ((width - cropped_width) / 2) + j)) ∧
    (∀ i, i < cropped_height / 2 → ∀ j, j < cropped_width →
      crop_yuv420 memcpyAscending width height cropped_width cropped_height image
          (cropped_width * cropped_height + i * cropped_width + j)
        = image (width * height
            + width * (clearBit0 ((height - cropped_height) / 2) / 2 + i)
            + clearBit0 ((width - cropped_width) / 2) + j)) := by
  have hcc : cropped_width * cropped_height ≤ width * height := Nat.mul_le_mul hcw hch
  have hkW : ∀ k yy, k * cropped_width ≤ width * (yy + k) := by
    intro k yy
    calc k * cropped_width ≤ k * width := Nat.mul_le_mul_left k hcw
      _ = width * k := Nat.mul_comm k width
      _ ≤ width * (yy + k) := Nat.mul_le_mul_left width (Nat.le_add_left k yy)
  have hle : ∀ k yy b c x, b ≤ c → b + k * cropped_width ≤ c + width * (yy + k) + x := by
    intro k yy b c x hbc
    have := hkW k yy
    omega
  obtain ⟨h1, h2, _⟩ := crop_yuv420_of_copies memcpyAscending width height cropped_width
    cropped_height image hw32 hh32 hcw hch hfit
    (fun k _ img a => memcpy_forward img _ _ _ (hle k _ 0 0 _ (le_refl 0)) a)
    (fun k _ img a => memcpy_forward img _ _ _ (hle k _ _ _ _ hcc) a)
  exact ⟨fun i hi j hj => (h1 i hi j hj).1, fun i hi j hj => (h2 i hi j hj).1⟩

/-- With any `memcpy` that does what the standard promises, `crop_yuv420` crops
the image to its centred window when the window starts below the first row or
at least a window width from the left edge: then no call has overlapping
regions. -/
theorem crop_yuv420_disjoint (memcpy : (Nat → Nat) → Nat → Nat → Nat → Nat → Nat)
    (hdef : MemcpyDefined memcpy)
    (width height cropped_width cropped_height : Nat) (image : Nat → Nat)
    (hw32 : width < 4294967296) (hh32 : height < 4294967296)
    (hcw : cropped_width ≤ width) (hch : cropped_height ≤ height)
    (hfit : width * height * 3 / 2 < 4294967296)
    (hapart : 0 < clearBit0 ((height - cropped_height) / 2)
      ∨ cropped_width ≤ clearBit0 ((width - cropped_width) / 2)) :
    (∀ i, i < cropped_height → ∀ j, j < cropped_width →
      crop_yuv420 memcpy width height cropped_width cropped_height image
          (i * cropped_width + j)
        = image (width * (clearBit0 ((height - cropped_height) / 2) + i)
            + clearBit0 ((width - cropped_width) / 2) + j)) ∧
    (∀ i, i < cropped_height / 2 → ∀ j, j < cropped_width →
      crop_yuv420 memcpy width height cropped_width cropped_height image
          (cropped_width * cropped_height + i * cropped_width + j)
        = image (width * height
            + width * (clearBit0 ((height - cropped_height) / 2) / 2 + i)
            + clearBit0 ((width - cropped_width) / 2) + j)) := by
  have hcc : cropped_width * cropped_height ≤ width * height := Nat.mul_le_mul hcw hch
  have hy2 : 0 < clearBit0 ((height - cropped_height) / 2) →
      1 ≤ clearBit0 ((height - cropped_height) / 2) / 2 := by
    intro h
    rw [clearBit0_eq _ (by omega)] at h ⊢
    unfold roundDownEven at h ⊢
    omega
  have hkW : ∀ k yy, 1 ≤ yy → (k + 1) * cropped_width ≤ width * (yy + k) := by
    intro k yy hyy
    calc (k + 1) * cropped_width ≤ (k + 1) * width := Nat.mul_le_mul_left _ hcw
      _ = width * (k + 1) := Nat.mul_comm _ width
      _ ≤ width * (yy + k) := Nat.mul_le_mul_left width (by omega)
  have hkx : ∀ k yy, k * cropped_width ≤ width * (yy + k) := by
    intro k yy
    calc k * cropped_width ≤ k * width := Nat.mul_le_mul_left k hcw
      _ = width * k := Nat.mul_comm k width
      _ ≤ width * (yy + k) := Nat.mul_le_mul_left width (Nat.le_add_left k yy)
  obtain ⟨h1, h2, _⟩ := crop_yuv420_of_copies memcpy width height cropped_width
    cropped_height image hw32 hh32 hcw hch hfit
    (fun k _ img a => hdef img _ _ _ (Or.inl (by
      have e : (k + 1) * cropped_width = k * cropped_width + cropped_width := by ring
      rcases hapart with h | h
      · have := hkW k _ h; omega
      · have := hkx k (clearBit0 ((height - cropped_height) / 2)); omega)) a)
    (fun k _ img a => hdef img _ _ _ (Or.inl (by
      have e : (k + 1) * cropped_width = k * cropped_width + cropped_width := by ring
      rcases hapart with h | h
      · have := hkW k _ (hy2 h); omega
      · have := hkx k (clearBit0 ((height - cropped_height) / 2) / 2); omega)) a)
  exact ⟨fun i hi j hj => (h1 i hi j hj).1, fun i hi j hj => (h2 i hi j hj).1⟩

/-- C25: `crop_yuv420` calls `memcpy` on overlapping regions.  For sizes that
meet the conditions of the claim, a window that starts in the first row
(`y = 0`) and less than a window width from the left edge (`0 < x < cropped_width`),
the first call copies `cropped_width` bytes from offset `x` to offset `0`: the
regions overlap, where the standard promises nothing of `memcpy`.  The
descending copy does what the standard promises, and linked with it
`crop_yuv420` leaves in output luma byte `0 * cropped_width + j`,
`j = cropped_width - 1 - x`, not the original byte at `width * (y + 0) + x + j`
but the byte `x` places after it. -/
theorem crop_yuv420_overlapping_memcpy (width height cropped_width cropped_height : Nat)
    (image : Nat → Nat)
    (hw32 : width < 4294967296) (hh32 : height < 4294967296)
    (hcw : cropped_width ≤ width) (hch : cropped_height ≤ height)
    (hfit : width * height * 3 / 2 < 4294967296)
    (hrows : 0 < cropped_height)
    (hy : clearBit0 ((height - cropped_height) / 2) = 0)
    (hx0 : 0 < clearBit0 ((width - cropped_width) / 2))
    (hx : clearBit0 ((width - cropped_width) / 2) < cropped_width) :
    (crop_yuv420_calls width height cropped_width cropped_height).head?
      = some ⟨0, clearBit0 ((width - cropped_width) / 2), cropped_width⟩ ∧
    (memcpy_call.mk 0 (clearBit0 ((width - cropped_width) / 2)) cropped_width).overlaps
      = true ∧
    (∀ memcpy image, crop_yuv420 memcpy width height cropped_width cropped_height image
      = (crop_yuv420_calls width height cropped_width cropped_height).foldl
          (fun img c => memcpy img c.dst c.src c.n) image) ∧
    MemcpyDefined memcpyDescending ∧
    crop_yuv420 memcpyDescending width height cropped_width cropped_height image
        (0 * cropped_width + (cropped_width - 1 - clearBit0 ((width - cropped_width) / 2)))
      = image (width * (clearBit0 ((height - cropped_height) / 2) + 0)
          + clearBit0 ((width - cropped_width) / 2)
          + (cropped_width - 1 - clearBit0 ((width - cropped_width) / 2))
          + clearBit0 ((width - cropped_width) / 2)) := by
  refine ⟨?_, ?_, fun memcpy image => crop_yuv420_eq_calls memcpy _ _ _ _ image,
    memcpyDescending_defined, ?_⟩
  · obtain ⟨m, rfl⟩ : ∃ m, cropped_height = m + 1 := ⟨cropped_height - 1, by omega⟩
    have hxe : sub32 width cropped_width / 2 = (width - cropped_width) / 2 := by
      unfold sub32; omega
    have hye : sub32 height (m + 1) / 2 = (height - (m + 1)) / 2 := by unfold sub32; omega
    simp [crop_yuv420_calls, List.range_succ_eq_map, hxe, hye, hy, wrap32]
  · simp [memcpy_call.overlaps]
    omega
  · rw [crop_yuv420_eq memcpyDescending width height cropped_width cropped_height image hw32
      hh32 hcw hch hfit, hy]
    have hluma : (List.range cropped_height).foldl
        (fun img i => memcpyDescending img (0 + i * cropped_width)
          (0 + width * (0 + i) + clearBit0 ((width - cropped_width) / 2)) cropped_width) image
        (cropped_width - 1 - clearBit0 ((width - cropped_width) / 2))
        = image (cropped_width - 1 + clearBit0 ((width - cropped_width) / 2)) := by
      refine foldl_range_inv
        (fun img i => memcpyDescending img (0 + i * cropped_width)
          (0 + width * (0 + i) + clearBit0 ((width - cropped_width) / 2)) cropped_width)
        (fun k img => (k = 0 → img = image) ∧ (1 ≤ k →
          img (cropped_width - 1 - clearBit0 ((width - cropped_width) / 2))
            = image (cropped_width - 1 + clearBit0 ((width - cropped_width) / 2))))
        image cropped_height ⟨fun _ => rfl, fun h => absurd h (by omega)⟩ ?_ |>.2 hrows
      intro k acc _ ⟨p0, p1⟩
      refine ⟨fun h => absurd h (by omega), fun _ => ?_⟩
      show memcpyDescending acc (0 + k * cropped_width)
        (0 + width * (0 + k) + clearBit0 ((width - cropped_width) / 2)) cropped_width _ = _
      by_cases hk : k = 0
      · subst hk
        rw [p0 rfl]
        have := memcpyDescending_overlap image 0
          (clearBit0 ((width - cropped_width) / 2)) cropped_width hx0 hx
        simpa using this
      · have hmul : 1 * cropped_width ≤ k * cropped_width :=
          Nat.mul_le_mul_right _ (by omega)
        rw [memcpyDescending_outside _ _ _ _ _ (Or.inl (by omega))]
        exact p1 (by omega)
    have hmul : cropped_width * 1 ≤ cropped_width * cropped_height :=
      Nat.mul_le_mul_left _ hrows
    have hchroma := foldl_range_inv
      (fun img i => memcpyDescending img (cropped_width * cropped_height + i * cropped_width)
        (width * height + width * (0 / 2 + i) + clearBit0 ((width - cropped_width) / 2))
        cropped_width)
      (fun _ img => img (cropped_width - 1 - clearBit0 ((width - cropped_width) / 2))
        = image (cropped_width - 1 + clearBit0 ((width - cropped_width) / 2)))
      _ (cropped_height / 2) hluma
      (fun k acc _ hp => by
        show memcpyDescending acc _ _ _ _ = _
        rw [memcpyDescending_outside _ _ _ _ _ (Or.inl (by omega))]
        exact hp)
    simp only [Nat.zero_mul, Nat.zero_add, Nat.add_zero, Nat.mul_zero] at hchroma ⊢
    rw [hchroma]
    congr 1
    omega

theorem crop_yuv420_overlapping_memcpy_witness :
    (crop_yuv420_calls 8 2 4 2).head? = some ⟨0, clearBit0 ((8 - 4) / 2), 4⟩ ∧
    (memcpy_call.mk 0 2 4).overlaps = true ∧
    crop_yuv420 memcpyDescending 8 2 4 2 (fun a => a)
        (0 * 4 + (4 - 1 - clearBit0 ((8 - 4) / 2)))
      = (fun a => a) (8 * (clearBit0 ((2 - 2) / 2) + 0) + clearBit0 ((8 - 4) / 2)
          + (4 - 1 - clearBit0 ((8 - 4) / 2)) + clearBit0 ((8 - 4) / 2)) ∧
    (List.range 12).map (crop_yuv420 memcpyDescending 8 2 4 2 (fun a => a))
      = [4, 5, 4, 5, 10, 11, 12, 13, 18, 19, 20, 21] ∧
    (List.range 12).map (crop_yuv420 memcpyAscending 8 2 4 2 (fun a => a))
      = [2, 3, 4, 5, 10, 11, 12, 13, 18, 19, 20, 21] :=
  have h := crop_yuv420_overlapping_memcpy 8 2 4 2 (fun a => a) (by decide) (by decide)
    (by decide) (by decide) (by decide) (by decide) (by decide) (by decide) (by decide)
  ⟨h.1, by decide, h.2.2.2.2, by decide, by decide⟩

/-! ## Workers and the preview state machine -/

theorem isLaunch_of_deviceCall (role : ThreadRole) (e : Event) (h : isDeviceCall e = true) :
    isLaunch role e = false := by
  cases e <;> simp_all [isDeviceCall, isLaunch]

theorem launches_append (role : ThreadRole) (l m : List Event) :
    launches role (l ++ m) = launches role l + launches role m := by
  simp [launches, List.countP_append]

theorem launches_deviceCalls (role : ThreadRole) (l : List Event)
    (h : ∀ e ∈ l, isDeviceCall e = true) : launches role l = 0 :=
  countP_of_deviceCalls (isLaunch role) (isLaunch_of_deviceCall role) l h

theorem launches_releasePmem (role : ThreadRole) (env : Env)
    (others : List (Option PmemPool)) (q : Option PmemPool) :
    launches role (releasePmem env others q) = 0 :=
  countP_releasePmem _ (isLaunch_of_deviceCall role) env others q

theorem launches_releaseJpeg (role : ThreadRole) (q : Option MemPool) :
    launches role (releaseJpeg q) = 0 :=
  countP_releaseJpeg _ (isLaunch_of_deviceCall role) q

theorem launches_PmemPool_new (role : ThreadRole) (env : Env) (pmem_pool : String) (fd : Int)
    (t : msm_pmem_t) (buffer_size num_buffers frame_size : Int) (name : String) :
    launches role (PmemPool.new env pmem_pool fd t buffer_size num_buffers frame_size name).2
      = 0 :=
  countP_PmemPool_new _ (isLaunch_of_deviceCall role) env pmem_pool fd t _ _ _ name

theorem Quiet.stay (s : QualcommCameraHardware) : Quiet s s :=
  ⟨rfl, rfl, rfl, rfl, rfl, fun _ => rfl⟩

theorem Quiet.andThen {a b c : QualcommCameraHardware} (h1 : Quiet a b) (h2 : Quiet b c) :
    Quiet a c :=
  ⟨h2.1.trans h1.1, h2.2.1.trans h1.2.1, h2.2.2.1.trans h1.2.2.1,
   h2.2.2.2.1.trans h1.2.2.2.1, h2.2.2.2.2.1.trans h1.2.2.2.2.1,
   fun r => (h2.2.2.2.2.2 r).trans (h1.2.2.2.2.2 r)⟩

theorem Quiet.branch {a : QualcommCameraHardware} (c : Prop) [Decidable c]
    {x y : QualcommCameraHardware} (hx : Quiet a x) (hy : Quiet a y) :
    Quiet a (if c then x else y) := by
  split_ifs <;> assumption

theorem quiet_ctrl_command (env : Env) (s : QualcommCameraHardware) (fd : Int)
    (t : cam_ctrl_type) (v : CtrlValue) : Quiet s (ctrl_command env s fd t v).2 := by
  refine ⟨rfl, rfl, rfl, rfl, rfl, fun r => ?_⟩
  simp [ctrl_command, launches, List.countP_append, isLaunch]

theorem quiet_clearRawHeap (env : Env) (s : QualcommCameraHardware) :
    Quiet s (clearRawHeap env s) := by
  refine ⟨rfl, rfl, rfl, rfl, rfl, fun r => ?_⟩
  simp [clearRawHeap, launches_append, launches_releasePmem]

theorem quiet_clearThumbnailHeap (env : Env) (s : QualcommCameraHardware) :
    Quiet s (clearThumbnailHeap env s) := by
  refine ⟨rfl, rfl, rfl, rfl, rfl, fun r => ?_⟩
  simp [clearThumbnailHeap, launches_append, launches_releasePmem]

theorem quiet_clearDisplayHeap (env : Env) (s : QualcommCameraHardware) :
    Quiet s (clearDisplayHeap env s) := by
  refine ⟨rfl, rfl, rfl, rfl, rfl, fun r => ?_⟩
  simp [clearDisplayHeap, launches_append, launches_releasePmem]

theorem quiet_clearJpegHeap (s : QualcommCameraHardware) : Quiet s (clearJpegHeap s) := by
  refine ⟨rfl, rfl, rfl, rfl, rfl, fun r => ?_⟩
  simp [clearJpegHeap, launches_append, launches_releaseJpeg]

theorem quiet_newRawHeap (env : Env) (s : QualcommCameraHardware) (pmem_pool : String) :
    Quiet s (newRawHeap env s pmem_pool) := by
  refine ⟨rfl, rfl, rfl, rfl, rfl, fun r => ?_⟩
  simp [newRawHeap, launches_append, launches_releasePmem, launches_PmemPool_new]

theorem quiet_initRawSizes (s : QualcommCameraHardware) (w h : Int) :
    Quiet s (initRawSizes s w h) :=
  ⟨rfl, rfl, rfl, rfl, rfl, fun _ => rfl⟩

theorem quiet_initRawJpegHeap (env : Env) (s : QualcommCameraHardware) :
    Quiet s (initRawJpegHeap env s) := by
  refine ⟨rfl, rfl, rfl, rfl, rfl, fun r => ?_⟩
  simp [initRawJpegHeap, launches_append, launches_releaseJpeg]

theorem quiet_initRawThumbnailHeap (env : Env) (s : QualcommCameraHardware) :
    Quiet s (initRawThumbnailHeap env s) := by
  refine ⟨rfl, rfl, rfl, rfl, rfl, fun r => ?_⟩
  simp [initRawThumbnailHeap, launches_append, launches_releasePmem, launches_PmemPool_new]

theorem quiet_initRawPools (env : Env) (a s : QualcommCameraHardware) (w h : Int) (b : Bool)
    (hk : Quiet a s) : Quiet a (initRawPools env s w h b).2 := by
  have h2 : Quiet a (if s.mJpegHeap.isSome then clearJpegHeap s else s) :=
    Quiet.branch _ (hk.andThen (quiet_clearJpegHeap s)) hk
  unfold initRawPools
  simp only []
  generalize (if s.mJpegHeap.isSome then clearJpegHeap s else s) = s2 at h2 ⊢
  have h3 := h2.andThen (quiet_initRawSizes s2 w h)
  generalize initRawSizes s2 w h = s3 at h3 ⊢
  have h4 := h3.andThen (quiet_newRawHeap env s3 "/dev/pmem_camera")
  generalize newRawHeap env s3 "/dev/pmem_camera" = s4 at h4 ⊢
  have h5 : Quiet a (if !pmemInitialized s4.mRawHeap then
      newRawHeap env s4 "/dev/pmem_adsp" else s4) :=
    Quiet.branch _ (h4.andThen (quiet_newRawHeap env s4 _)) h4
  generalize (if !pmemInitialized s4.mRawHeap then
      newRawHeap env s4 "/dev/pmem_adsp" else s4) = s5 at h5 ⊢
  have h6 := h5.andThen (quiet_initRawJpegHeap env s5)
  generalize initRawJpegHeap env s5 = s6 at h6 ⊢
  have h7 := h6.andThen (quiet_initRawThumbnailHeap env s6)
  generalize initRawThumbnailHeap env s6 = s7 at h7 ⊢
  split_ifs
  · exact h5.andThen (quiet_clearRawHeap env s5)
  · exact (h6.andThen (quiet_clearJpegHeap s6)).andThen (quiet_clearRawHeap env _)
  · exact ((h7.andThen (quiet_clearThumbnailHeap env s7)).andThen (quiet_clearJpegHeap _)).andThen
      (quiet_clearRawHeap env _)
  · exact h7
  · exact h5

theorem quiet_initRaw (env : Env) (s : QualcommCameraHardware) (b : Bool) :
    Quiet s (initRaw env s b).2 := by
  rw [initRaw_eq]
  have h1 : Quiet s
      (native_set_parm env s .CAMERA_SET_PARM_DIMENSION (.dimension s.mDimension)).2 :=
    quiet_ctrl_command env s _ _ _
  split_ifs
  · exact h1
  · exact quiet_initRawPools env s _ _ _ b h1

theorem quiet_deinitPreview (s : QualcommCameraHardware) : Quiet s (deinitPreview s) := by
  refine ⟨rfl, rfl, rfl, rfl, rfl, fun r => ?_⟩
  simp [deinitPreview, launches, List.countP_append, isLaunch]

theorem quiet_deinitRaw (env : Env) (s : QualcommCameraHardware) :
    Quiet s (deinitRaw env s) := by
  unfold deinitRaw
  exact (((quiet_clearThumbnailHeap env s).andThen (quiet_clearJpegHeap _)).andThen
    (quiet_clearRawHeap env _)).andThen (quiet_clearDisplayHeap env _)

theorem quiet_append (s : QualcommCameraHardware) (l : List Event)
    (hl : ∀ role, launches role l = 0) : Quiet s { s with log := s.log ++ l } :=
  ⟨rfl, rfl, rfl, rfl, rfl, fun r => by simp [launches_append, hl r]⟩


theorem quiet_setDisplayHeap (env : Env) (s : QualcommCameraHardware) (p : Option PmemPool) :
    Quiet s (setDisplayHeap env s p) := by
  refine ⟨rfl, rfl, rfl, rfl, rfl, fun r => ?_⟩
  simp [setDisplayHeap, launches_append, launches_releasePmem]

theorem quiet_notifyShutter (env : Env) (s : QualcommCameraHardware) (crop : common_crop_t) :
    Quiet s (notifyShutter env s crop) := by
  unfold notifyShutter
  refine Quiet.branch _ ?_ (Quiet.stay s)
  simp only []
  have h1 := quiet_setDisplayHeap env s s.mRawHeap
  generalize setDisplayHeap env s s.mRawHeap = s1 at h1 ⊢
  have h2 : Quiet s (if (shutterDisplay s1.mDimension crop).2 then
      setDisplayHeap env s1 s1.mThumbnailHeap else s1) :=
    Quiet.branch _ (h1.andThen (quiet_setDisplayHeap env s1 _)) h1
  generalize (if (shutterDisplay s1.mDimension crop).2 then
      setDisplayHeap env s1 s1.mThumbnailHeap else s1) = s2 at h2 ⊢
  exact h2.andThen ⟨rfl, rfl, rfl, rfl, rfl, fun r => by
    simp [launches, List.countP_append, isLaunch]⟩

theorem quiet_native_get_picture (env : Env) (s : QualcommCameraHardware) (fd : Int) :
    Quiet s (native_get_picture env s fd).2 := by
  unfold native_get_picture
  cases env.get_picture <;>
    exact ⟨rfl, rfl, rfl, rfl, rfl, fun r => by simp [launches, List.countP_append, isLaunch]⟩

theorem quiet_receiveRawImage (env : Env) (s : QualcommCameraHardware)
    (r : Bool × QualcommCameraHardware) (hres : receiveRawImage env s = some r) :
    Quiet s r.2 := by
  unfold receiveRawImage at hres
  by_cases hraw : (s.mDataCallback && s.msgTypeEnabled CAMERA_MSG_RAW_IMAGE) = true
  · rw [if_pos hraw] at hres
    have h1 := quiet_native_get_picture env s s.mCameraControlFd
    generalize native_get_picture env s s.mCameraControlFd = g at h1 hres
    obtain ⟨got, s1⟩ := g
    simp only [] at h1 hres
    cases got
    · simp only [Bool.not_false, if_true, Option.some.injEq] at hres
      subst hres
      exact h1
    · simp only [Bool.not_true, Bool.false_eq_true, if_false] at hres
      generalize hs3 : notifyShutter env _ _ = s3 at hres
      have h3 : Quiet s s3 := by
        rw [← hs3]
        exact h1.andThen (Quiet.andThen ⟨rfl, rfl, rfl, rfl, rfl, fun _ => rfl⟩
          (quiet_notifyShutter env _ _))
      split at hres
      · simp at hres
      · rename_i s4 hs4
        have h4 : Quiet s s4 := by
          split at hs4
          · split at hs4
            · split at hs4
              · simp only [Option.some.injEq] at hs4
                subst hs4
                exact h3.andThen ⟨rfl, rfl, rfl, rfl, rfl, fun r => by
                  simp [launches, List.countP_append, isLaunch]⟩
              · simp at hs4
            · simp at hs4
          · simp only [Option.some.injEq] at hs4
            subst hs4
            exact h3
        split at hres
        · simp at hres
        · simp only [Option.some.injEq] at hres
          subst hres
          exact h4.andThen ⟨rfl, rfl, rfl, rfl, rfl, fun r => by
            simp [launches, List.countP_append, isLaunch]⟩
  · rw [if_neg hraw] at hres
    simp only [Option.some.injEq] at hres
    subst hres
    exact Quiet.stay s

theorem quiet_jpeg_encoder_call (env : Env) (s : QualcommCameraHardware) (call : jpeg_call) :
    Quiet s (jpeg_encoder_call env s call).2 :=
  ⟨rfl, rfl, rfl, rfl, rfl, fun r => by
    simp [jpeg_encoder_call, launches, List.countP_append, isLaunch]⟩

theorem quiet_jpeg_set_location (env : Env) (s : QualcommCameraHardware) :
    Quiet s (jpeg_set_location env s) := by
  unfold jpeg_set_location
  simp only []
  exact Quiet.branch _ (quiet_jpeg_encoder_call env s .setLocation) (Quiet.stay s)

theorem quiet_native_jpeg_encode (env : Env) (s : QualcommCameraHardware)
    (r : Bool × QualcommCameraHardware) (hres : native_jpeg_encode env s = some r) :
    Quiet s r.2 := by
  unfold native_jpeg_encode at hres
  simp only [] at hres
  have step : ∀ (c : Prop) [Decidable c] (t : QualcommCameraHardware) (call : jpeg_call),
      Quiet t (if c then jpeg_encoder_call env t call else (true, t)).2 := by
    intro c _ t call
    split_ifs
    · exact quiet_jpeg_encoder_call env t call
    · exact Quiet.stay t
  have h1 := step (s.mParameters.getInt .KEY_JPEG_QUALITY ≥ 0) s
    (.setMainImageQuality (s.mParameters.getInt .KEY_JPEG_QUALITY))
  generalize (if s.mParameters.getInt .KEY_JPEG_QUALITY ≥ 0 then
    jpeg_encoder_call env s (.setMainImageQuality (s.mParameters.getInt .KEY_JPEG_QUALITY))
    else (true, s)) = r1 at h1 hres
  obtain ⟨ok1, s1⟩ := r1
  simp only [] at h1 hres
  cases ok1
  · simp only [Bool.not_false, if_true, Option.some.injEq] at hres
    subst hres
    exact h1
  · simp only [Bool.not_true, Bool.false_eq_true, if_false] at hres
    have h2 := step (s1.mParameters.getInt .KEY_JPEG_THUMBNAIL_QUALITY ≥ 0) s1
      (.setThumbnailQuality (s1.mParameters.getInt .KEY_JPEG_THUMBNAIL_QUALITY))
    generalize (if s1.mParameters.getInt .KEY_JPEG_THUMBNAIL_QUALITY ≥ 0 then
      jpeg_encoder_call env s1
        (.setThumbnailQuality (s1.mParameters.getInt .KEY_JPEG_THUMBNAIL_QUALITY))
      else (true, s1)) = r2 at h2 hres
    obtain ⟨ok2, s2⟩ := r2
    simp only [] at h2 hres
    cases ok2
    · simp only [Bool.not_false, if_true, Option.some.injEq] at hres
      subst hres
      exact h1.andThen h2
    · simp only [Bool.not_true, Bool.false_eq_true, if_false] at hres
      have h3 := step (s2.mParameters.getInt .KEY_ROTATION ≥ 0) s2
        (.setRotation (s2.mParameters.getInt .KEY_ROTATION))
      generalize (if s2.mParameters.getInt .KEY_ROTATION ≥ 0 then
        jpeg_encoder_call env s2 (.setRotation (s2.mParameters.getInt .KEY_ROTATION))
        else (true, s2)) = r3 at h3 hres
      obtain ⟨ok3, s3⟩ := r3
      simp only [] at h3 hres
      cases ok3
      · simp only [Bool.not_false, if_true, Option.some.injEq] at hres
        subst hres
        exact (h1.andThen h2).andThen h3
      · simp only [Bool.not_true, Bool.false_eq_true, if_false] at hres
        have h4 := quiet_jpeg_set_location env s3
        generalize jpeg_set_location env s3 = s4 at h4 hres
        split at hres
        · simp only [Option.some.injEq] at hres
          subst hres
          exact (((h1.andThen h2).andThen h3).andThen h4).andThen (quiet_jpeg_encoder_call env s4 _)
        · simp at hres

theorem quiet_receiveRawPicture (env : Env) (s s' : QualcommCameraHardware)
    (hres : receiveRawPicture env s = some s') : Quiet s s' := by
  unfold receiveRawPicture at hres
  cases hr : receiveRawImage env s with
  | none => simp [hr] at hres
  | some r =>
    have h1 := quiet_receiveRawImage env s r hr
    obtain ⟨went, s1⟩ := r
    simp only [] at h1
    rw [hr] at hres
    cases went
    · simp only [Option.some.injEq] at hres
      subst hres
      exact h1
    · simp only [] at hres
      split_ifs at hres with hc hi
      · have h2 : Quiet s (jpeg_encoder_call env { s1 with mJpegSize := 0 } .init).2 :=
          (h1.andThen ⟨rfl, rfl, rfl, rfl, rfl, fun _ => rfl⟩).andThen
            (quiet_jpeg_encoder_call env _ _)
        generalize (jpeg_encoder_call env { s1 with mJpegSize := 0 } .init).2 = s2 at h2 hres
        cases hn : native_jpeg_encode env s2 with
        | none => simp [hn] at hres
        | some q =>
          have h3 := h2.andThen (quiet_native_jpeg_encode env s2 q hn)
          obtain ⟨ok, s3⟩ := q
          rw [hn] at hres
          cases ok
          · simp only [Option.some.injEq] at hres
            subst hres
            exact h3.andThen (quiet_deinitRaw env s3)
          · simp only [Option.some.injEq] at hres
            subst hres
            exact h3
      · simp only [Option.some.injEq] at hres
        subst hres
        exact (h1.andThen ⟨rfl, rfl, rfl, rfl, rfl, fun _ => rfl⟩).andThen
          ((quiet_jpeg_encoder_call env _ _).andThen (quiet_deinitRaw env _))
      · simp only [Option.some.injEq] at hres
        subst hres
        exact h1.andThen (quiet_deinitRaw env s1)


theorem Quiet.markedRunning {s s' : QualcommCameraHardware} (h : Quiet s s')
    (role : ThreadRole) : markedRunning s' role = markedRunning s role := by
  cases role
  · exact h.2.2.1
  · exact h.2.2.2.1
  · exact h.2.2.2.2.1

theorem CallEffect.ofQuietChange {s s' : QualcommCameraHardware} (h : Quiet s s') :
    CallEffect s s' :=
  ⟨fun hi hr => by rw [h.2.1]; exact hi (by rw [← h.1]; exact hr),
   fun role => Or.inl ⟨h.markedRunning role, h.2.2.2.2.2 role⟩⟩

theorem CallEffect.unchanged (s : QualcommCameraHardware) : CallEffect s s :=
  CallEffect.ofQuietChange (Quiet.stay s)

theorem CallEffect.thenEffect {a b c : QualcommCameraHardware} (h1 : CallEffect a b)
    (h2 : CallEffect b c) : CallEffect a c := by
  refine ⟨fun hi => h2.1 (h1.1 hi), fun role => ?_⟩
  rcases h1.2 role with ⟨f1, l1⟩ | ⟨f1, g1, l1⟩ <;>
  rcases h2.2 role with ⟨f2, l2⟩ | ⟨f2, g2, l2⟩
  · exact Or.inl ⟨f2.trans f1, l2.trans l1⟩
  · exact Or.inr ⟨by rw [← f1]; exact f2, g2, by rw [l2, l1]⟩
  · exact Or.inr ⟨f1, by rw [f2]; exact g1, by rw [l2, l1]⟩
  · rw [g1] at f2; exact absurd f2 (by simp)

theorem CallEffect.branchEffect {a : QualcommCameraHardware} (c : Prop) [Decidable c]
    {x y : QualcommCameraHardware} (hx : CallEffect a x) (hy : CallEffect a y) :
    CallEffect a (if c then x else y) := by
  split_ifs <;> assumption

theorem Calm.ofQuiet {s s' : QualcommCameraHardware} (h : Quiet s s') : Calm s s' :=
  ⟨fun hi hr => by rw [h.2.1]; exact hi (by rw [← h.1]; exact hr),
   fun role => ⟨h.markedRunning role, h.2.2.2.2.2 role⟩⟩

theorem Calm.stayCalm (s : QualcommCameraHardware) : Calm s s := Calm.ofQuiet (Quiet.stay s)

theorem Calm.thenCalm {a b c : QualcommCameraHardware} (h1 : Calm a b) (h2 : Calm b c) :
    Calm a c :=
  ⟨fun hi => h2.1 (h1.1 hi),
   fun role => ⟨(h2.2 role).1.trans (h1.2 role).1, (h2.2 role).2.trans (h1.2 role).2⟩⟩

theorem Calm.branchCalm {a : QualcommCameraHardware} (c : Prop) [Decidable c]
    {x y : QualcommCameraHardware} (hx : Calm a x) (hy : Calm a y) :
    Calm a (if c then x else y) := by
  split_ifs <;> assumption

theorem Calm.callEffect {s s' : QualcommCameraHardware} (h : Calm s s') : CallEffect s s' :=
  ⟨h.1, fun role => Or.inl (h.2 role)⟩

/-- Stopping the preview launches nothing, leaves the running flags alone and
keeps the preview state machine. -/
theorem calm_stopPreviewInternal (env : Env) (s : QualcommCameraHardware) :
    Calm s (stopPreviewInternal env s) := by
  have hlog := stopPreviewInternal_log env s
  have hfields : (stopPreviewInternal env s).mFrameThreadRunning = s.mFrameThreadRunning ∧
      (stopPreviewInternal env s).mSnapshotThreadRunning = s.mSnapshotThreadRunning ∧
      (stopPreviewInternal env s).mAutoFocusThreadRunning = s.mAutoFocusThreadRunning ∧
      ((stopPreviewInternal env s).mCameraRunning = true →
        s.mCameraRunning = true ∧
        (stopPreviewInternal env s).mPreviewInitialized = s.mPreviewInitialized) := by
    unfold stopPreviewInternal cancelAutoFocusInternal native_cancel_afmode native_stop_preview
      ctrl_command deinitPreview
    cases hrun : s.mCameraRunning <;>
    cases hg : (s.mNotifyCallback && s.msgTypeEnabled CAMERA_MSG_FOCUS) <;>
    cases hst : env.ioctl_ctrl .CAMERA_STOP_PREVIEW <;>
    cases hpi : s.mPreviewInitialized <;> simp [hrun, hg, hst, hpi]
  obtain ⟨f1, f2, f3, f4⟩ := hfields
  refine ⟨fun hi hr => ?_, fun role => ⟨?_, ?_⟩⟩
  · rw [(f4 hr).2]; exact hi (f4 hr).1
  · cases role
    · exact f1
    · exact f2
    · exact f3
  · rw [hlog, launches_append]
    have : launches role (if s.mCameraRunning then
        (if s.mNotifyCallback && s.msgTypeEnabled CAMERA_MSG_FOCUS then
          [Event.ioctl_ctrl s.mCameraControlFd .CAMERA_AUTO_FOCUS_CANCEL .null
            (env.ioctl_ctrl .CAMERA_AUTO_FOCUS_CANCEL)] else [])
        ++ [Event.ioctl_ctrl s.mCameraControlFd .CAMERA_STOP_PREVIEW .null
            (env.ioctl_ctrl .CAMERA_STOP_PREVIEW)]
        ++ (if env.ioctl_ctrl .CAMERA_STOP_PREVIEW && s.mPreviewInitialized then
          [Event.camframe_terminate] else [])
      else []) = 0 := by
      split_ifs <;> simp [launches, isLaunch]
    omega


theorem launches_PmemPool_destroy (role : ThreadRole) (env : Env) (q : PmemPool) :
    launches role (q.destroy env) = 0 :=
  launches_deviceCalls role _ (deviceCalls_PmemPool_destroy env q)

theorem launches_nil (role : ThreadRole) : launches role [] = 0 := rfl

theorem launches_cons (role : ThreadRole) (e : Event) (l : List Event) :
    launches role (e :: l) = launches role l + (if isLaunch role e then 1 else 0) := by
  simp [launches, List.countP_cons]

theorem launches_launch (role r : ThreadRole) (ok : Bool) :
    launches role [Event.pthread_create r ok] = if ok = true ∧ r = role then 1 else 0 := by
  simp [launches, List.countP_cons, isLaunch]

/-- Marking a role that was not marked with the outcome of its launch. -/
theorem roleEffect_launch (role r : ThreadRole) (ok : Bool) (s s' : QualcommCameraHardware)
    (hfalse : markedRunning s r = false)
    (hflag : markedRunning s' r = ok)
    (hothers : ∀ q, q ≠ r → markedRunning s' q = markedRunning s q)
    (hlog : s'.log = s.log ++ [Event.pthread_create r ok]) :
    RoleEffect role s s' := by
  unfold RoleEffect
  rw [hlog, launches_append, launches_launch]
  by_cases hr : r = role
  · subst hr
    cases ok
    · left; exact ⟨by rw [hflag, hfalse], by simp⟩
    · right; exact ⟨hfalse, hflag, by simp⟩
  · left
    exact ⟨hothers role (fun h => hr h.symm), by simp [hr]⟩

/-- What `initPreview` does when it proceeds: the frame worker was not marked
running, it is marked exactly when it was launched, and nothing else of the
preview state, the flags or the launches changes. -/
theorem initPreview_effect (env : Env) (s : QualcommCameraHardware)
    (r : Bool × QualcommCameraHardware) (hinit : initPreview env s = some r) :
    r.2.mCameraRunning = s.mCameraRunning ∧
    r.2.mPreviewInitialized = s.mPreviewInitialized ∧
    ∀ role, RoleEffect role s r.2 := by
  unfold initPreview at hinit
  simp only at hinit
  split_ifs at hinit with h1 h2 h3 h4
  all_goals simp only [Option.some.injEq] at hinit
  all_goals subst hinit
  · refine ⟨rfl, rfl, fun role => Or.inl ⟨by cases role <;> rfl, ?_⟩⟩
    simp [launches_append, launches_PmemPool_new, launches_releasePmem,
      launches_PmemPool_destroy]
  · refine ⟨rfl, rfl, fun role => ?_⟩
    have h1' : s.mFrameThreadRunning = false := by simpa using h1
    unfold RoleEffect
    cases role <;> cases hp : env.pthread_create .frame <;>
      simp [markedRunning, native_set_parm, ctrl_command, launches_append,
        launches_PmemPool_new, launches_releasePmem, launches_cons, launches_nil, isLaunch,
        h1', hp]
  · refine ⟨rfl, rfl, fun role => Or.inl ⟨by cases role <;> rfl, ?_⟩⟩
    simp [native_set_parm, ctrl_command, launches_append, launches_PmemPool_new,
      launches_releasePmem, launches_cons, launches_nil, isLaunch]


theorem RoleEffect.extend {role : ThreadRole} {s t s' : QualcommCameraHardware}
    (h : RoleEffect role s t) (hf : markedRunning s' role = markedRunning t role)
    (hl : launches role s'.log = launches role t.log) : RoleEffect role s s' := by
  unfold RoleEffect at h ⊢
  rw [hf, hl]
  exact h

theorem RoleEffect.unchangedRole (role : ThreadRole) (s : QualcommCameraHardware) :
    RoleEffect role s s := Or.inl ⟨rfl, rfl⟩

/-- The part of `startPreviewInternal` after the preview has been initialised:
the start command, and the undoing of the initialisation when it fails. -/
theorem startPreview_tail (env : Env) (t : QualcommCameraHardware) (role : ThreadRole)
    (r : status_t × QualcommCameraHardware)
    (hres : (if !(native_start_preview env t t.mCameraControlFd).1 then
        some (UNKNOWN_ERROR,
          { deinitPreview { (native_start_preview env t t.mCameraControlFd).2 with
              mCameraRunning := (native_start_preview env t t.mCameraControlFd).1 } with
            mPreviewInitialized := false })
      else some (NO_ERROR,
        { (native_start_preview env t t.mCameraControlFd).2 with
          mCameraRunning := (native_start_preview env t t.mCameraControlFd).1 })) = some r) :
    (t.mPreviewInitialized = true → PreviewInv r.2) ∧
    markedRunning r.2 role = markedRunning t role ∧
    launches role r.2.log = launches role t.log := by
  cases hst : env.ioctl_ctrl .CAMERA_START_PREVIEW <;>
    simp [native_start_preview, ctrl_command, deinitPreview, hst] at hres <;>
    subst hres <;>
    refine ⟨?_, by cases role <;> rfl, ?_⟩ <;>
    simp [PreviewInv, launches_append, launches_cons, launches_nil, isLaunch]


theorem callEffect_startPreviewInternal (env : Env) (s : QualcommCameraHardware)
    (r : status_t × QualcommCameraHardware) (hres : startPreviewInternal env s = some r) :
    CallEffect s r.2 := by
  unfold startPreviewInternal at hres
  by_cases hrun : s.mCameraRunning = true
  · rw [if_pos hrun] at hres
    simp only [Option.some.injEq] at hres
    subst hres
    exact CallEffect.unchanged s
  · rw [if_neg hrun] at hres
    simp only [] at hres
    cases hpi : s.mPreviewInitialized
    · simp only [hpi, Bool.not_false, if_true] at hres
      cases hi : initPreview env s with
      | none => simp [hi] at hres
      | some q =>
        obtain ⟨e1, e2, e3⟩ := initPreview_effect env s q hi
        obtain ⟨ok, s1⟩ := q
        simp only [hi, Option.map_some'] at hres
        cases ok
        · simp only [Option.some.injEq] at hres
          subst hres
          refine ⟨fun _ hr => ?_, fun role => (e3 role).extend (by cases role <;> rfl) rfl⟩
          simp only [] at e1 hr
          rw [e1] at hr
          exact absurd hr hrun
        · simp only [] at hres
          have key := fun role =>
            startPreview_tail env { s1 with mPreviewInitialized := true } role r hres
          refine ⟨fun _ => (key .frame).1 rfl, fun role => ?_⟩
          exact (e3 role).extend ((key role).2.1.trans (by cases role <;> rfl)) (key role).2.2
    · simp only [hpi, Bool.not_true, Bool.false_eq_true, if_false] at hres
      have key := fun role => startPreview_tail env s role r hres
      exact ⟨fun _ => (key .frame).1 hpi, fun role => Or.inl ⟨(key role).2.1, (key role).2.2⟩⟩


/-- A launch of a worker whose role is not marked running, with the flag set
to the outcome. -/
theorem callEffect_launch (r : ThreadRole) (ok : Bool) (t t' : QualcommCameraHardware)
    (hrun : t'.mCameraRunning = t.mCameraRunning)
    (hpi : t'.mPreviewInitialized = t.mPreviewInitialized)
    (hfalse : markedRunning t r = false)
    (hflag : markedRunning t' r = ok)
    (hothers : ∀ q, q ≠ r → markedRunning t' q = markedRunning t q)
    (hlog : t'.log = t.log ++ [Event.pthread_create r ok]) :
    CallEffect t t' :=
  ⟨fun hi h => by rw [hpi]; exact hi (by rw [← hrun]; exact h),
   fun role => roleEffect_launch role r ok t t' hfalse hflag hothers hlog⟩

theorem callEffect_takePicture (env : Env) (s : QualcommCameraHardware)
    (r : status_t × QualcommCameraHardware) (hres : takePicture env s = some r) :
    CallEffect s r.2 := by
  unfold takePicture at hres
  by_cases hflag : s.mSnapshotThreadRunning = true
  · rw [if_pos hflag] at hres
    simp at hres
  · rw [if_neg hflag] at hres
    have h1 : Calm s (native_prepare_snapshot env s s.mCameraControlFd).2 :=
      Calm.ofQuiet (quiet_ctrl_command env s _ _ _)
    generalize native_prepare_snapshot env s s.mCameraControlFd = g at h1 hres
    obtain ⟨prepared, s1⟩ := g
    simp only [] at h1 hres
    cases prepared
    · simp only [Bool.not_false, if_true, Option.some.injEq] at hres
      subst hres
      exact h1.callEffect
    · simp only [Bool.not_true, Bool.false_eq_true, if_false] at hres
      have h2 := h1.thenCalm (calm_stopPreviewInternal env s1)
      generalize stopPreviewInternal env s1 = s2 at h2 hres
      have h3 := h2.thenCalm (Calm.ofQuiet (quiet_initRaw env s2
        (s2.mDataCallback && s2.msgTypeEnabled CAMERA_MSG_COMPRESSED_IMAGE)))
      generalize initRaw env s2
        (s2.mDataCallback && s2.msgTypeEnabled CAMERA_MSG_COMPRESSED_IMAGE) = g3 at h3 hres
      obtain ⟨ok, s3⟩ := g3
      simp only [] at h3 hres
      cases ok
      · simp only [Bool.not_false, if_true, Option.some.injEq] at hres
        subst hres
        exact h3.callEffect
      · simp only [Bool.not_true, Bool.false_eq_true, if_false, Option.some.injEq] at hres
        subst hres
        refine h3.callEffect.thenEffect (callEffect_launch .snapshot (env.pthread_create .snapshot)
          s3 _ rfl rfl ?_ rfl (fun q hq => by cases q <;> first | rfl | exact absurd rfl hq) rfl)
        have := (h3.2 .snapshot).1
        simp only [markedRunning] at this ⊢
        rw [this]
        simpa using hflag

theorem callEffect_autoFocus (env : Env) (s : QualcommCameraHardware) :
    CallEffect s (autoFocus env s).2 := by
  unfold autoFocus
  by_cases hfd : s.mCameraControlFd < 0
  · rw [if_pos hfd]; exact CallEffect.unchanged s
  · rw [if_neg hfd]
    cases hflag : s.mAutoFocusThreadRunning
    · simp only [Bool.not_false, if_true]
      have : CallEffect s { s with
          mAutoFocusThreadRunning := env.pthread_create .autofocus
          log := s.log ++ [Event.pthread_create .autofocus (env.pthread_create .autofocus)] } :=
        callEffect_launch .autofocus (env.pthread_create .autofocus) s _ rfl rfl hflag rfl
          (fun q hq => by cases q <;> first | rfl | exact absurd rfl hq) rfl
      split_ifs <;> exact this
    · simp only [Bool.not_true, Bool.false_eq_true, if_false]
      exact CallEffect.unchanged s


theorem calm_release (env : Env) (releasing : Bool) (s : QualcommCameraHardware) :
    Calm s (release env releasing s).2 := by
  unfold release
  by_cases hlib : (env.DLOPEN_LIBMMCAMERA && !s.libmmcamera) = true
  · rw [if_pos hlib]; exact Calm.stayCalm s
  · rw [if_neg hlib]
    have h1 : Calm s (if s.mCameraRunning then
        stopPreviewInternal env
          (if s.mDataCallbackTimestamp && s.msgTypeEnabled CAMERA_MSG_VIDEO_FRAME then
            { s with mReleasedRecordingFrame := true } else s)
        else s) := by
      refine Calm.branchCalm _ ?_ (Calm.stayCalm s)
      refine Calm.thenCalm ?_ (calm_stopPreviewInternal env _)
      exact Calm.branchCalm _ (Calm.ofQuiet ⟨rfl, rfl, rfl, rfl, rfl, fun _ => rfl⟩) (Calm.stayCalm s)
    simp only []
    generalize (if s.mCameraRunning then
        stopPreviewInternal env
          (if s.mDataCallbackTimestamp && s.msgTypeEnabled CAMERA_MSG_VIDEO_FRAME then
            { s with mReleasedRecordingFrame := true } else s)
        else s) = s1 at h1 ⊢
    have h2 : Calm s (deinitRaw env { s1 with log := s1.log ++ [Event.jpeg_encoder_join] }) :=
      h1.thenCalm (Calm.ofQuiet (Quiet.andThen
        (quiet_append s1 [Event.jpeg_encoder_join] (fun r => by
          simp [launches_cons, launches_nil, isLaunch]))
        (quiet_deinitRaw env _)))
    generalize deinitRaw env { s1 with log := s1.log ++ [Event.jpeg_encoder_join] } = s2
      at h2 ⊢
    have h3 := h2.thenCalm (Calm.ofQuiet
      (quiet_ctrl_command env s2 s2.mCameraControlFd .CAMERA_EXIT .null))
    generalize (ctrl_command env s2 s2.mCameraControlFd .CAMERA_EXIT .null).2 = s3 at h3 ⊢
    have h4 : Calm s { s3 with
        log := s3.log ++ [Event.release_cam_conf_thread, Event.close s3.mCameraControlFd]
        mCameraControlFd := -1 } :=
      h3.thenCalm (Calm.ofQuiet ⟨rfl, rfl, rfl, rfl, rfl, fun r => by
        simp [launches_append, launches_cons, launches_nil, isLaunch]⟩)
    split_ifs
    · exact h4.thenCalm (Calm.ofQuiet ⟨rfl, rfl, rfl, rfl, rfl, fun r => by
        simp [launches_append, launches_cons, launches_nil, isLaunch]⟩)
    · exact h4

theorem calm_stopPreview (env : Env) (s : QualcommCameraHardware) :
    Calm s (stopPreview env s) := by
  unfold stopPreview
  exact Calm.branchCalm _ (Calm.stayCalm s) (calm_stopPreviewInternal env s)

theorem calm_stopRecording (env : Env) (s : QualcommCameraHardware) :
    Calm s (stopRecording env s) := by
  unfold stopRecording
  have h0 : Calm s { s with mReleasedRecordingFrame := true } :=
    Calm.ofQuiet ⟨rfl, rfl, rfl, rfl, rfl, fun _ => rfl⟩
  simp only []
  exact Calm.branchCalm _ h0 (h0.thenCalm (calm_stopPreviewInternal env _))

theorem calm_cancelAutoFocus (env : Env) (s : QualcommCameraHardware) :
    Calm s (cancelAutoFocus env s).2 := by
  unfold cancelAutoFocus
  split_ifs
  · unfold cancelAutoFocusInternal native_cancel_afmode
    exact Calm.ofQuiet (quiet_ctrl_command env s _ _ _)
  · exact Calm.stayCalm s

theorem callEffect_startRecording (env : Env) (s : QualcommCameraHardware)
    (r : status_t × QualcommCameraHardware) (hres : startRecording env s = some r) :
    CallEffect s r.2 :=
  (Calm.ofQuiet (⟨rfl, rfl, rfl, rfl, rfl, fun _ => rfl⟩ :
    Quiet s { s with mReleasedRecordingFrame := false })).callEffect.thenEffect
    (callEffect_startPreviewInternal env _ r hres)

/-- Every call that returns keeps the preview state machine, and for each
role either leaves the flag and the launches alone or launches one worker of a
role that was not marked running and marks it. -/
theorem call_effect (env : Env) (c : Call) (s s' : QualcommCameraHardware)
    (h : c.run env s = some s') : CallEffect s s' := by
  cases c <;> simp only [Call.run, Option.map_eq_some', Option.some.injEq] at h
  · obtain ⟨r, hr, rfl⟩ := h
    exact callEffect_startPreviewInternal env s r hr
  · subst h; exact (calm_stopPreview env s).callEffect
  · obtain ⟨r, hr, rfl⟩ := h
    exact callEffect_startRecording env s r hr
  · subst h; exact (calm_stopRecording env s).callEffect
  · subst h
    exact (Calm.ofQuiet (⟨rfl, rfl, rfl, rfl, rfl, fun _ => rfl⟩ :
      Quiet s (releaseRecordingFrame s))).callEffect
  · obtain ⟨r, hr, rfl⟩ := h
    exact callEffect_takePicture env s r hr
  · subst h; exact callEffect_autoFocus env s
  · subst h; exact (calm_cancelAutoFocus env s).callEffect
  · subst h; exact (calm_release env false s).callEffect


theorem WorkerEffect.of_quiet_clear {role : ThreadRole} {s t s' : QualcommCameraHardware}
    (h : Quiet s t) (hrun : s'.mCameraRunning = t.mCameraRunning)
    (hpi : s'.mPreviewInitialized = t.mPreviewInitialized)
    (hflag : markedRunning s' role = false)
    (hothers : ∀ r, r ≠ role → markedRunning s' r = markedRunning t r)
    (hlog : ∀ r, launches r s'.log = launches r t.log) : WorkerEffect role s s' :=
  ⟨hrun.trans h.1, hpi.trans h.2.1, hflag,
   fun r hr => (hothers r hr).trans (h.markedRunning r),
   fun r => (hlog r).trans (h.2.2.2.2.2 r)⟩

theorem workerEffect_runFrameThread (env : Env) (s : QualcommCameraHardware) :
    WorkerEffect .frame s (runFrameThread env s) :=
  ⟨rfl, rfl, rfl, fun r hr => by cases r <;> first | rfl | exact absurd rfl hr,
   fun r => by simp [runFrameThread, launches_append, launches_releasePmem]⟩

theorem workerEffect_runSnapshotThread (env : Env) (s s' : QualcommCameraHardware)
    (hres : runSnapshotThread env s = some s') : WorkerEffect .snapshot s s' := by
  unfold runSnapshotThread at hres
  have h1 : Quiet s (native_start_snapshot env s s.mCameraControlFd).2 :=
    quiet_ctrl_command env s _ _ _
  generalize native_start_snapshot env s s.mCameraControlFd = g at h1 hres
  obtain ⟨started, s1⟩ := g
  simp only [Option.map_eq_some'] at h1 hres
  obtain ⟨t, ht, rfl⟩ := hres
  have h2 : Quiet s t := by
    cases started
    · simp only [Bool.false_eq_true, if_false, Option.some.injEq] at ht
      subst ht
      exact h1
    · simp only [if_true] at ht
      exact h1.andThen (quiet_receiveRawPicture env s1 t ht)
  exact WorkerEffect.of_quiet_clear h2 rfl rfl rfl
    (fun r hr => by cases r <;> first | rfl | exact absurd rfl hr) (fun _ => rfl)

theorem workerEffect_runAutoFocusDone (env : Env) (s : QualcommCameraHardware)
    (status libhandle : Bool) :
    WorkerEffect .autofocus s (runAutoFocusDone env s status libhandle) := by
  unfold runAutoFocusDone
  simp only []
  split_ifs <;>
    exact ⟨rfl, rfl, rfl, fun r hr => by cases r <;> first | rfl | exact absurd rfl hr,
      fun r => by simp [launches_append, launches_cons, launches_nil, isLaunch]⟩

theorem WorkerEffect.after_quiet {role : ThreadRole} {s t s' : QualcommCameraHardware}
    (h : Quiet s t) (h2 : WorkerEffect role t s') : WorkerEffect role s s' :=
  ⟨h2.1.trans h.1, h2.2.1.trans h.2.1, h2.2.2.1,
   fun r hr => (h2.2.2.2.1 r hr).trans (h.markedRunning r),
   fun r => (h2.2.2.2.2 r).trans (h.2.2.2.2.2 r)⟩

theorem workerEffect_runAutoFocus (env : Env) (s s' : QualcommCameraHardware)
    (hres : runAutoFocus env s = some s') : WorkerEffect .autofocus s s' := by
  unfold runAutoFocus at hres
  cases hm : s.mParameters.get .KEY_FOCUS_MODE with
  | none => simp [hm] at hres
  | some mode =>
    simp only [hm] at hres
    by_cases hinf : mode = "infinity"
    · rw [if_pos hinf] at hres
      simp only [Option.some.injEq] at hres
      subst hres
      exact workerEffect_runAutoFocusDone env s true false
    · rw [if_neg hinf] at hres
      by_cases hfd : env.open_control < 0
      · rw [if_pos hfd] at hres
        simp only [Option.some.injEq] at hres
        subst hres
        exact ⟨rfl, rfl, rfl, fun r hr => by cases r <;> first | rfl | exact absurd rfl hr,
          fun r => by simp [launches_append, launches_cons, launches_nil, isLaunch]⟩
      · rw [if_neg hfd] at hres
        have h1 : Quiet s (if env.DLOPEN_LIBMMCAMERA then
            { s with mAutoFocusFd := env.open_control
                     log := s.log ++ [Event.open_control env.open_control]
                       ++ [Event.dlopen env.dlopen] }
            else { s with mAutoFocusFd := env.open_control
                          log := s.log ++ [Event.open_control env.open_control] }) := by
          split_ifs <;>
            exact ⟨rfl, rfl, rfl, rfl, rfl, fun r => by
              simp [launches_append, launches_cons, launches_nil, isLaunch]⟩
        generalize hs1 : (if env.DLOPEN_LIBMMCAMERA then _ else _ : QualcommCameraHardware) = s1
          at hres
        have h1' : Quiet s s1 := by rw [← hs1]; exact h1
        by_cases hdl : (env.DLOPEN_LIBMMCAMERA && !env.dlopen) = true
        · rw [if_pos hdl] at hres
          simp only [Option.some.injEq] at hres
          subst hres
          exact WorkerEffect.of_quiet_clear h1' rfl rfl rfl
            (fun r hr => by cases r <;> first | rfl | exact absurd rfl hr)
            (fun r => by simp [launches_append, launches_cons, launches_nil, isLaunch])
        · rw [if_neg hdl] at hres
          have h2 := h1'.andThen (quiet_ctrl_command env s1 s1.mAutoFocusFd
            .CAMERA_SET_PARM_AUTO_FOCUS (.enumerator .AF_MODE_AUTO))
          unfold native_set_afmode at hres
          generalize ctrl_command env s1 s1.mAutoFocusFd
            .CAMERA_SET_PARM_AUTO_FOCUS (.enumerator .AF_MODE_AUTO) = g at h2 hres
          obtain ⟨status, s2⟩ := g
          simp only [Option.some.injEq] at h2 hres
          subst hres
          refine WorkerEffect.after_quiet (h2.andThen ?_) (workerEffect_runAutoFocusDone env _ _ true)
          exact ⟨rfl, rfl, rfl, rfl, rfl, fun r => by
            simp [launches_append, launches_cons, launches_nil, isLaunch]⟩


/-- The completion of a worker clears the flag of its role and nothing else
of the preview state, the flags or the launches. -/
theorem worker_effect (env : Env) (role : ThreadRole) (s s' : QualcommCameraHardware)
    (h : workerBody env role s = some s') : WorkerEffect role s s' := by
  cases role <;> simp only [workerBody, Option.some.injEq] at h
  · subst h; exact workerEffect_runFrameThread env s
  · exact workerEffect_runSnapshotThread env s s' h
  · exact workerEffect_runAutoFocus env s s' h

theorem step_previewInv (sys sys' : System) (hstep : Step sys sys')
    (h : PreviewInv sys.session) : PreviewInv sys'.session := by
  cases hstep with
  | call env c _ s' hc => exact (call_effect env c _ s' hc).1 h
  | complete env role _ s' _ hw =>
    obtain ⟨e1, e2, -⟩ := worker_effect env role _ s' hw
    intro hr
    simp only [] at hr ⊢
    rw [e2]; exact h (by rw [← e1]; exact hr)
  | progress _ s' hq => exact (Calm.ofQuiet hq).1 h

theorem step_workers (sys sys' : System) (hstep : Step sys sys')
    (h : ∀ role, launches role sys.session.log
      = sys.completed role + (if markedRunning sys.session role then 1 else 0)) :
    ∀ role, launches role sys'.session.log
      = sys'.completed role + (if markedRunning sys'.session role then 1 else 0) := by
  intro role
  cases hstep with
  | call env c _ s' hc =>
    rcases (call_effect env c _ s' hc).2 role with ⟨f, l⟩ | ⟨f, g, l⟩
    · simp only []
      rw [f, l]; exact h role
    · simp only []
      have := h role
      rw [f] at this
      rw [g, l, this]
      simp
  | complete env r _ s' hlt hw =>
    obtain ⟨-, -, e3, e4, e5⟩ := worker_effect env r _ s' hw
    simp only []
    by_cases hr : role = r
    · subst hr
      have := h role
      rw [Function.update_same, e3, e5]
      cases hm : markedRunning sys.session role
      · rw [hm] at this; simp at this; omega
      · rw [hm] at this; simp at this ⊢; omega
    · rw [Function.update_noteq hr, e4 role hr, e5]
      exact h role
  | progress _ s' hq =>
    simp only []
    rw [hq.markedRunning role, hq.2.2.2.2.2 role]
    exact h role

theorem reachable_previewInv (sys0 sys : System) (h0 : PreviewInv sys0.session)
    (hreach : Reachable sys0 sys) : PreviewInv sys.session := by
  induction hreach with
  | start => exact h0
  | step a b _ hstep ih => exact step_previewInv a b hstep ih

theorem reachable_workers (sys0 sys : System)
    (h0 : ∀ role, launches role sys0.session.log
      = sys0.completed role + (if markedRunning sys0.session role then 1 else 0))
    (hreach : Reachable sys0 sys) :
    ∀ role, launches role sys.session.log
      = sys.completed role + (if markedRunning sys.session role then 1 else 0) := by
  induction hreach with
  | start => exact h0
  | step a b _ hstep ih => exact step_workers a b hstep ih

theorem takePicture_returns (env : Env) (s : QualcommCameraHardware)
    (h : s.mSnapshotThreadRunning = false) : (takePicture env s).isSome = true := by
  unfold takePicture
  simp only [h, Bool.false_eq_true, if_false]
  split_ifs <;> rfl

/-- C22: in every state reached from an idle session by calls with any device
outcomes, completions of launched workers and quiet progress of workers and
callbacks, the number of workers of each role that were launched and have
not completed is 1 if the role is marked running and 0 otherwise, so it is at
most one.  A call launches a worker of a role only in a state where no worker
of that role is live and the role is not marked running, it launches one, and
marks the role; the completion of a worker clears the flag of its role.  While
the snapshot worker is marked running `takePicture` does not proceed, and once
the flag is clear it returns. -/
theorem one_worker_per_role (sys0 sys : System)
    (hidle : ∀ role, markedRunning sys0.session role = false ∧
      sys0.completed role = launches role sys0.session.log)
    (hreach : Reachable sys0 sys) :
    (∀ role, sys.live role = if markedRunning sys.session role then 1 else 0) ∧
    (∀ role, sys.live role ≤ 1) ∧
    (∀ env c s' role, Call.run env c sys.session = some s' →
      launches role sys.session.log < launches role s'.log →
      sys.live role = 0 ∧ markedRunning sys.session role = false ∧
      launches role s'.log = launches role sys.session.log + 1 ∧
      markedRunning s' role = true) ∧
    (∀ env role s', workerBody env role sys.session = some s' →
      markedRunning s' role = false ∧
      ∀ r, launches r s'.log = launches r sys.session.log) ∧
    (∀ env, sys.session.mSnapshotThreadRunning = true →
      takePicture env sys.session = none) ∧
    (∀ env, sys.session.mSnapshotThreadRunning = false →
      (takePicture env sys.session).isSome = true) := by
  have hinv := reachable_workers sys0 sys
    (fun role => by rw [(hidle role).1, (hidle role).2]; simp) hreach
  have hlive : ∀ role, sys.live role = if markedRunning sys.session role then 1 else 0 := by
    intro role
    unfold System.live
    rw [hinv role]
    omega
  refine ⟨hlive, ?_, ?_, ?_, ?_, fun env h => takePicture_returns env sys.session h⟩
  · intro role
    rw [hlive role]
    split_ifs <;> omega
  · intro env c s' role hc hlt
    rcases (call_effect env c _ s' hc).2 role with ⟨_, l⟩ | ⟨f, g, l⟩
    · omega
    · refine ⟨?_, f, l, g⟩
      rw [hlive role, f]
      simp
  · intro env role s' hw
    obtain ⟨-, -, e3, -, e5⟩ := worker_effect env role _ s' hw
    exact ⟨e3, e5⟩
  · intro env h
    unfold takePicture
    rw [if_pos h]

theorem one_worker_per_role_witness :
    (∀ role, sampleCapturingSystem.live role
      = if markedRunning sampleCapturingSystem.session role then 1 else 0) ∧
    sampleCapturingSystem.live .snapshot = 1 ∧
    (takePicture (sampleEnv (fun _ => true) (fun _ _ => true))
      sampleCapturingSystem.session).isNone = true :=
  ⟨(one_worker_per_role sampleIdleSystem sampleCapturingSystem
      (fun role => by cases role <;> exact ⟨rfl, rfl⟩)
      (Reachable.step _ _ Reachable.start
        (Step.call (sampleEnv (fun _ => true) (fun _ _ => true)) .takePicture
          sampleIdleSystem sampleCaptured rfl))).1,
   by decide, by decide⟩

/-- C24: in every state reached from a session that is not previewing, such
as the freshly constructed one, by `startPreview`, `stopPreview`,
`startRecording`, `stopRecording`, `takePicture`, `release` and the other
calls, with any device outcomes, and by completions and progress of the
workers, `mCameraRunning` implies `mPreviewInitialized`. -/
theorem running_implies_initialized (sys0 sys : System)
    (hidle : sys0.session.mCameraRunning = false) (hreach : Reachable sys0 sys) :
    sys.session.mCameraRunning = true → sys.session.mPreviewInitialized = true :=
  reachable_previewInv sys0 sys (fun h => by rw [hidle] at h; exact absurd h (by simp)) hreach

theorem running_implies_initialized_witness :
    sampleFreshSystem.session = QualcommCameraHardware.new [] false false ∧
    samplePreviewingSystem.session.mCameraRunning = true ∧
    (samplePreviewingSystem.session.mCameraRunning = true →
      samplePreviewingSystem.session.mPreviewInitialized = true) :=
  ⟨rfl, by decide,
   running_implies_initialized sampleFreshSystem samplePreviewingSystem rfl
    (Reachable.step _ _ Reachable.start
      (Step.call (sampleEnv (fun _ => true) (fun _ _ => true)) .startPreview
        sampleFreshSystem _ rfl))⟩

end android
